import Mathlib

/-! Volume expansion: desired-state cache, reconciler and resize conditions.

A shallow embedding of

* `pkg/controller/volume/expand/cache/desired_state_of_world.go`
* `pkg/controller/volume/expand/reconciler/reconciler.go`
* `pkg/volume/util/resize_util.go` (`MergeResizeConditionOnPVC`, `MarkFSResizeFinished`,
  `PatchPVCStatus`)
* `pkg/volume/util/operationexecutor/volume_operation.go` (`NodeExpandVolume`)
* `pkg/volume/util/types/types.go` (`GeneratedOperations.Run`, the operation failures)
* `pkg/api/persistentvolumeclaim/util.go` (`DropDisabledFields`, `SetAllocatedResources`)
* `pkg/scheduler/algorithm/predicates/csi_volume_predicate.go` (`attachableLimitPredicate`)

Go maps are association lists with pairwise distinct keys, `none` standing for
the nil map.  A `range` over a map visits the entries in an order the language
leaves open; every function that ranges over a map takes that order as a
`RangeOrder` argument, and the theorems hold for all of them.  Pointers to
claims are modelled by the claim value (a non-nil pointer); a pointer that the
code tests against nil is an `Option`.  A run-time panic is `Except.error`.
Calls that leave the process (API server, volume plugin, event recorder) are
functions handed in, and every call made is recorded in a list of `Effect`s.
-/

namespace Expand

/-! ## Go maps -/

/-- Order in which a `range` statement visits the entries of a map: some
permutation of the entries. -/
structure RangeOrder where
  visit : {α : Type} → List α → List α
  perm : ∀ {α : Type} (l : List α), (visit l).Perm l

/-- Entries are visited in the stored order. -/
def RangeOrder.stored : RangeOrder where
  visit := fun l => l
  perm := fun l => List.Perm.refl l

/-- Entries are visited in the reverse of the stored order. -/
def RangeOrder.reversed : RangeOrder where
  visit := fun l => l.reverse
  perm := fun l => List.reverse_perm l

/-- Map lookup `m[k]` with the comma-ok form: the value stored under `k`. -/
def mapLookup {ν : Type} (k : String) : List (String × ν) → Option ν
  | [] => none
  | (k', v) :: rest => if k' = k then some v else mapLookup k rest

/-- Map assignment `m[k] = v` on a non-nil map: the value under an existing key
is replaced in place, a new key gets a new entry. -/
def mapAssign {ν : Type} (k : String) (v : ν) : List (String × ν) → List (String × ν)
  | [] => [(k, v)]
  | (k', v') :: rest => if k' = k then (k, v) :: rest else (k', v') :: mapAssign k v rest

/-! ## API objects -/

/-- Numeric value of a `resource.Quantity`. -/
structure Quantity where
  value : Int
  deriving DecidableEq, Repr

/-- Counterpart of `Quantity.Cmp`: -1, 0 or 1. -/
def Quantity.Cmp (q y : Quantity) : Int :=
  if q.value < y.value then -1 else if q.value = y.value then 0 else 1

/-- A `v1.ResourceList`, a map from resource name to quantity; `none` is nil. -/
abbrev ResourceList := Option (List (String × Quantity))

/-- The resource name `v1.ResourceStorage`. -/
def ResourceStorage : String := "storage"

/-- Indexing a resource list, `l[name]`: a missing key (and any key of a nil
map) reads as the zero quantity. -/
def ResourceList.index (l : ResourceList) (name : String) : Quantity :=
  match l with
  | none => ⟨0⟩
  | some entries =>
    match mapLookup name entries with
    | some q => q
    | none => ⟨0⟩

/-- A `v1.PersistentVolumeClaimCondition`; the time is a clock reading. -/
structure PersistentVolumeClaimCondition where
  Type_ : String
  Status : String
  LastTransitionTime : Nat
  Reason : String
  Message : String
  deriving DecidableEq, Repr

/-- Condition type `v1.PersistentVolumeClaimResizing`. -/
def PersistentVolumeClaimResizing : String := "Resizing"

/-- Condition type `v1.PersistentVolumeClaimFileSystemResizePending`. -/
def PersistentVolumeClaimFileSystemResizePending : String := "FileSystemResizePending"

structure ResourceRequirements where
  Requests : ResourceList
  deriving DecidableEq, Repr

structure PersistentVolumeClaimSpec where
  Resources : ResourceRequirements
  deriving DecidableEq, Repr

structure PersistentVolumeClaimStatus where
  Capacity : ResourceList
  Conditions : List PersistentVolumeClaimCondition
  deriving DecidableEq, Repr

/-- A `v1.PersistentVolumeClaim`, with the fields the expansion code reads. -/
structure PersistentVolumeClaim where
  UID : String
  Namespace : String
  Name : String
  Spec : PersistentVolumeClaimSpec
  Status : PersistentVolumeClaimStatus
  deriving DecidableEq, Repr

structure ObjectReference where
  Namespace : String
  Name : String
  deriving DecidableEq, Repr

/-- A `v1.PersistentVolume`, with the fields the expansion code reads. -/
structure PersistentVolume where
  Name : String
  Capacity : ResourceList
  ClaimRef : Option ObjectReference
  deriving DecidableEq, Repr

/-- A `volume.Spec`. -/
structure VolumeSpec where
  PersistentVolume : Option PersistentVolume
  ReadOnly : Bool
  InlineVolumeSpecForCSIMigration : Bool
  deriving DecidableEq, Repr

/-! ## Desired state of world (`cache/desired_state_of_world.go`) -/

/-- A `PvcWithResizeRequest`. -/
structure PvcWithResizeRequest where
  PVC : PersistentVolumeClaim
  VolumeSpec : Option VolumeSpec
  CurrentSize : Quantity
  ExpectedSize : Quantity
  ResizeDone : Bool
  deriving DecidableEq, Repr

/-- Counterpart of `(*PvcWithResizeRequest).UniquePvcKey`. -/
def PvcWithResizeRequest.UniquePvcKey (pvcr : PvcWithResizeRequest) : String :=
  pvcr.PVC.UID

/-- The `desiredStateOfWorld` struct: `pvcrs` is a map, `none` the nil map. -/
structure desiredStateOfWorld where
  pvcrs : Option (List (String × PvcWithResizeRequest))
  deriving DecidableEq, Repr

/-- Counterpart of `NewDesiredStateOfWorld`: the struct literal leaves `pvcrs`
at its zero value, the nil map. -/
def NewDesiredStateOfWorld : desiredStateOfWorld :=
  { pvcrs := none }

/-- Counterpart of `(*desiredStateOfWorld).AddPvcUpdate`.  Both `newSize` and
`oldSize` are read from `newPvc.Spec.Resources.Requests`; an assignment into
the nil map panics. -/
def desiredStateOfWorld.AddPvcUpdate (dsow : desiredStateOfWorld)
    (newPvc : PersistentVolumeClaim) (_oldPvc : Option PersistentVolumeClaim)
    (spec : Option VolumeSpec) : Except String desiredStateOfWorld :=
  let newSize := newPvc.Spec.Resources.Requests.index ResourceStorage
  let oldSize := newPvc.Spec.Resources.Requests.index ResourceStorage
  if newSize.Cmp oldSize > 0 then
    let pvcRequest : PvcWithResizeRequest :=
      { PVC := newPvc
        CurrentSize := newPvc.Status.Capacity.index ResourceStorage
        ExpectedSize := newSize
        VolumeSpec := spec
        ResizeDone := false }
    match dsow.pvcrs with
    | none => .error "assignment to entry in nil map"
    | some entries => .ok { pvcrs := some (mapAssign newPvc.UID pvcRequest entries) }
  else
    .ok dsow

/-- Counterpart of `(*desiredStateOfWorld).GetPvcsWithResizeRequest`: the
entries whose `ResizeDone` is false, in the order the range visits them. -/
def desiredStateOfWorld.GetPvcsWithResizeRequest (ord : RangeOrder)
    (dsow : desiredStateOfWorld) : List PvcWithResizeRequest :=
  let entries := match dsow.pvcrs with
    | none => []
    | some entries => entries
  (ord.visit entries).foldl
    (fun pvcrs entry => if !entry.2.ResizeDone then pvcrs ++ [entry.2] else pvcrs) []

/-- Counterpart of `(*desiredStateOfWorld).MarkAsResized`: the entry found
under the request's key gets `ResizeDone = true`. -/
def desiredStateOfWorld.MarkAsResized (dsow : desiredStateOfWorld)
    (pvcr : PvcWithResizeRequest) : desiredStateOfWorld :=
  let pvcUniqueName := pvcr.UniquePvcKey
  match dsow.pvcrs with
  | none => dsow
  | some entries =>
    match mapLookup pvcUniqueName entries with
    | some found =>
      { pvcrs := some (mapAssign pvcUniqueName { found with ResizeDone := true } entries) }
    | none => dsow

/-! ## Reconciler (`reconciler/reconciler.go`) -/

/-- The two methods of `operationexecutor.OperationExecutor` that `reconcile`
calls, over an executor state `σ`.  `GrowPvc` is handed the desired state of
world and may change it; it returns its error, `none` for nil. -/
structure OperationExecutor (σ : Type) where
  IsOperationPending : σ → String → String → Bool
  GrowPvc : σ → PvcWithResizeRequest → desiredStateOfWorld →
    σ × desiredStateOfWorld × Option String

/-- A call made on the operation executor, with what it returned. -/
inductive Call where
  | IsOperationPending (volumeName : String) (podName : String) (result : Bool)
  | GrowPvc (pvcr : PvcWithResizeRequest) (err : Option String)
  deriving DecidableEq, Repr

/-- What one tick has done so far: executor state, desired state of world and
the calls made, oldest first. -/
structure Tick (σ : Type) where
  exec : σ
  dsow : desiredStateOfWorld
  calls : List Call

/-- Body of the `for` loop of `reconcile` for one request. -/
def reconcileBody {σ : Type} (opsExecutor : OperationExecutor σ) (t : Tick σ)
    (pvcWithResizeRequest : PvcWithResizeRequest) : Tick σ :=
  let uniqueVolumeKey := pvcWithResizeRequest.UniquePvcKey
  if opsExecutor.IsOperationPending t.exec uniqueVolumeKey "" then
    { t with calls := t.calls ++ [Call.IsOperationPending uniqueVolumeKey "" true] }
  else
    let grown := opsExecutor.GrowPvc t.exec pvcWithResizeRequest t.dsow
    { exec := grown.1
      dsow := grown.2.1
      calls := t.calls ++ [Call.IsOperationPending uniqueVolumeKey "" false,
        Call.GrowPvc pvcWithResizeRequest grown.2.2] }

/-- The `for` loop of `reconcile` over the requests listed at its start. -/
def reconcileLoop {σ : Type} (opsExecutor : OperationExecutor σ) :
    Tick σ → List PvcWithResizeRequest → Tick σ
  | t, [] => t
  | t, pvcr :: rest => reconcileLoop opsExecutor (reconcileBody opsExecutor t pvcr) rest

/-- Counterpart of `(*reconciler).reconcile`: one tick.  The range expression
`GetPvcsWithResizeRequest()` is evaluated once, before the first iteration. -/
def reconcile {σ : Type} (ord : RangeOrder) (opsExecutor : OperationExecutor σ)
    (exec : σ) (dsow : desiredStateOfWorld) : Tick σ :=
  reconcileLoop opsExecutor { exec := exec, dsow := dsow, calls := [] }
    (dsow.GetPvcsWithResizeRequest ord)

/-! ## Resize conditions (`volume/util/resize_util.go`) -/

/-- The package variable `knownResizeConditions`. -/
def knownResizeConditions : List (String × Bool) :=
  [(PersistentVolumeClaimFileSystemResizePending, true),
   (PersistentVolumeClaimResizing, true)]

/-- The test `_, ok := knownResizeConditions[t]`: is `t` a key of the map. -/
def isKnownResizeCondition (t : String) : Bool :=
  (mapLookup t knownResizeConditions).isSome

/-- The `resizeProcessStatus` struct. -/
structure resizeProcessStatus where
  condition : PersistentVolumeClaimCondition
  processed : Bool
  deriving DecidableEq, Repr

/-- First loop of `MergeResizeConditionOnPVC`: `resizeConditionMap` is filled
from the desired conditions, a later condition replacing an earlier one of the
same type. -/
def buildResizeConditionMap (resizeConditions : List PersistentVolumeClaimCondition) :
    List (String × resizeProcessStatus) :=
  resizeConditions.foldl
    (fun m condition => mapAssign condition.Type_ { condition := condition, processed := false } m)
    []

/-- Second loop of `MergeResizeConditionOnPVC`, over `oldConditions`: it
carries the map (whose entries get marked processed through their pointer) and
`newConditions`. -/
def mergeOldConditions :
    List (String × resizeProcessStatus) → List PersistentVolumeClaimCondition →
    List PersistentVolumeClaimCondition →
    List (String × resizeProcessStatus) × List PersistentVolumeClaimCondition
  | resizeConditionMap, newConditions, [] => (resizeConditionMap, newConditions)
  | resizeConditionMap, newConditions, condition :: rest =>
    if !isKnownResizeCondition condition.Type_ then
      mergeOldConditions resizeConditionMap (newConditions ++ [condition]) rest
    else
      match mapLookup condition.Type_ resizeConditionMap with
      | some newCondition =>
        let newConditions :=
          if newCondition.condition.Status != condition.Status then
            newConditions ++ [newCondition.condition]
          else
            newConditions ++ [condition]
        mergeOldConditions
          (mapAssign condition.Type_ { newCondition with processed := true } resizeConditionMap)
          newConditions rest
      | none => mergeOldConditions resizeConditionMap newConditions rest

/-- Third loop of `MergeResizeConditionOnPVC`: a range over the map that
appends every condition not marked processed. -/
def appendUnprocessed (ord : RangeOrder) (resizeConditionMap : List (String × resizeProcessStatus))
    (newConditions : List PersistentVolumeClaimCondition) :
    List PersistentVolumeClaimCondition :=
  (ord.visit resizeConditionMap).foldl
    (fun acc entry => if !entry.2.processed then acc ++ [entry.2.condition] else acc)
    newConditions

/-- Counterpart of `MergeResizeConditionOnPVC`. -/
def MergeResizeConditionOnPVC (ord : RangeOrder) (pvc : PersistentVolumeClaim)
    (resizeConditions : List PersistentVolumeClaimCondition) : PersistentVolumeClaim :=
  let resizeConditionMap := buildResizeConditionMap resizeConditions
  let oldConditions := pvc.Status.Conditions
  let merged := mergeOldConditions resizeConditionMap [] oldConditions
  let newConditions := appendUnprocessed ord merged.1 merged.2
  { pvc with Status := { pvc.Status with Conditions := newConditions } }

/-- The conditions that the second loop of `MergeResizeConditionOnPVC` puts
into `newConditions` for the old conditions `oldConditions`: the part of the
result carried over from the claim. -/
def carriedOver (resizeConditions oldConditions : List PersistentVolumeClaimCondition) :
    List PersistentVolumeClaimCondition :=
  (mergeOldConditions (buildResizeConditionMap resizeConditions) [] oldConditions).2

/-- Calls that the tick contract allows for a list of pending requests, from
executor state `s` and desired state `d`: a request whose operation is
reported pending gets the query alone, any other request gets the query
followed by one `GrowPvc`. -/
inductive TickCalls {σ : Type} (opsExecutor : OperationExecutor σ) :
    σ → desiredStateOfWorld → List PvcWithResizeRequest → List Call → Prop where
  | done (s : σ) (d : desiredStateOfWorld) : TickCalls opsExecutor s d [] []
  | skip (s : σ) (d : desiredStateOfWorld) (r : PvcWithResizeRequest)
      (rest : List PvcWithResizeRequest) (calls : List Call) :
      opsExecutor.IsOperationPending s r.UniquePvcKey "" = true →
      TickCalls opsExecutor s d rest calls →
      TickCalls opsExecutor s d (r :: rest)
        (Call.IsOperationPending r.UniquePvcKey "" true :: calls)
  | grow (s : σ) (d : desiredStateOfWorld) (r : PvcWithResizeRequest)
      (rest : List PvcWithResizeRequest) (calls : List Call) :
      opsExecutor.IsOperationPending s r.UniquePvcKey "" = false →
      TickCalls opsExecutor (opsExecutor.GrowPvc s r d).1 (opsExecutor.GrowPvc s r d).2.1
        rest calls →
      TickCalls opsExecutor s d (r :: rest)
        (Call.IsOperationPending r.UniquePvcKey "" false ::
          Call.GrowPvc r (opsExecutor.GrowPvc s r d).2.2 :: calls)

/-- Executor state and desired state of world left by the `GrowPvc` calls of a
tick over a list of pending requests, from executor state `s` and desired
state `d`: a request whose operation is reported pending leaves both alone,
for any other request `GrowPvc` is handed the desired state as it is then and
both become what that call returns; nothing else changes them. -/
inductive TickState {σ : Type} (opsExecutor : OperationExecutor σ) :
    σ → desiredStateOfWorld → List PvcWithResizeRequest → σ → desiredStateOfWorld → Prop where
  | done (s : σ) (d : desiredStateOfWorld) : TickState opsExecutor s d [] s d
  | skip (s : σ) (d : desiredStateOfWorld) (r : PvcWithResizeRequest)
      (rest : List PvcWithResizeRequest) (s' : σ) (d' : desiredStateOfWorld) :
      opsExecutor.IsOperationPending s r.UniquePvcKey "" = true →
      TickState opsExecutor s d rest s' d' →
      TickState opsExecutor s d (r :: rest) s' d'
  | grow (s : σ) (d : desiredStateOfWorld) (r : PvcWithResizeRequest)
      (rest : List PvcWithResizeRequest) (s' : σ) (d' : desiredStateOfWorld) :
      opsExecutor.IsOperationPending s r.UniquePvcKey "" = false →
      TickState opsExecutor (opsExecutor.GrowPvc s r d).1 (opsExecutor.GrowPvc s r d).2.1
        rest s' d' →
      TickState opsExecutor s d (r :: rest) s' d'

/-! ## Auxiliary functions describing the loops of the merge -/

/-- What one iteration of the second loop appends for the old condition `c`
when the map is `m`: nothing when `c` is a resize condition without an entry. -/
def carryOne (m : List (String × resizeProcessStatus)) (c : PersistentVolumeClaimCondition) :
    Option PersistentVolumeClaimCondition :=
  if !isKnownResizeCondition c.Type_ then some c
  else
    match mapLookup c.Type_ m with
    | some e => some (if e.condition.Status != c.Status then e.condition else c)
    | none => none

/-- The entry `entry` of the map after the second loop has run over the old
conditions `l`: processed when a resize condition of its type is among them. -/
def markProcessed (l : List PersistentVolumeClaimCondition)
    (entry : String × resizeProcessStatus) : String × resizeProcessStatus :=
  (entry.1, { entry.2 with
    processed := entry.2.processed ||
      (isKnownResizeCondition entry.1 && l.any (fun c => c.Type_ == entry.1)) })

/-- What the third loop appends for one map entry. -/
def unprocessedCondition (entry : String × resizeProcessStatus) :
    Option PersistentVolumeClaimCondition :=
  if !entry.2.processed then some entry.2.condition else none

/-- Is `c` of a kind other than Resizing and FileSystemResizePending. -/
def isOtherCondition (c : PersistentVolumeClaimCondition) : Bool :=
  decide (c.Type_ ≠ PersistentVolumeClaimResizing ∧
    c.Type_ ≠ PersistentVolumeClaimFileSystemResizePending)

/-! ## Node expansion (`volume/util/operationexecutor/volume_operation.go`) -/

/-- A `volume.NodeResizeOptions`: the fields `NodeExpandVolume` sets and the
paths its caller filled in. -/
structure NodeResizeOptions where
  VolumeSpec : Option VolumeSpec
  DevicePath : String
  DeviceMountPath : String
  NewSize : Quantity
  OldSize : Quantity
  deriving DecidableEq, Repr

/-- A `volume.NodeExpandableVolumePlugin`: `NodeExpand` returns `resizeDone`
and its error, `none` for nil. -/
structure NodeExpandableVolumePlugin where
  RequiresFSResize : Bool
  NodeExpand : NodeResizeOptions → Bool × Option String

/-- The fields of `VolumeToMount` that `NodeExpandVolume` reads; `Pod` is the
pod the events are recorded on. -/
structure VolumeToMount where
  VolumeName : String
  VolumeSpec : Option VolumeSpec
  DevicePath : String
  Pod : String
  deriving DecidableEq, Repr

/-- The claim client behind `kubeClient.CoreV1().PersistentVolumeClaims(ns)`,
over a store state `σ`: `Get` reads the store, `PatchStatus` stands for the
status patch that `PatchPVCStatus` builds from the old and the new object and
sends; it fails or returns the updated claim. -/
structure ClaimClient (σ : Type) where
  Get : σ → String → String → Except String PersistentVolumeClaim
  PatchStatus : σ → PersistentVolumeClaim → PersistentVolumeClaim →
    σ × Except String PersistentVolumeClaim

/-- What `NodeExpandVolume` works with: the `ExpandPersistentVolumes` feature
gate, the fields `kubeClient` and `volumePluginMgr` of `volumeOperationImpl`
(the plugin manager as its method `FindNodeExpandablePluginBySpec`, whose
error the code drops), and the method `GenerateMsg` of `VolumeToMount`. -/
structure volumeOperationImpl (σ : Type) where
  ExpandPersistentVolumes : Bool
  kubeClient : ClaimClient σ
  FindNodeExpandablePluginBySpec : Option VolumeSpec → Option NodeExpandableVolumePlugin
  GenerateMsg : VolumeToMount → String → String → String × String

/-- Event type `v1.EventTypeNormal`. -/
def EventTypeNormal : String := "Normal"

/-- Event type `v1.EventTypeWarning`. -/
def EventTypeWarning : String := "Warning"

/-- Event reason `kevents.FileSystemResizeFailed`. -/
def FileSystemResizeFailed : String := "FileSystemResizeFailed"

/-- Event reason `kevents.FileSystemResizeSuccess`. -/
def FileSystemResizeSuccess : String := "FileSystemResizeSuccessful"

/-- A call that leaves the process, with what it returned: the plugin lookup,
the fetch of the claim (its error), `NodeExpand` (`resizeDone` and its error),
`recorder.Eventf`, and the status patch (its error). -/
inductive Effect where
  | FindNodeExpandablePluginBySpec (spec : Option VolumeSpec)
  | GetClaim (ns : String) (name : String) (err : Option String)
  | NodeExpand (rsOpts : NodeResizeOptions) (resizeDone : Bool) (resizeErr : Option String)
  | Eventf (pod : String) (eventtype : String) (reason : String) (message : String)
  | PatchStatus (oldPVC : PersistentVolumeClaim) (newPVC : PersistentVolumeClaim)
      (err : Option String)
  deriving DecidableEq, Repr

def Effect.isGetClaim : Effect → Bool
  | .GetClaim _ _ _ => true
  | _ => false

def Effect.isNodeExpand : Effect → Bool
  | .NodeExpand _ _ _ => true
  | _ => false

def Effect.isEventf : Effect → Bool
  | .Eventf _ _ _ _ => true
  | _ => false

def Effect.isPatchStatus : Effect → Bool
  | .PatchStatus _ _ _ => true
  | _ => false

/-- The call is a claim fetch, a `NodeExpand` or a status patch that returned
an error. -/
def Effect.failed : Effect → Bool
  | .GetClaim _ _ (some _) => true
  | .NodeExpand _ _ (some _) => true
  | .PatchStatus _ _ (some _) => true
  | _ => false

/-- The call is a `NodeExpand` that returned an error. -/
def Effect.failedNodeExpand : Effect → Bool
  | .NodeExpand _ _ (some _) => true
  | _ => false

/-- The call is a `NodeExpand` that returned `(true, nil)`. -/
def Effect.succeededNodeExpand : Effect → Bool
  | .NodeExpand _ true none => true
  | _ => false

/-- The call is a status patch that returned no error. -/
def Effect.succeededPatchStatus : Effect → Bool
  | .PatchStatus _ _ none => true
  | _ => false

/-- A run of a function: what it returned (`Except.error` for a panic), the
calls it made, oldest first, and the store it left. -/
structure Run (σ : Type) (α : Type) where
  result : Except String α
  effects : List Effect
  store : σ

/-- Counterpart of `PatchPVCStatus`: the updated claim, or the error.  The
patch is built by two `json.Marshal` calls and `CreateTwoWayMergePatch` on the
two claim objects and then sent; building and sending are the one call
`kubeClient.PatchStatus` here, so that a failure of the building, which has
error texts of its own in the code, counts as a failure of that call.  The
verb `%q` puts the claim name in double quotes; an object name holds no
character that it would escape. -/
def PatchPVCStatus {σ : Type} (kubeClient : ClaimClient σ) (s : σ)
    (oldPVC newPVC : PersistentVolumeClaim) :
    Run σ (Option PersistentVolumeClaim × Option String) :=
  let pvcName := oldPVC.Name
  match kubeClient.PatchStatus s oldPVC newPVC with
  | (s', .error updateErr) =>
    let err := "PatchPVCStatus.Failed to patch PVC \"" ++ pvcName ++ "\" with " ++ updateErr
    { result := .ok (none, some err)
      effects := [Effect.PatchStatus oldPVC newPVC (some updateErr)]
      store := s' }
  | (s', .ok updatedClaim) =>
    { result := .ok (some updatedClaim, none)
      effects := [Effect.PatchStatus oldPVC newPVC none]
      store := s' }

/-- The object `newPVC` of `MarkFSResizeFinished` for a claim whose
`Status.Capacity` map is `capacity`: the copy of the claim with the storage
capacity set to `newSize`, merged with the empty list of resize conditions. -/
def resizedClaim (ord : RangeOrder) (pvc : PersistentVolumeClaim)
    (capacity : List (String × Quantity)) (newSize : Quantity) : PersistentVolumeClaim :=
  let newPVC := pvc
  let newPVC : PersistentVolumeClaim :=
    { newPVC with Status :=
        { newPVC.Status with Capacity := some (mapAssign ResourceStorage newSize capacity) } }
  MergeResizeConditionOnPVC ord newPVC []

/-- Counterpart of `MarkFSResizeFinished`; it returns its error.  The copy
`newPVC` keeps a nil `Status.Capacity` map, and the assignment into it panics. -/
def MarkFSResizeFinished {σ : Type} (ord : RangeOrder) (kubeClient : ClaimClient σ) (s : σ)
    (pvc : PersistentVolumeClaim) (newSize : Quantity) : Run σ (Option String) :=
  match pvc.Status.Capacity with
  | none => { result := .error "assignment to entry in nil map", effects := [], store := s }
  | some capacity =>
    let newPVC := resizedClaim ord pvc capacity newSize
    let patched := PatchPVCStatus kubeClient s pvc newPVC
    { result := patched.result.map (fun r => r.2)
      effects := patched.effects
      store := patched.store }

/-- The part of `NodeExpandVolume` after the read-only check: the call of
`NodeExpand` and what follows it.  `effects` are the calls made so far. -/
def nodeExpandAndFinish {σ : Type} (ord : RangeOrder) (volumeOperation : volumeOperationImpl σ)
    (s : σ) (volumeToMount : VolumeToMount) (rsOpts : NodeResizeOptions)
    (expandableVolumePlugin : NodeExpandableVolumePlugin) (pvc : PersistentVolumeClaim)
    (pvSpecCap pvcStatusCap : Quantity) (effects : List Effect) :
    Run σ (Bool × Option String) :=
  let rsOpts : NodeResizeOptions :=
    { rsOpts with
      VolumeSpec := volumeToMount.VolumeSpec, NewSize := pvSpecCap, OldSize := pvcStatusCap }
  let resized := expandableVolumePlugin.NodeExpand rsOpts
  let effects := effects ++ [Effect.NodeExpand rsOpts resized.1 resized.2]
  match resized.2 with
  | some resizeErr =>
    { result := .ok (false, some ("MountVolume.NodeExpandVolume failed : " ++ resizeErr))
      effects := effects, store := s }
  | none =>
    if !resized.1 then
      { result := .ok (false, none), effects := effects, store := s }
    else
      let simpleMsg :=
        (volumeOperation.GenerateMsg volumeToMount "MountVolume.NodeExpandVolume succeeded" "").1
      let effects := effects ++
        [Effect.Eventf volumeToMount.Pod EventTypeNormal FileSystemResizeSuccess simpleMsg]
      let finished := MarkFSResizeFinished ord volumeOperation.kubeClient s pvc pvSpecCap
      match finished.result with
      | .error panic =>
        { result := .error panic, effects := effects ++ finished.effects, store := finished.store }
      | .ok (some err) =>
        { result := .ok (false,
            some ("MountVolume.NodeExpandVolume update PVC status failed : " ++ err))
          effects := effects ++ finished.effects, store := finished.store }
      | .ok none =>
        { result := .ok (true, none), effects := effects ++ finished.effects
          store := finished.store }

/-- The part of `NodeExpandVolume` inside the plugin check, for the persistent
volume `pv` of the spec `spec`: the fetch of the claim, the comparison of the
capacities and the read-only check.  Reading `pv.Spec.ClaimRef.Namespace`
through a nil `ClaimRef` panics. -/
def fetchAndExpand {σ : Type} (ord : RangeOrder) (volumeOperation : volumeOperationImpl σ)
    (s : σ) (volumeToMount : VolumeToMount) (rsOpts : NodeResizeOptions)
    (expandableVolumePlugin : NodeExpandableVolumePlugin) (spec : VolumeSpec)
    (pv : PersistentVolume) (effects : List Effect) : Run σ (Bool × Option String) :=
  match pv.ClaimRef with
  | none =>
    { result := .error "invalid memory address or nil pointer dereference"
      effects := effects, store := s }
  | some claimRef =>
    match volumeOperation.kubeClient.Get s claimRef.Namespace claimRef.Name with
    | .error err =>
      { result := .ok (false, some ("MountVolume.NodeExpandVolume get PVC failed : " ++ err))
        effects := effects ++ [Effect.GetClaim claimRef.Namespace claimRef.Name (some err)]
        store := s }
    | .ok pvc =>
      let effects := effects ++ [Effect.GetClaim claimRef.Namespace claimRef.Name none]
      let pvcStatusCap := pvc.Status.Capacity.index ResourceStorage
      let pvSpecCap := pv.Capacity.index ResourceStorage
      if pvcStatusCap.Cmp pvSpecCap < 0 then
        if spec.ReadOnly then
          let simpleMsg := (volumeOperation.GenerateMsg volumeToMount
            "MountVolume.NodeExpandVolume failed" "requested read-only file system").1
          { result := .ok (true, none)
            effects := effects ++
              [Effect.Eventf volumeToMount.Pod EventTypeWarning FileSystemResizeFailed simpleMsg]
            store := s }
        else
          nodeExpandAndFinish ord volumeOperation s volumeToMount rsOpts expandableVolumePlugin
            pvc pvSpecCap pvcStatusCap effects
      else
        { result := .ok (true, none), effects := effects, store := s }

/-- The condition `volumeToMount.VolumeSpec != nil &&
volumeToMount.VolumeSpec.InlineVolumeSpecForCSIMigration`. -/
def inlineMigrated (volumeSpec : Option VolumeSpec) : Bool :=
  match volumeSpec with
  | some spec => spec.InlineVolumeSpecForCSIMigration
  | none => false

/-- Counterpart of `(*volumeOperationImpl).NodeExpandVolume`: it returns
`(done, err)`.  Reading `volumeToMount.VolumeSpec.PersistentVolume` through a
nil `VolumeSpec` panics. -/
def NodeExpandVolume {σ : Type} (ord : RangeOrder) (volumeOperation : volumeOperationImpl σ)
    (s : σ) (volumeToMount : VolumeToMount) (rsOpts : NodeResizeOptions) :
    Run σ (Bool × Option String) :=
  if !volumeOperation.ExpandPersistentVolumes then
    { result := .ok (true, none), effects := [], store := s }
  else if inlineMigrated volumeToMount.VolumeSpec then
    { result := .ok (true, none), effects := [], store := s }
  else
    let expandableVolumePlugin :=
      volumeOperation.FindNodeExpandablePluginBySpec volumeToMount.VolumeSpec
    let effects := [Effect.FindNodeExpandablePluginBySpec volumeToMount.VolumeSpec]
    match expandableVolumePlugin with
    | none => { result := .ok (true, none), effects := effects, store := s }
    | some plugin =>
      if !plugin.RequiresFSResize then
        { result := .ok (true, none), effects := effects, store := s }
      else
        match volumeToMount.VolumeSpec with
        | none =>
          { result := .error "invalid memory address or nil pointer dereference"
            effects := effects, store := s }
        | some spec =>
          match spec.PersistentVolume with
          | none => { result := .ok (true, none), effects := effects, store := s }
          | some pv =>
            fetchAndExpand ord volumeOperation s volumeToMount rsOpts plugin spec pv effects

/-- The runs of `NodeExpandVolume` path by path: for each way through the
function, the conditions under which it is taken and the result, the calls
made and the store left. -/
inductive ExpandPath {σ : Type} (ord : RangeOrder) (vo : volumeOperationImpl σ) (s : σ)
    (vtm : VolumeToMount) (rsOpts : NodeResizeOptions) :
    Except String (Bool × Option String) → List Effect → σ → Prop where
  | disabled : vo.ExpandPersistentVolumes = false →
      ExpandPath ord vo s vtm rsOpts (.ok (true, none)) [] s
  | inline : vo.ExpandPersistentVolumes = true → inlineMigrated vtm.VolumeSpec = true →
      ExpandPath ord vo s vtm rsOpts (.ok (true, none)) [] s
  | noPlugin : vo.ExpandPersistentVolumes = true → inlineMigrated vtm.VolumeSpec = false →
      vo.FindNodeExpandablePluginBySpec vtm.VolumeSpec = none →
      ExpandPath ord vo s vtm rsOpts (.ok (true, none))
        [Effect.FindNodeExpandablePluginBySpec vtm.VolumeSpec] s
  | noResize (plugin : NodeExpandableVolumePlugin) :
      vo.ExpandPersistentVolumes = true → inlineMigrated vtm.VolumeSpec = false →
      vo.FindNodeExpandablePluginBySpec vtm.VolumeSpec = some plugin →
      plugin.RequiresFSResize = false →
      ExpandPath ord vo s vtm rsOpts (.ok (true, none))
        [Effect.FindNodeExpandablePluginBySpec vtm.VolumeSpec] s
  | nilSpec (plugin : NodeExpandableVolumePlugin) (panic : String) :
      vo.ExpandPersistentVolumes = true →
      vo.FindNodeExpandablePluginBySpec vtm.VolumeSpec = some plugin →
      plugin.RequiresFSResize = true → vtm.VolumeSpec = none →
      ExpandPath ord vo s vtm rsOpts (.error panic)
        [Effect.FindNodeExpandablePluginBySpec vtm.VolumeSpec] s
  | noVolume (plugin : NodeExpandableVolumePlugin) (spec : VolumeSpec) :
      vo.ExpandPersistentVolumes = true → inlineMigrated vtm.VolumeSpec = false →
      vo.FindNodeExpandablePluginBySpec vtm.VolumeSpec = some plugin →
      plugin.RequiresFSResize = true → vtm.VolumeSpec = some spec →
      spec.PersistentVolume = none →
      ExpandPath ord vo s vtm rsOpts (.ok (true, none))
        [Effect.FindNodeExpandablePluginBySpec vtm.VolumeSpec] s
  | nilClaimRef (plugin : NodeExpandableVolumePlugin) (spec : VolumeSpec)
      (pv : PersistentVolume) (panic : String) :
      vo.ExpandPersistentVolumes = true → inlineMigrated vtm.VolumeSpec = false →
      vo.FindNodeExpandablePluginBySpec vtm.VolumeSpec = some plugin →
      plugin.RequiresFSResize = true → vtm.VolumeSpec = some spec →
      spec.PersistentVolume = some pv → pv.ClaimRef = none →
      ExpandPath ord vo s vtm rsOpts (.error panic)
        [Effect.FindNodeExpandablePluginBySpec vtm.VolumeSpec] s
  | fetchFailed (plugin : NodeExpandableVolumePlugin) (spec : VolumeSpec)
      (pv : PersistentVolume) (claimRef : ObjectReference) (err msg : String) :
      vo.ExpandPersistentVolumes = true → inlineMigrated vtm.VolumeSpec = false →
      vo.FindNodeExpandablePluginBySpec vtm.VolumeSpec = some plugin →
      plugin.RequiresFSResize = true → vtm.VolumeSpec = some spec →
      spec.PersistentVolume = some pv → pv.ClaimRef = some claimRef →
      vo.kubeClient.Get s claimRef.Namespace claimRef.Name = .error err →
      ExpandPath ord vo s vtm rsOpts (.ok (false, some msg))
        [Effect.FindNodeExpandablePluginBySpec vtm.VolumeSpec,
          Effect.GetClaim claimRef.Namespace claimRef.Name (some err)] s
  | upToDate (plugin : NodeExpandableVolumePlugin) (spec : VolumeSpec)
      (pv : PersistentVolume) (claimRef : ObjectReference) (pvc : PersistentVolumeClaim) :
      vo.ExpandPersistentVolumes = true → inlineMigrated vtm.VolumeSpec = false →
      vo.FindNodeExpandablePluginBySpec vtm.VolumeSpec = some plugin →
      plugin.RequiresFSResize = true → vtm.VolumeSpec = some spec →
      spec.PersistentVolume = some pv → pv.ClaimRef = some claimRef →
      vo.kubeClient.Get s claimRef.Namespace claimRef.Name = .ok pvc →
      ¬ (pvc.Status.Capacity.index ResourceStorage).Cmp (pv.Capacity.index ResourceStorage) < 0 →
      ExpandPath ord vo s vtm rsOpts (.ok (true, none))
        [Effect.FindNodeExpandablePluginBySpec vtm.VolumeSpec,
          Effect.GetClaim claimRef.Namespace claimRef.Name none] s
  | readOnly (plugin : NodeExpandableVolumePlugin) (spec : VolumeSpec)
      (pv : PersistentVolume) (claimRef : ObjectReference) (pvc : PersistentVolumeClaim) :
      vo.ExpandPersistentVolumes = true → inlineMigrated vtm.VolumeSpec = false →
      vo.FindNodeExpandablePluginBySpec vtm.VolumeSpec = some plugin →
      plugin.RequiresFSResize = true → vtm.VolumeSpec = some spec →
      spec.PersistentVolume = some pv → pv.ClaimRef = some claimRef →
      vo.kubeClient.Get s claimRef.Namespace claimRef.Name = .ok pvc →
      (pvc.Status.Capacity.index ResourceStorage).Cmp (pv.Capacity.index ResourceStorage) < 0 →
      spec.ReadOnly = true →
      ExpandPath ord vo s vtm rsOpts (.ok (true, none))
        [Effect.FindNodeExpandablePluginBySpec vtm.VolumeSpec,
          Effect.GetClaim claimRef.Namespace claimRef.Name none,
          Effect.Eventf vtm.Pod EventTypeWarning FileSystemResizeFailed
            (vo.GenerateMsg vtm "MountVolume.NodeExpandVolume failed"
              "requested read-only file system").1] s
  | expanding (plugin : NodeExpandableVolumePlugin) (spec : VolumeSpec)
      (pv : PersistentVolume) (claimRef : ObjectReference) (pvc : PersistentVolumeClaim)
      (result : Except String (Bool × Option String)) (effects : List Effect) (store : σ) :
      vo.ExpandPersistentVolumes = true → inlineMigrated vtm.VolumeSpec = false →
      vo.FindNodeExpandablePluginBySpec vtm.VolumeSpec = some plugin →
      plugin.RequiresFSResize = true → vtm.VolumeSpec = some spec →
      spec.PersistentVolume = some pv → pv.ClaimRef = some claimRef →
      vo.kubeClient.Get s claimRef.Namespace claimRef.Name = .ok pvc →
      (pvc.Status.Capacity.index ResourceStorage).Cmp (pv.Capacity.index ResourceStorage) < 0 →
      spec.ReadOnly = false →
      result = (nodeExpandAndFinish ord vo s vtm rsOpts plugin pvc
        (pv.Capacity.index ResourceStorage) (pvc.Status.Capacity.index ResourceStorage)
        [Effect.FindNodeExpandablePluginBySpec vtm.VolumeSpec,
          Effect.GetClaim claimRef.Namespace claimRef.Name none]).result →
      effects = (nodeExpandAndFinish ord vo s vtm rsOpts plugin pvc
        (pv.Capacity.index ResourceStorage) (pvc.Status.Capacity.index ResourceStorage)
        [Effect.FindNodeExpandablePluginBySpec vtm.VolumeSpec,
          Effect.GetClaim claimRef.Namespace claimRef.Name none]).effects →
      store = (nodeExpandAndFinish ord vo s vtm rsOpts plugin pvc
        (pv.Capacity.index ResourceStorage) (pvc.Status.Capacity.index ResourceStorage)
        [Effect.FindNodeExpandablePluginBySpec vtm.VolumeSpec,
          Effect.GetClaim claimRef.Namespace claimRef.Name none]).store →
      ExpandPath ord vo s vtm rsOpts result effects store

/-- The runs of `nodeExpandAndFinish` path by path, `rsOpts` being the options
handed to `NodeExpand` and `before` the calls made before it. -/
inductive FinishPath {σ : Type} (ord : RangeOrder) (vo : volumeOperationImpl σ) (s : σ)
    (vtm : VolumeToMount) (rsOpts : NodeResizeOptions) (plugin : NodeExpandableVolumePlugin)
    (pvc : PersistentVolumeClaim) (pvSpecCap : Quantity) (before : List Effect) :
    Except String (Bool × Option String) → List Effect → σ → Prop where
  | expandFailed (resizeDone : Bool) (resizeErr msg : String) :
      plugin.NodeExpand rsOpts = (resizeDone, some resizeErr) →
      FinishPath ord vo s vtm rsOpts plugin pvc pvSpecCap before (.ok (false, some msg))
        (before ++ [Effect.NodeExpand rsOpts resizeDone (some resizeErr)]) s
  | notDone : plugin.NodeExpand rsOpts = (false, none) →
      FinishPath ord vo s vtm rsOpts plugin pvc pvSpecCap before (.ok (false, none))
        (before ++ [Effect.NodeExpand rsOpts false none]) s
  | nilCapacity (panic : String) : plugin.NodeExpand rsOpts = (true, none) →
      pvc.Status.Capacity = none →
      FinishPath ord vo s vtm rsOpts plugin pvc pvSpecCap before (.error panic)
        (before ++ [Effect.NodeExpand rsOpts true none,
          Effect.Eventf vtm.Pod EventTypeNormal FileSystemResizeSuccess
            (vo.GenerateMsg vtm "MountVolume.NodeExpandVolume succeeded" "").1]) s
  | patchFailed (capacity : List (String × Quantity)) (store : σ) (err msg : String) :
      plugin.NodeExpand rsOpts = (true, none) →
      pvc.Status.Capacity = some capacity →
      vo.kubeClient.PatchStatus s pvc (resizedClaim ord pvc capacity pvSpecCap) =
        (store, .error err) →
      FinishPath ord vo s vtm rsOpts plugin pvc pvSpecCap before (.ok (false, some msg))
        (before ++ [Effect.NodeExpand rsOpts true none,
          Effect.Eventf vtm.Pod EventTypeNormal FileSystemResizeSuccess
            (vo.GenerateMsg vtm "MountVolume.NodeExpandVolume succeeded" "").1,
          Effect.PatchStatus pvc (resizedClaim ord pvc capacity pvSpecCap) (some err)]) store
  | patched (capacity : List (String × Quantity)) (store : σ)
      (updatedClaim : PersistentVolumeClaim) :
      plugin.NodeExpand rsOpts = (true, none) →
      pvc.Status.Capacity = some capacity →
      vo.kubeClient.PatchStatus s pvc (resizedClaim ord pvc capacity pvSpecCap) =
        (store, .ok updatedClaim) →
      FinishPath ord vo s vtm rsOpts plugin pvc pvSpecCap before (.ok (true, none))
        (before ++ [Effect.NodeExpand rsOpts true none,
          Effect.Eventf vtm.Pod EventTypeNormal FileSystemResizeSuccess
            (vo.GenerateMsg vtm "MountVolume.NodeExpandVolume succeeded" "").1,
          Effect.PatchStatus pvc (resizedClaim ord pvc capacity pvSpecCap) none]) store

/-- A claim store holding one claim: every fetch returns it, and a status
patch replaces its status by that of the new object. -/
def singleClaimClient : ClaimClient PersistentVolumeClaim where
  Get := fun stored _ _ => .ok stored
  PatchStatus := fun stored _ newPVC =>
    ({ stored with Status := newPVC.Status }, .ok { stored with Status := newPVC.Status })

/-- A claim client whose status patch is refused. -/
def refusingClaimClient : ClaimClient PersistentVolumeClaim where
  Get := fun stored _ _ => .ok stored
  PatchStatus := fun stored _ _ => (stored, .error "conflict")

/-- A plugin that requires a file system resize and whose `NodeExpand`
returns `(resizeDone, resizeErr)`. -/
def samplePlugin (resizeDone : Bool) (resizeErr : Option String) : NodeExpandableVolumePlugin where
  RequiresFSResize := true
  NodeExpand := fun _ => (resizeDone, resizeErr)

/-- Expansion enabled over the single-claim store, with `plugin` found for
every spec. -/
def sampleOperation (plugin : Option NodeExpandableVolumePlugin) :
    volumeOperationImpl PersistentVolumeClaim where
  ExpandPersistentVolumes := true
  kubeClient := singleClaimClient
  FindNodeExpandablePluginBySpec := fun _ => plugin
  GenerateMsg := fun volumeToMount prefixMsg suffixMsg =>
    (prefixMsg ++ " " ++ suffixMsg, prefixMsg ++ " " ++ volumeToMount.VolumeName ++ " " ++ suffixMsg)

/-- Expansion enabled over a store that refuses every status patch, with
`plugin` found for every spec. -/
def refusingOperation (plugin : Option NodeExpandableVolumePlugin) :
    volumeOperationImpl PersistentVolumeClaim where
  ExpandPersistentVolumes := true
  kubeClient := refusingClaimClient
  FindNodeExpandablePluginBySpec := fun _ => plugin
  GenerateMsg := fun _ prefixMsg suffixMsg => (prefixMsg ++ " " ++ suffixMsg, prefixMsg)

/-- A volume spec for a persistent volume of storage capacity `capacity` bound
to the claim `default/a`. -/
def sampleSpec (capacity : Int) (readOnly inline : Bool) : VolumeSpec where
  PersistentVolume := some
    { Name := "pv-a", Capacity := some [(ResourceStorage, ⟨capacity⟩)]
      ClaimRef := some { Namespace := "default", Name := "a" } }
  ReadOnly := readOnly
  InlineVolumeSpecForCSIMigration := inline

/-- The volume to mount for a spec. -/
def sampleVolumeToMount (spec : Option VolumeSpec) : VolumeToMount where
  VolumeName := "vol-a"
  VolumeSpec := spec
  DevicePath := "/dev/xvda"
  Pod := "pod-a"

/-- Resize options as a caller passes them. -/
def sampleResizeOptions : NodeResizeOptions where
  VolumeSpec := none
  DevicePath := "/dev/xvda"
  DeviceMountPath := "/mnt/a"
  NewSize := ⟨0⟩
  OldSize := ⟨0⟩

/-! ## Sample objects -/

/-- A condition with the given type, status and transition time. -/
def sampleCondition (t s : String) (time : Nat) : PersistentVolumeClaimCondition :=
  { Type_ := t, Status := s, LastTransitionTime := time, Reason := "", Message := "" }

/-- A claim with uid `uid`, requested storage `requested`, status capacity
`capacity` and the given conditions. -/
def sampleClaim (uid : String) (requested capacity : Int)
    (conditions : List PersistentVolumeClaimCondition) : PersistentVolumeClaim :=
  { UID := uid, Namespace := "default", Name := uid
    Spec := { Resources := { Requests := some [(ResourceStorage, ⟨requested⟩)] } }
    Status := { Capacity := some [(ResourceStorage, ⟨capacity⟩)], Conditions := conditions } }

/-- A cache holding one finished request for the claim `a`. -/
def sampleCache : desiredStateOfWorld :=
  { pvcrs := some [("a",
      { PVC := sampleClaim "a" 10 5 [], VolumeSpec := none, CurrentSize := ⟨5⟩
        ExpectedSize := ⟨10⟩, ResizeDone := true })] }

/-- A request for the claim `uid`, growing from 5 to 10. -/
def sampleRequest (uid : String) (resizeDone : Bool) : PvcWithResizeRequest :=
  { PVC := sampleClaim uid 10 5 [], VolumeSpec := none, CurrentSize := ⟨5⟩
    ExpectedSize := ⟨10⟩, ResizeDone := resizeDone }

/-- A cache holding unfinished requests for the claims `a` and `b` and a
finished one for `c`. -/
def samplePendingCache : desiredStateOfWorld :=
  { pvcrs := some [("a", sampleRequest "a" false), ("b", sampleRequest "b" false),
      ("c", sampleRequest "c" true)] }

/-- A claim `default/a` whose status carries no capacity (a nil map). -/
def sampleClaimWithoutCapacity : PersistentVolumeClaim :=
  { UID := "a", Namespace := "default", Name := "a"
    Spec := { Resources := { Requests := some [(ResourceStorage, ⟨10⟩)] } }
    Status := { Capacity := none, Conditions := [] } }

/-- An executor whose state is the list of keys with an operation in flight
and whose `GrowPvc` returns `err`, leaving the state and the cache alone. -/
def sampleExecutor (err : Option String) : OperationExecutor (List String) where
  IsOperationPending := fun inFlight volumeName _ => decide (volumeName ∈ inFlight)
  GrowPvc := fun inFlight _ dsow => (inFlight, dsow, err)

/-- An executor with no operation in flight whose `GrowPvc` marks its request
as resized in the cache it is handed and returns no error. -/
def markingExecutor : OperationExecutor Unit where
  IsOperationPending := fun _ _ _ => false
  GrowPvc := fun _ pvcr dsow => ((), dsow.MarkAsResized pvcr, none)

/-! ## Operation types (`volume/util/types/types.go`) -/

/-- The `TransientOperationFailure` struct. -/
structure TransientOperationFailure where
  msg : String
  deriving DecidableEq, Repr

/-- The `NonFinalOperationFailure` struct. -/
structure NonFinalOperationFailure where
  msg : String
  deriving DecidableEq, Repr

/-- A non-nil value of the interface type `error`, by its dynamic type: a
pointer to one of the two failure types of the package (`none` for a nil
pointer), or a value of another type with its message.  The nil `error` is
`none : Option GoError`. -/
inductive GoError where
  | transient (p : Option TransientOperationFailure)
  | nonFinal (p : Option NonFinalOperationFailure)
  | other (msg : String)
  deriving DecidableEq, Repr

/-- Counterpart of `(*TransientOperationFailure).Error`. -/
def TransientOperationFailure.Error (err : TransientOperationFailure) : String :=
  err.msg

/-- Counterpart of `NewTransientOperationFailure`. -/
def NewTransientOperationFailure (msg : String) : TransientOperationFailure :=
  { msg := msg }

/-- Counterpart of `(*NonFinalOperationFailure).Error`. -/
def NonFinalOperationFailure.Error (err : NonFinalOperationFailure) : String :=
  err.msg

/-- Counterpart of `NewNonFinalOperationFailure`. -/
def NewNonFinalOperationFailure (msg : String) : NonFinalOperationFailure :=
  { msg := msg }

/-- The type assertion `err.(*NonFinalOperationFailure)`: the pointer, when the
dynamic type of `err` is that pointer type. -/
def assertNonFinal (err : Option GoError) : Option (Option NonFinalOperationFailure) :=
  match err with
  | some (.nonFinal p) => some p
  | _ => none

/-- The type assertion `err.(*TransientOperationFailure)`. -/
def assertTransient (err : Option GoError) : Option (Option TransientOperationFailure) :=
  match err with
  | some (.transient p) => some p
  | _ => none

/-- Counterpart of `IsOperationFinishedError`. -/
def IsOperationFinishedError (err : Option GoError) : Bool :=
  if (assertNonFinal err).isSome then false
  else if (assertTransient err).isSome then false
  else true

/-- Counterpart of `IsNonFinalError`. -/
def IsNonFinalError (err : Option GoError) : Bool :=
  if (assertNonFinal err).isSome then true
  else false

/-- The `GeneratedOperations` struct.  `OperationFunc` is what a call of the
function does: it returns `(eventErr, detailedErr)` or panics with a value
(`Except.error`).  `EventRecorderFunc` and `CompleteFunc` have type
`func(*error)`: each is given as the value it leaves in the pointed-to error
for the value it finds there; `none` is the nil function. -/
structure GeneratedOperations where
  OperationName : String
  OperationFunc : Except String (Option GoError × Option GoError)
  EventRecorderFunc : Option (Option GoError → Option GoError)
  CompleteFunc : Option (Option GoError → Option GoError)

/-- Modelled from the spec: `runtime.RecoverFromPanic(err)` of the apimachinery
package, which is not under src.  With a panic under way it stops the panic and
stores in `*err` a non-nil error made from the panic value; with none it leaves
`*err` alone.  It returns the panic still under way and the value of `*err`. -/
def RecoverFromPanic (panicking : Option String) (err : Option GoError) :
    Option String × Option GoError :=
  match panicking with
  | some r => (none, some (GoError.other ("recovered from panic " ++ r)))
  | none => (none, err)

/-- A call of one of the two hooks of `GeneratedOperations.Run`, with the error
its pointer argument pointed to. -/
inductive HookCall where
  | EventRecorderFunc (eventErr : Option GoError)
  | CompleteFunc (detailedErr : Option GoError)
  deriving DecidableEq, Repr

/-- What `GeneratedOperations.Run` does: it returns `(eventErr, detailedErr)`
or lets a panic through (`Except.error`), having called the hooks `calls`. -/
structure OperationRun where
  outcome : Except String (Option GoError × Option GoError)
  calls : List HookCall

/-- Counterpart of `(*GeneratedOperations).Run`.  The named results start nil
and are set by the `return`; the deferred calls then run last registered
first: `RecoverFromPanic(&detailedErr)`, `EventRecorderFunc(&eventErr)`,
`CompleteFunc(&detailedErr)`. -/
def GeneratedOperations.Run (o : GeneratedOperations) : OperationRun :=
  let returned : Option GoError × Option GoError × Option String :=
    match o.OperationFunc with
    | .ok (eventErr, detailedErr) => (eventErr, detailedErr, none)
    | .error r => (none, none, some r)
  let eventErr := returned.1
  let recovered := RecoverFromPanic returned.2.2 returned.2.1
  let detailedErr := recovered.2
  let recorded : Option GoError × List HookCall :=
    match o.EventRecorderFunc with
    | some f => (f eventErr, [HookCall.EventRecorderFunc eventErr])
    | none => (eventErr, [])
  let completed : Option GoError × List HookCall :=
    match o.CompleteFunc with
    | some f => (f detailedErr, recorded.2 ++ [HookCall.CompleteFunc detailedErr])
    | none => (detailedErr, recorded.2)
  match recovered.1 with
  | some r => { outcome := .error r, calls := completed.2 }
  | none => { outcome := .ok (recorded.1, completed.1), calls := completed.2 }

/-! ## Claim field gating (`api/persistentvolumeclaim/util.go`) -/

/-- The feature gates read by this package. -/
structure FeatureGates where
  AnyVolumeDataSource : Bool
  RecoverVolumeExpansionFailure : Bool
  deriving DecidableEq, Repr

/-- A `core.TypedLocalObjectReference`. -/
structure TypedLocalObjectReference where
  APIGroup : Option String
  Kind : String
  Name : String
  deriving DecidableEq, Repr

/-- A `core.PersistentVolumeClaimSpec`, with the fields this package reads. -/
structure CoreClaimSpec where
  DataSource : Option TypedLocalObjectReference
  Resources : ResourceRequirements
  VolumeName : String
  deriving DecidableEq, Repr

/-- A `core.PersistentVolumeClaimStatus`. -/
structure CoreClaimStatus where
  Phase : String
  Capacity : ResourceList
  Conditions : List PersistentVolumeClaimCondition
  AllocatedResources : ResourceList
  deriving DecidableEq, Repr

/-- A `core.PersistentVolumeClaim`. -/
structure CoreClaim where
  Namespace : String
  Name : String
  Spec : CoreClaimSpec
  Status : CoreClaimStatus
  deriving DecidableEq, Repr

/-- The constant `pvc`. -/
def pvcKind : String := "PersistentVolumeClaim"

/-- The constant `volumeSnapshot`. -/
def volumeSnapshot : String := "VolumeSnapshot"

/-- Counterpart of `dataSourceInUse`. -/
def dataSourceInUse (oldPVCSpec : Option CoreClaimSpec) : Bool :=
  match oldPVCSpec with
  | none => false
  | some spec =>
    if spec.DataSource.isSome then true
    else false

/-- Counterpart of `dataSourceIsEnabled`. -/
def dataSourceIsEnabled (gates : FeatureGates) (pvcSpec : CoreClaimSpec) : Bool :=
  match pvcSpec.DataSource with
  | some dataSource =>
    if gates.AnyVolumeDataSource then true
    else
      let apiGroup := match dataSource.APIGroup with
        | some g => g
        | none => ""
      if dataSource.Kind = pvcKind ∧ apiGroup = "" then true
      else if dataSource.Kind = volumeSnapshot ∧ apiGroup = "snapshot.storage.k8s.io" then true
      else false
  | none => false

/-- Counterpart of `allocatedResourcesInUse`. -/
def allocatedResourcesInUse (oldPVC : Option CoreClaim) : Bool :=
  match oldPVC with
  | none => false
  | some old =>
    if old.Status.AllocatedResources.isSome then true
    else false

/-- Counterpart of `DropDisabledFields`: the claim `pvc` as the function leaves
it. -/
def DropDisabledFields (gates : FeatureGates) (pvc : CoreClaim) (oldPVC : Option CoreClaim) :
    CoreClaim :=
  let oldPVCSpec := oldPVC.map (fun old => old.Spec)
  let pvc : CoreClaim :=
    if !dataSourceIsEnabled gates pvc.Spec && !dataSourceInUse oldPVCSpec then
      { pvc with Spec := { pvc.Spec with DataSource := none } }
    else pvc
  if !gates.RecoverVolumeExpansionFailure && !allocatedResourcesInUse oldPVC then
    { pvc with Status := { pvc.Status with AllocatedResources := none } }
  else pvc

/-- Counterpart of `SetAllocatedResources`: the claim `pvc` as the function
leaves it. -/
def SetAllocatedResources (gates : FeatureGates) (pvc : CoreClaim) (oldPVC : Option CoreClaim) :
    CoreClaim :=
  if gates.RecoverVolumeExpansionFailure then
    let userResources := pvc.Spec.Resources.Requests
    match oldPVC with
    | none => { pvc with Status := { pvc.Status with AllocatedResources := userResources } }
    | some _ => pvc
  else pvc

/-- A core claim requesting `requested` storage with allocated storage
`allocated` and the given data source. -/
def sampleCoreClaim (requested : Int) (allocated : Option Int)
    (dataSource : Option TypedLocalObjectReference) : CoreClaim :=
  { Namespace := "default", Name := "a"
    Spec := { DataSource := dataSource
              Resources := { Requests := some [(ResourceStorage, ⟨requested⟩)] }
              VolumeName := "pv-a" }
    Status := { Phase := "Bound", Capacity := some [(ResourceStorage, ⟨5⟩)], Conditions := []
                AllocatedResources := allocated.map (fun a => [(ResourceStorage, ⟨a⟩)]) } }

/-! ## CSI volume limits (`scheduler/algorithm/predicates/csi_volume_predicate.go`) -/

/-- A `v1.PersistentVolumeClaimVolumeSource`. -/
structure PersistentVolumeClaimVolumeSource where
  ClaimName : String
  deriving DecidableEq, Repr

/-- A `v1.Volume`, with the volume source the predicate looks at. -/
structure Volume where
  Name : String
  PersistentVolumeClaim : Option PersistentVolumeClaimVolumeSource
  deriving DecidableEq, Repr

/-- A `v1.Pod`: its namespace and `Spec.Volumes`. -/
structure Pod where
  Namespace : String
  Name : String
  Volumes : List Volume
  deriving DecidableEq, Repr

/-- A `storagev1beta1.CSINode`. -/
structure CSINode where
  Name : String
  deriving DecidableEq, Repr

/-- What the predicate reads of a `schedulernodeinfo.NodeInfo`: the map
`VolumeLimits()`, the pods `Pods()` and `CSINode()`. -/
structure NodeInfo where
  VolumeLimits : List (String × Int)
  Pods : List Pod
  CSINode : Option CSINode
  deriving DecidableEq, Repr

/-- A `v1.CSIPersistentVolumeSource`. -/
structure CSIPersistentVolumeSource where
  Driver : String
  VolumeHandle : String
  deriving DecidableEq, Repr

/-- A persistent volume as the predicate sees it: its name and
`Spec.PersistentVolumeSource.CSI`. -/
structure SchedulerVolume where
  Name : String
  CSI : Option CSIPersistentVolumeSource
  deriving DecidableEq, Repr

/-- A claim as the predicate sees it. -/
structure SchedulerClaim where
  Namespace : String
  Name : String
  VolumeName : String
  StorageClassName : Option String
  deriving DecidableEq, Repr

/-- A `CSIMaxVolumeLimitChecker`: its three listers and the random prefix,
together with the functions of other packages and files that its methods call
(`csilib.IsPVMigratable`, `csilib.GetInTreePluginNameFromSpec`,
`isCSIMigrationOn`, `csilib.TranslateInTreePVToCSI`,
`volumeutil.GetCSIAttachLimitKey`).  A lister returns its error as
`Except.error`; `scInfo` returns the provisioner of the storage class. -/
structure CSIMaxVolumeLimitChecker where
  pvInfo : String → Except String SchedulerVolume
  pvcInfo : String → String → Except String SchedulerClaim
  scInfo : String → Except String String
  randomVolumeIDPrefix : String
  IsPVMigratable : SchedulerVolume → Bool
  GetInTreePluginNameFromSpec : SchedulerVolume → Except String String
  isCSIMigrationOn : Option CSINode → String → Bool
  TranslateInTreePVToCSI : SchedulerVolume → Except String SchedulerVolume
  GetCSIAttachLimitKey : String → String

/-- Counterpart of `getDriverNameFromSC`. -/
def CSIMaxVolumeLimitChecker.getDriverNameFromSC (c : CSIMaxVolumeLimitChecker)
    (pvc : SchedulerClaim) : String × String :=
  let namespace_ := pvc.Namespace
  let pvcName := pvc.Name
  let placeHolderCSIDriver := ""
  let placeHolderHandle := ""
  match pvc.StorageClassName with
  | none => (placeHolderCSIDriver, placeHolderHandle)
  | some scName =>
    match c.scInfo scName with
    | .error _ => (placeHolderCSIDriver, placeHolderHandle)
    | .ok provisioner =>
      let volumeHandle := c.randomVolumeIDPrefix ++ "-" ++ namespace_ ++ "/" ++ pvcName
      (provisioner, volumeHandle)

/-- Counterpart of `getCSIDriverInfo`: driver name and volume handle. -/
def CSIMaxVolumeLimitChecker.getCSIDriverInfo (c : CSIMaxVolumeLimitChecker)
    (csiNode : Option CSINode) (pvc : SchedulerClaim) : String × String :=
  let pvName := pvc.VolumeName
  if pvName = "" then c.getDriverNameFromSC pvc
  else
    match c.pvInfo pvName with
    | .error _ => c.getDriverNameFromSC pvc
    | .ok pv =>
      match pv.CSI with
      | some csiSource => (csiSource.Driver, csiSource.VolumeHandle)
      | none =>
        if !c.IsPVMigratable pv then ("", "")
        else
          match c.GetInTreePluginNameFromSpec pv with
          | .error _ => ("", "")
          | .ok pluginName =>
            if !c.isCSIMigrationOn csiNode pluginName then ("", "")
            else
              match c.TranslateInTreePVToCSI pv with
              | .error _ => ("", "")
              | .ok csiPV =>
                match csiPV.CSI with
                | none => ("", "")
                | some csiSource => (csiSource.Driver, csiSource.VolumeHandle)

/-- Body of the loop of `filterAttachableVolumes` for one volume: an error, or
the volume handle and limit key it stores in the result map, or nothing when
the volume is skipped. -/
def CSIMaxVolumeLimitChecker.attachableVolume (c : CSIMaxVolumeLimitChecker)
    (nodeInfo : NodeInfo) (namespace_ : String) (vol : Volume) :
    Except String (Option (String × String)) :=
  match vol.PersistentVolumeClaim with
  | none => .ok none
  | some source =>
    let pvcName := source.ClaimName
    if pvcName = "" then .error "PersistentVolumeClaim had no name"
    else
      match c.pvcInfo namespace_ pvcName with
      | .error _ => .ok none
      | .ok pvc =>
        let csiNode := nodeInfo.CSINode
        let info := c.getCSIDriverInfo csiNode pvc
        let driverName := info.1
        let volumeHandle := info.2
        if driverName = "" ∨ volumeHandle = "" then .ok none
        else
          let volumeLimitKey := c.GetCSIAttachLimitKey driverName
          .ok (some (volumeHandle, volumeLimitKey))

/-- Counterpart of `filterAttachableVolumes`: the map `result` as the loop
leaves it, or the error returned. -/
def CSIMaxVolumeLimitChecker.filterAttachableVolumes (c : CSIMaxVolumeLimitChecker)
    (nodeInfo : NodeInfo) (volumes : List Volume) (namespace_ : String)
    (result : List (String × String)) : Except String (List (String × String)) :=
  match volumes with
  | [] => .ok result
  | vol :: rest =>
    match c.attachableVolume nodeInfo namespace_ vol with
    | .error err => .error err
    | .ok none => c.filterAttachableVolumes nodeInfo rest namespace_ result
    | .ok (some (volumeHandle, volumeLimitKey)) =>
      c.filterAttachableVolumes nodeInfo rest namespace_
        (mapAssign volumeHandle volumeLimitKey result)

/-- The loop of `attachableLimitPredicate` over `nodeInfo.Pods()` that fills
`attachedVolumes`. -/
def CSIMaxVolumeLimitChecker.filterExistingPods (c : CSIMaxVolumeLimitChecker)
    (nodeInfo : NodeInfo) (pods : List Pod) (attachedVolumes : List (String × String)) :
    Except String (List (String × String)) :=
  match pods with
  | [] => .ok attachedVolumes
  | existingPod :: rest =>
    match c.filterAttachableVolumes nodeInfo existingPod.Volumes existingPod.Namespace
        attachedVolumes with
    | .error err => .error err
    | .ok attached => c.filterExistingPods nodeInfo rest attached

/-- The statement `m[key]++` on a map of counts. -/
def mapIncrement (key : String) (m : List (String × Int)) : List (String × Int) :=
  mapAssign key ((mapLookup key m).getD 0 + 1) m

/-- The statement `delete(m, key)`. -/
def mapDelete {ν : Type} (key : String) (m : List (String × ν)) : List (String × ν) :=
  m.filter (fun entry => entry.1 != key)

/-- The loop over `attachedVolumes`: handles already attached are deleted from
`newVolumes`, and the attached volumes are counted by limit key. -/
def countAttached (attachedVolumes : List (String × String))
    (newVolumes : List (String × String)) :
    List (String × String) × List (String × Int) :=
  attachedVolumes.foldl
    (fun state entry =>
      let newVolumes := state.1
      let attachedVolumeCount := state.2
      let newVolumes :=
        if (mapLookup entry.1 newVolumes).isSome then mapDelete entry.1 newVolumes
        else newVolumes
      (newVolumes, mapIncrement entry.2 attachedVolumeCount))
    (newVolumes, [])

/-- The loop over `newVolumes` that counts the new volumes by limit key. -/
def countNew (newVolumes : List (String × String)) : List (String × Int) :=
  newVolumes.foldl (fun newVolumeCount entry => mapIncrement entry.2 newVolumeCount) []

/-- The loop over `newVolumeCount`: false as soon as a limit key with a node
limit has more attached and new volumes than the limit, true otherwise. -/
def withinLimits (nodeVolumeLimits : List (String × Int))
    (attachedVolumeCount : List (String × Int)) : List (String × Int) → Bool
  | [] => true
  | (volumeLimitKey, count) :: rest =>
    match mapLookup volumeLimitKey nodeVolumeLimits with
    | some maxVolumeLimit =>
      let currentVolumeCount := (mapLookup volumeLimitKey attachedVolumeCount).getD 0
      if currentVolumeCount + count > maxVolumeLimit then false
      else withinLimits nodeVolumeLimits attachedVolumeCount rest
    | none => withinLimits nodeVolumeLimits attachedVolumeCount rest

/-- The failure reason `ErrMaxVolumeCountExceeded`. -/
def ErrMaxVolumeCountExceeded : String := "MaxVolumeCount"

/-- Counterpart of `attachableLimitPredicate`: `(fit, reasons, err)`.  `gate`
is the `AttachVolumeLimit` feature gate; the three orders are those of the
three loops over maps. -/
def CSIMaxVolumeLimitChecker.attachableLimitPredicate (c : CSIMaxVolumeLimitChecker)
    (ord1 ord2 ord3 : RangeOrder) (gate : Bool) (pod : Pod) (nodeInfo : NodeInfo) :
    Bool × List String × Option String :=
  if !gate then (true, [], none)
  else if pod.Volumes.length = 0 then (true, [], none)
  else
    let nodeVolumeLimits := nodeInfo.VolumeLimits
    if nodeVolumeLimits.length = 0 then (true, [], none)
    else
      match c.filterAttachableVolumes nodeInfo pod.Volumes pod.Namespace [] with
      | .error err => (false, [], some err)
      | .ok newVolumes =>
        if newVolumes.length = 0 then (true, [], none)
        else
          match c.filterExistingPods nodeInfo nodeInfo.Pods [] with
          | .error err => (false, [], some err)
          | .ok attachedVolumes =>
            let counted := countAttached (ord1.visit attachedVolumes) newVolumes
            let newVolumes := counted.1
            let attachedVolumeCount := counted.2
            let newVolumeCount := countNew (ord2.visit newVolumes)
            if withinLimits nodeVolumeLimits attachedVolumeCount (ord3.visit newVolumeCount) then
              (true, [], none)
            else (false, [ErrMaxVolumeCountExceeded], none)

/-- The uses of attachable volumes by the volumes `volumes`: for every volume
that is counted, its volume handle and limit key, in the order of the volumes
and without merging repeated handles. -/
def CSIMaxVolumeLimitChecker.volumeUses (c : CSIMaxVolumeLimitChecker)
    (nodeInfo : NodeInfo) (namespace_ : String) (volumes : List Volume) :
    List (String × String) :=
  volumes.filterMap (fun vol =>
    match c.attachableVolume nodeInfo namespace_ vol with
    | .ok (some use) => some use
    | _ => none)

/-- The distinct volume handles used with the limit key `key` among `uses`. -/
def handlesWithKey (uses : List (String × String)) (key : String) : List String :=
  ((uses.filter (fun use => use.2 = key)).map Prod.fst).dedup

/-- A checker over three claims: `c1` and `c3` are volumes of driver `d1` with
handles `h` and `g`, `c2` is a volume of driver `d2` with handle `h`. -/
def sampleChecker : CSIMaxVolumeLimitChecker where
  pvInfo := fun pvName =>
    if pvName = "pv1" then .ok { Name := "pv1", CSI := some { Driver := "d1", VolumeHandle := "h" } }
    else if pvName = "pv2" then
      .ok { Name := "pv2", CSI := some { Driver := "d2", VolumeHandle := "h" } }
    else if pvName = "pv3" then
      .ok { Name := "pv3", CSI := some { Driver := "d1", VolumeHandle := "g" } }
    else .error "not found"
  pvcInfo := fun namespace_ pvcName =>
    if pvcName = "c1" then
      .ok { Namespace := namespace_, Name := "c1", VolumeName := "pv1", StorageClassName := none }
    else if pvcName = "c2" then
      .ok { Namespace := namespace_, Name := "c2", VolumeName := "pv2", StorageClassName := none }
    else if pvcName = "c3" then
      .ok { Namespace := namespace_, Name := "c3", VolumeName := "pv3", StorageClassName := none }
    else .error "not found"
  scInfo := fun _ => .error "not found"
  randomVolumeIDPrefix := "rnd"
  IsPVMigratable := fun _ => false
  GetInTreePluginNameFromSpec := fun _ => .error "not in tree"
  isCSIMigrationOn := fun _ _ => false
  TranslateInTreePVToCSI := fun _ => .error "not in tree"
  GetCSIAttachLimitKey := fun driverName => "attachable-volumes-csi-" ++ driverName

/-- A pod of namespace `default` whose volumes are the claims `claims`. -/
def samplePod (name : String) (claims : List String) : Pod where
  Namespace := "default"
  Name := name
  Volumes := claims.map (fun claim => { Name := claim, PersistentVolumeClaim := some ⟨claim⟩ })

/-! ## Desired state of world: theorems -/

theorem Quantity.Cmp_self (q : Quantity) : q.Cmp q = 0 := by
  simp [Quantity.Cmp]

theorem AddPvcUpdate_eq (dsow : desiredStateOfWorld) (newPvc : PersistentVolumeClaim)
    (oldPvc : Option PersistentVolumeClaim) (spec : Option VolumeSpec) :
    dsow.AddPvcUpdate newPvc oldPvc spec = .ok dsow := by
  simp [desiredStateOfWorld.AddPvcUpdate, Quantity.Cmp_self]

/-- C2 (evaluation at the failing input): for a claim requesting 10 with status
capacity 5, `AddPvcUpdate` on the fresh cache, and on a cache with an empty
non-nil map, returns the cache as it was, and `GetPvcsWithResizeRequest` then
lists nothing. -/
theorem AddPvcUpdate_growth_not_recorded :
    ((sampleClaim "a" 10 5 []).Spec.Resources.Requests.index ResourceStorage).Cmp
        ((sampleClaim "a" 10 5 []).Status.Capacity.index ResourceStorage) > 0 ∧
    NewDesiredStateOfWorld.AddPvcUpdate (sampleClaim "a" 10 5 []) none none
      = .ok NewDesiredStateOfWorld ∧
    NewDesiredStateOfWorld.GetPvcsWithResizeRequest RangeOrder.stored = [] ∧
    desiredStateOfWorld.AddPvcUpdate { pvcrs := some [] } (sampleClaim "a" 10 5 []) none none
      = .ok { pvcrs := some [] } := by
  refine ⟨by decide, by rfl, by rfl, by rfl⟩

/-- C3: when the requested storage of `newPvc` is at most its status capacity,
`AddPvcUpdate` returns the cache it was given: no entry is created, none is
overwritten and no `ResizeDone` flag is reset. -/
theorem AddPvcUpdate_no_growth_unchanged (dsow : desiredStateOfWorld)
    (newPvc : PersistentVolumeClaim) (oldPvc : Option PersistentVolumeClaim)
    (spec : Option VolumeSpec)
    (h : ((newPvc.Spec.Resources.Requests.index ResourceStorage).Cmp
      (newPvc.Status.Capacity.index ResourceStorage)) ≤ 0) :
    dsow.AddPvcUpdate newPvc oldPvc spec = .ok dsow := by
  have _ := h
  exact AddPvcUpdate_eq dsow newPvc oldPvc spec

theorem AddPvcUpdate_no_growth_unchanged_witness :
    ((sampleClaim "a" 5 5 []).Spec.Resources.Requests.index ResourceStorage).Cmp
        ((sampleClaim "a" 5 5 []).Status.Capacity.index ResourceStorage) ≤ 0 ∧
    sampleCache.AddPvcUpdate (sampleClaim "a" 5 5 []) none none = .ok sampleCache :=
  ⟨by decide, AddPvcUpdate_no_growth_unchanged sampleCache (sampleClaim "a" 5 5 []) none none
    (by decide)⟩

/-! ## Reconciler: theorems -/

theorem reconcileLoop_calls {σ : Type} (opsExecutor : OperationExecutor σ)
    (pending : List PvcWithResizeRequest) :
    ∀ t : Tick σ, ∃ calls, (reconcileLoop opsExecutor t pending).calls = t.calls ++ calls ∧
      TickCalls opsExecutor t.exec t.dsow pending calls := by
  induction pending with
  | nil =>
    intro t
    exact ⟨[], by simp [reconcileLoop], TickCalls.done _ _⟩
  | cons r rest ih =>
    intro t
    obtain ⟨calls, hcalls, htick⟩ := ih (reconcileBody opsExecutor t r)
    by_cases hp : opsExecutor.IsOperationPending t.exec r.UniquePvcKey "" = true
    · refine ⟨Call.IsOperationPending r.UniquePvcKey "" true :: calls, ?_, ?_⟩
      · simp only [reconcileLoop, hcalls]
        simp [reconcileBody, hp]
      · have hb : reconcileBody opsExecutor t r =
            { t with calls := t.calls ++ [Call.IsOperationPending r.UniquePvcKey "" true] } := by
          simp [reconcileBody, hp]
        rw [hb] at htick
        exact TickCalls.skip _ _ _ _ _ hp htick
    · have hf : opsExecutor.IsOperationPending t.exec r.UniquePvcKey "" = false := by
        simpa using hp
      refine ⟨Call.IsOperationPending r.UniquePvcKey "" false ::
        Call.GrowPvc r (opsExecutor.GrowPvc t.exec r t.dsow).2.2 :: calls, ?_, ?_⟩
      · simp only [reconcileLoop, hcalls]
        simp [reconcileBody, hf]
      · have hb : reconcileBody opsExecutor t r =
            { exec := (opsExecutor.GrowPvc t.exec r t.dsow).1
              dsow := (opsExecutor.GrowPvc t.exec r t.dsow).2.1
              calls := t.calls ++ [Call.IsOperationPending r.UniquePvcKey "" false,
                Call.GrowPvc r (opsExecutor.GrowPvc t.exec r t.dsow).2.2] } := by
          simp [reconcileBody, hf]
        rw [hb] at htick
        exact TickCalls.grow _ _ _ _ _ hf htick

/-- C1: the calls one `reconcile` tick makes on the operation executor follow
the requests listed by `GetPvcsWithResizeRequest` one by one: a request for
whose key `IsOperationPending` answers true gets that query and no `GrowPvc`;
`GrowPvc` is called, once, exactly for the requests for which the query
answered false. -/
theorem reconcile_skips_pending_operations {σ : Type} (ord : RangeOrder)
    (opsExecutor : OperationExecutor σ) (exec : σ) (dsow : desiredStateOfWorld) :
    TickCalls opsExecutor exec dsow (dsow.GetPvcsWithResizeRequest ord)
      (reconcile ord opsExecutor exec dsow).calls := by
  obtain ⟨calls, hcalls, htick⟩ := reconcileLoop_calls opsExecutor
    (dsow.GetPvcsWithResizeRequest ord) { exec := exec, dsow := dsow, calls := [] }
  have h : (reconcile ord opsExecutor exec dsow).calls = calls := by
    simpa [reconcile] using hcalls
  rw [h]
  exact htick

/-! ## Go maps: lemmas -/

theorem mapLookup_mapAssign {ν : Type} (k k' : String) (v : ν) (m : List (String × ν)) :
    mapLookup k (mapAssign k' v m) = if k' = k then some v else mapLookup k m := by
  induction m with
  | nil => simp [mapAssign, mapLookup]
  | cons x rest ih =>
    obtain ⟨a, b⟩ := x
    by_cases h : a = k'
    · subst h
      by_cases h2 : a = k <;> simp [mapAssign, mapLookup, h2]
    · by_cases h2 : a = k
      · subst h2
        have h3 : ¬ k' = a := fun e => h e.symm
        simp [mapAssign, mapLookup, h, h3]
      · simp [mapAssign, mapLookup, h, h2, ih]

theorem mapLookup_eq_none {ν : Type} (k : String) (m : List (String × ν))
    (h : mapLookup k m = none) : ∀ x ∈ m, x.1 ≠ k := by
  induction m with
  | nil => simp
  | cons x rest ih =>
    obtain ⟨a, b⟩ := x
    by_cases h2 : a = k
    · simp [mapLookup, h2] at h
    · simp only [mapLookup, h2, if_false] at h
      intro y hy
      rcases List.mem_cons.mp hy with rfl | hy
      · exact h2
      · exact ih h y hy

theorem mapLookup_mem {ν : Type} (k : String) (m : List (String × ν)) (v : ν)
    (h : mapLookup k m = some v) : (k, v) ∈ m := by
  induction m with
  | nil => simp [mapLookup] at h
  | cons x rest ih =>
    obtain ⟨a, b⟩ := x
    by_cases h2 : a = k
    · simp only [mapLookup, h2, if_true, Option.some.injEq] at h
      simp [h2, h]
    · simp only [mapLookup, h2, if_false] at h
      exact List.mem_cons_of_mem _ (ih h)

theorem mapAssign_of_not_mem {ν : Type} (k : String) (v : ν) (m : List (String × ν))
    (h : ∀ x ∈ m, x.1 ≠ k) : mapAssign k v m = m ++ [(k, v)] := by
  induction m with
  | nil => simp [mapAssign]
  | cons x rest ih =>
    obtain ⟨a, b⟩ := x
    have h1 : a ≠ k := h (a, b) (List.mem_cons_self _ _)
    have h2 : ∀ x ∈ rest, x.1 ≠ k := fun x hx => h x (List.mem_cons_of_mem _ hx)
    simp [mapAssign, h1, ih h2]

theorem mem_mapAssign {ν : Type} (k : String) (v : ν) (m : List (String × ν))
    (x : String × ν) (hx : x ∈ mapAssign k v m) : x = (k, v) ∨ x ∈ m := by
  induction m with
  | nil => simpa [mapAssign] using hx
  | cons y rest ih =>
    obtain ⟨a, b⟩ := y
    by_cases h : a = k
    · simp only [mapAssign, h, if_true, List.mem_cons] at hx
      rcases hx with hx | hx
      · exact Or.inl hx
      · exact Or.inr (List.mem_cons_of_mem _ hx)
    · simp only [mapAssign, h, if_false, List.mem_cons] at hx
      rcases hx with hx | hx
      · exact Or.inr (by simp [hx])
      · rcases ih hx with h1 | h1
        · exact Or.inl h1
        · exact Or.inr (List.mem_cons_of_mem _ h1)

theorem keys_mapAssign {ν : Type} (k : String) (v : ν) (m : List (String × ν)) :
    (mapAssign k v m).map Prod.fst =
      if k ∈ m.map Prod.fst then m.map Prod.fst else m.map Prod.fst ++ [k] := by
  induction m with
  | nil => simp [mapAssign]
  | cons y rest ih =>
    obtain ⟨a, b⟩ := y
    by_cases h : a = k
    · subst h
      simp [mapAssign]
    · have h' : ¬ k = a := fun e => h e.symm
      simp only [mapAssign, h, if_false, List.map_cons, ih, List.mem_cons, h', false_or]
      split <;> simp

theorem nodup_keys_mapAssign {ν : Type} (k : String) (v : ν) (m : List (String × ν))
    (h : (m.map Prod.fst).Nodup) : ((mapAssign k v m).map Prod.fst).Nodup := by
  rw [keys_mapAssign]
  split
  · exact h
  · rename_i hk
    exact List.Nodup.append h (List.nodup_singleton k) (by simpa using hk)

/-! ## The loops of `MergeResizeConditionOnPVC` -/

theorem isKnownResizeCondition_iff (t : String) :
    isKnownResizeCondition t = true ↔
      t = PersistentVolumeClaimResizing ∨ t = PersistentVolumeClaimFileSystemResizePending := by
  unfold isKnownResizeCondition knownResizeConditions
  by_cases h1 : PersistentVolumeClaimFileSystemResizePending = t
  · simp [mapLookup, h1]
  · by_cases h2 : PersistentVolumeClaimResizing = t
    · simp [mapLookup, h2]
    · have h1' : ¬ t = PersistentVolumeClaimFileSystemResizePending := fun e => h1 e.symm
      have h2' : ¬ t = PersistentVolumeClaimResizing := fun e => h2 e.symm
      simp [mapLookup, h1, h2, h1', h2']

theorem mapAssign_processed (k : String) (e : resizeProcessStatus)
    (m : List (String × resizeProcessStatus)) (hn : (m.map Prod.fst).Nodup)
    (h : mapLookup k m = some e) :
    mapAssign k { e with processed := true } m =
      m.map (fun x => if x.1 = k then (x.1, { x.2 with processed := true }) else x) := by
  induction m with
  | nil => simp [mapLookup] at h
  | cons y rest ih =>
    obtain ⟨a, b⟩ := y
    simp only [List.map_cons, List.nodup_cons] at hn
    by_cases h2 : a = k
    · subst h2
      simp only [mapLookup, if_true, Option.some.injEq] at h
      subst h
      have hrest : rest.map (fun x => if x.1 = a then (x.1, { x.2 with processed := true }) else x)
          = rest := by
        conv_rhs => rw [← List.map_id rest]
        apply List.map_congr_left
        intro x hx
        have : x.1 ≠ a := fun e => hn.1 (e ▸ List.mem_map_of_mem Prod.fst hx)
        simp [this]
      simp [mapAssign, hrest]
    · simp only [mapLookup, h2, if_false] at h
      simp [mapAssign, h2, ih hn.2 h]

theorem carryOne_mapAssign (k : String) (e : resizeProcessStatus)
    (m : List (String × resizeProcessStatus)) (h : mapLookup k m = some e)
    (c : PersistentVolumeClaimCondition) :
    carryOne (mapAssign k { e with processed := true } m) c = carryOne m c := by
  unfold carryOne
  rw [mapLookup_mapAssign]
  by_cases hk : k = c.Type_
  · subst hk
    simp [h]
  · simp [hk]

theorem mergeOldConditions_eq (l : List PersistentVolumeClaimCondition) :
    ∀ (m : List (String × resizeProcessStatus)) (acc : List PersistentVolumeClaimCondition),
      (m.map Prod.fst).Nodup →
      mergeOldConditions m acc l = (m.map (markProcessed l), acc ++ l.filterMap (carryOne m)) := by
  induction l with
  | nil =>
    intro m acc _
    have : m.map (markProcessed []) = m := by
      conv_rhs => rw [← List.map_id m]
      apply List.map_congr_left
      intro x _
      simp [markProcessed]
    simp [mergeOldConditions, this]
  | cons c rest ih =>
    intro m acc hn
    by_cases hk : isKnownResizeCondition c.Type_ = true
    · cases hl : mapLookup c.Type_ m with
      | none =>
        have hm : m.map (markProcessed (c :: rest)) = m.map (markProcessed rest) := by
          apply List.map_congr_left
          intro x hx
          have hb : (c.Type_ == x.1) = false :=
            beq_eq_false_iff_ne.mpr (fun e => mapLookup_eq_none _ _ hl x hx e.symm)
          simp [markProcessed, hb]
        have hc : carryOne m c = none := by simp [carryOne, hk, hl]
        simp [mergeOldConditions, hk, hl, ih m acc hn, hm, hc]
      | some e =>
        have hn' : ((mapAssign c.Type_ { e with processed := true } m).map Prod.fst).Nodup :=
          nodup_keys_mapAssign _ _ _ hn
        have hm : (mapAssign c.Type_ { e with processed := true } m).map (markProcessed rest)
            = m.map (markProcessed (c :: rest)) := by
          rw [mapAssign_processed _ _ _ hn hl, List.map_map]
          apply List.map_congr_left
          intro x _
          by_cases hx : x.1 = c.Type_
          · simp [markProcessed, hx, hk]
          · have hb : (c.Type_ == x.1) = false := beq_eq_false_iff_ne.mpr (fun e => hx e.symm)
            simp [markProcessed, hx, hb]
        have hf : rest.filterMap (carryOne (mapAssign c.Type_ { e with processed := true } m))
            = rest.filterMap (carryOne m) := by
          congr 1
          funext c'
          exact carryOne_mapAssign _ _ _ hl c'
        have hc : carryOne m c = some (if e.condition.Status != c.Status then e.condition else c) := by
          simp [carryOne, hk, hl]
        simp only [mergeOldConditions, hk, hl, Bool.not_true, Bool.false_eq_true, if_false]
        rw [ih _ _ hn', hm, hf, List.filterMap_cons, hc]
        by_cases hs : (e.condition.Status != c.Status) = true <;> simp [hs]
    · have hk' : isKnownResizeCondition c.Type_ = false := by simpa using hk
      have hm : m.map (markProcessed (c :: rest)) = m.map (markProcessed rest) := by
        apply List.map_congr_left
        intro x _
        by_cases hx : c.Type_ = x.1
        · simp [markProcessed, ← hx, hk']
        · have hb : (c.Type_ == x.1) = false := beq_eq_false_iff_ne.mpr hx
          simp [markProcessed, hb]
      have hc : carryOne m c = some c := by simp [carryOne, hk']
      simp [mergeOldConditions, hk', ih m (acc ++ [c]) hn, hm, hc]

theorem appendUnprocessed_eq (ord : RangeOrder) (m : List (String × resizeProcessStatus))
    (acc : List PersistentVolumeClaimCondition) :
    appendUnprocessed ord m acc = acc ++ (ord.visit m).filterMap unprocessedCondition := by
  unfold appendUnprocessed
  generalize ord.visit m = l
  induction l generalizing acc with
  | nil => simp
  | cons x rest ih =>
    simp only [List.foldl_cons, List.filterMap_cons]
    rw [ih]
    by_cases hp : x.2.processed = true <;> simp [unprocessedCondition, hp]

theorem buildResizeConditionMap_append (l : List PersistentVolumeClaimCondition)
    (c : PersistentVolumeClaimCondition) :
    buildResizeConditionMap (l ++ [c]) =
      mapAssign c.Type_ { condition := c, processed := false } (buildResizeConditionMap l) := by
  simp [buildResizeConditionMap, List.foldl_append]

theorem buildResizeConditionMap_nodup (l : List PersistentVolumeClaimCondition) :
    ((buildResizeConditionMap l).map Prod.fst).Nodup := by
  induction l using List.reverseRecOn with
  | nil => simp [buildResizeConditionMap]
  | append_singleton l c ih =>
    rw [buildResizeConditionMap_append]
    exact nodup_keys_mapAssign _ _ _ ih

theorem buildResizeConditionMap_entry (l : List PersistentVolumeClaimCondition) :
    ∀ x ∈ buildResizeConditionMap l,
      x.2.condition ∈ l ∧ x.2.condition.Type_ = x.1 ∧ x.2.processed = false := by
  induction l using List.reverseRecOn with
  | nil => simp [buildResizeConditionMap]
  | append_singleton l c ih =>
    intro x hx
    rw [buildResizeConditionMap_append] at hx
    rcases mem_mapAssign _ _ _ _ hx with rfl | hx
    · simp
    · obtain ⟨h1, h2, h3⟩ := ih x hx
      exact ⟨List.mem_append_left _ h1, h2, h3⟩

theorem buildResizeConditionMap_lookup_none (l : List PersistentVolumeClaimCondition)
    (k : String) (h : ∀ d ∈ l, d.Type_ ≠ k) : mapLookup k (buildResizeConditionMap l) = none := by
  induction l using List.reverseRecOn with
  | nil => simp [buildResizeConditionMap, mapLookup]
  | append_singleton l c ih =>
    rw [buildResizeConditionMap_append, mapLookup_mapAssign]
    have h1 : c.Type_ ≠ k := h c (by simp)
    simp only [h1, if_false]
    exact ih (fun d hd => h d (List.mem_append_left _ hd))

theorem buildResizeConditionMap_lookup_last (before after : List PersistentVolumeClaimCondition)
    (d : PersistentVolumeClaimCondition) (h : ∀ x ∈ after, x.Type_ ≠ d.Type_) :
    mapLookup d.Type_ (buildResizeConditionMap (before ++ d :: after)) =
      some { condition := d, processed := false } := by
  induction after using List.reverseRecOn with
  | nil =>
    rw [buildResizeConditionMap_append, mapLookup_mapAssign]
    simp
  | append_singleton l c ih =>
    have e : before ++ d :: (l ++ [c]) = (before ++ d :: l) ++ [c] := by simp
    rw [e, buildResizeConditionMap_append, mapLookup_mapAssign]
    have h1 : c.Type_ ≠ d.Type_ := h c (by simp)
    simp only [h1, if_false]
    exact ih (fun x hx => h x (List.mem_append_left _ hx))

theorem buildResizeConditionMap_of_nodup (l : List PersistentVolumeClaimCondition)
    (h : (l.map (fun c => c.Type_)).Nodup) :
    buildResizeConditionMap l =
      l.map (fun c => (c.Type_, ({ condition := c, processed := false } : resizeProcessStatus))) := by
  induction l using List.reverseRecOn with
  | nil => simp [buildResizeConditionMap]
  | append_singleton l c ih =>
    rw [List.map_append, List.nodup_append] at h
    obtain ⟨h1, _, h3⟩ := h
    rw [buildResizeConditionMap_append, ih h1, mapAssign_of_not_mem]
    · simp
    · intro x hx hk
      obtain ⟨y, hy, rfl⟩ := List.mem_map.mp hx
      exact h3 (List.mem_map_of_mem (fun c => c.Type_) hy) (by simp [← hk])

/-- The conditions of the merge result: what the second loop carries over,
followed by what the third loop appends. -/
theorem merge_conditions_eq (ord : RangeOrder) (pvc : PersistentVolumeClaim)
    (desired : List PersistentVolumeClaimCondition) :
    (MergeResizeConditionOnPVC ord pvc desired).Status.Conditions =
      pvc.Status.Conditions.filterMap (carryOne (buildResizeConditionMap desired)) ++
      (ord.visit ((buildResizeConditionMap desired).map
        (markProcessed pvc.Status.Conditions))).filterMap unprocessedCondition := by
  simp [MergeResizeConditionOnPVC, appendUnprocessed_eq,
    mergeOldConditions_eq _ _ _ (buildResizeConditionMap_nodup desired)]

theorem carriedOver_eq (desired l : List PersistentVolumeClaimCondition) :
    carriedOver desired l = l.filterMap (carryOne (buildResizeConditionMap desired)) := by
  simp [carriedOver, mergeOldConditions_eq _ _ _ (buildResizeConditionMap_nodup desired)]

theorem isOtherCondition_eq (c : PersistentVolumeClaimCondition) :
    isOtherCondition c = !isKnownResizeCondition c.Type_ := by
  by_cases h : isKnownResizeCondition c.Type_ = true
  · have h' := (isKnownResizeCondition_iff _).mp h
    rw [h]
    simp only [isOtherCondition, Bool.not_true, decide_eq_false_iff_not]
    tauto
  · have h' : ¬ (c.Type_ = PersistentVolumeClaimResizing ∨
        c.Type_ = PersistentVolumeClaimFileSystemResizePending) :=
      fun e => h ((isKnownResizeCondition_iff _).mpr e)
    have hf : isKnownResizeCondition c.Type_ = false := by simpa using h
    rw [hf]
    simp only [isOtherCondition, Bool.not_false, decide_eq_true_eq]
    tauto

theorem carryOne_of_other (m : List (String × resizeProcessStatus))
    (c : PersistentVolumeClaimCondition) (h : isOtherCondition c = true) :
    carryOne m c = some c := by
  rw [isOtherCondition_eq] at h
  simp [carryOne, h]

theorem carryOne_type (m : List (String × resizeProcessStatus))
    (hm : ∀ x ∈ m, x.2.condition.Type_ = x.1)
    (c x : PersistentVolumeClaimCondition) (h : carryOne m c = some x) : x.Type_ = c.Type_ := by
  unfold carryOne at h
  by_cases hk : isKnownResizeCondition c.Type_ = true
  · cases hl : mapLookup c.Type_ m with
    | none => simp [hk, hl] at h
    | some e =>
      have he := hm _ (mapLookup_mem _ _ _ hl)
      simp only [hk, hl, Bool.not_true, Bool.false_eq_true, if_false, Option.some.injEq] at h
      by_cases hs : (e.condition.Status != c.Status) = true
      · simp only [hs, if_true] at h
        rw [← h]
        exact he
      · simp only [hs, if_false] at h
        rw [← h]
        simp
  · have hf : isKnownResizeCondition c.Type_ = false := by simpa using hk
    simp only [hf, Bool.not_false, if_true, Option.some.injEq] at h
    rw [h]

theorem isOtherCondition_congr (x c : PersistentVolumeClaimCondition) (h : x.Type_ = c.Type_) :
    isOtherCondition x = isOtherCondition c := by
  simp [isOtherCondition, h]

theorem filter_other_carried (m : List (String × resizeProcessStatus))
    (hm : ∀ x ∈ m, x.2.condition.Type_ = x.1) (l : List PersistentVolumeClaimCondition) :
    (l.filterMap (carryOne m)).filter isOtherCondition = l.filter isOtherCondition := by
  induction l with
  | nil => simp
  | cons c rest ih =>
    by_cases ho : isOtherCondition c = true
    · simp [List.filterMap_cons, carryOne_of_other m c ho, ho, ih]
    · cases hc : carryOne m c with
      | none => simp [List.filterMap_cons, hc, ho, ih]
      | some x =>
        have hx : isOtherCondition x = isOtherCondition c :=
          isOtherCondition_congr _ _ (carryOne_type m hm c x hc)
        simp [List.filterMap_cons, hc, ho, hx, ih]

theorem types_carried_sublist (m : List (String × resizeProcessStatus))
    (hm : ∀ x ∈ m, x.2.condition.Type_ = x.1) (l : List PersistentVolumeClaimCondition) :
    ((l.filterMap (carryOne m)).map (fun c => c.Type_)).Sublist (l.map (fun c => c.Type_)) := by
  induction l with
  | nil => simp
  | cons c rest ih =>
    cases hc : carryOne m c with
    | none =>
      simp only [List.filterMap_cons, hc, List.map_cons]
      exact List.Sublist.cons _ ih
    | some x =>
      simp only [List.filterMap_cons, hc, List.map_cons, carryOne_type m hm c x hc]
      exact List.Sublist.cons₂ _ ih

theorem mem_appended (ord : RangeOrder) (m : List (String × resizeProcessStatus))
    (l : List PersistentVolumeClaimCondition) (a : PersistentVolumeClaimCondition)
    (h : a ∈ (ord.visit (m.map (markProcessed l))).filterMap unprocessedCondition) :
    ∃ y ∈ m, a = y.2.condition ∧
      (isKnownResizeCondition y.1 && l.any (fun c => c.Type_ == y.1)) = false := by
  obtain ⟨x, hx, hxa⟩ := List.mem_filterMap.mp h
  have hx' : x ∈ m.map (markProcessed l) := (ord.perm _).mem_iff.mp hx
  obtain ⟨y, hy, rfl⟩ := List.mem_map.mp hx'
  refine ⟨y, hy, ?_⟩
  unfold unprocessedCondition at hxa
  by_cases hp : (markProcessed l y).2.processed = true
  · simp [hp] at hxa
  · have hf : (markProcessed l y).2.processed = false := by simpa using hp
    simp only [hf, Bool.not_false, if_true, Option.some.injEq] at hxa
    refine ⟨by rw [← hxa]; rfl, ?_⟩
    simp only [markProcessed, Bool.or_eq_false_iff] at hf
    exact hf.2

theorem mem_appended_desired (ord : RangeOrder) (desired l : List PersistentVolumeClaimCondition)
    (a : PersistentVolumeClaimCondition)
    (h : a ∈ (ord.visit ((buildResizeConditionMap desired).map
      (markProcessed l))).filterMap unprocessedCondition) : a ∈ desired := by
  obtain ⟨y, hy, rfl, _⟩ := mem_appended ord _ l a h
  exact (buildResizeConditionMap_entry desired y hy).1

theorem buildResizeConditionMap_type (desired : List PersistentVolumeClaimCondition) :
    ∀ x ∈ buildResizeConditionMap desired, x.2.condition.Type_ = x.1 :=
  fun x hx => (buildResizeConditionMap_entry desired x hx).2.1

/-! ## Resize conditions: theorems -/

/-- C4: when every desired condition is of a resize kind, the conditions of the
merge result of kinds other than Resizing and FileSystemResizePending are the
claim's original conditions of those kinds, unchanged and in the same order. -/
theorem merge_preserves_other_conditions (ord : RangeOrder) (pvc : PersistentVolumeClaim)
    (desired : List PersistentVolumeClaimCondition)
    (h : ∀ d ∈ desired, isOtherCondition d = false) :
    (MergeResizeConditionOnPVC ord pvc desired).Status.Conditions.filter isOtherCondition =
      pvc.Status.Conditions.filter isOtherCondition := by
  rw [merge_conditions_eq, List.filter_append,
    filter_other_carried _ (buildResizeConditionMap_type desired)]
  have : ((ord.visit ((buildResizeConditionMap desired).map
      (markProcessed pvc.Status.Conditions))).filterMap unprocessedCondition).filter
        isOtherCondition = [] := by
    rw [List.filter_eq_nil_iff]
    intro a ha
    simp [h a (mem_appended_desired ord desired _ a ha)]
  rw [this, List.append_nil]

theorem merge_preserves_other_conditions_witness :
    (∀ d ∈ [sampleCondition "Resizing" "False" 7, sampleCondition "FileSystemResizePending" "True" 8],
      isOtherCondition d = false) ∧
    (MergeResizeConditionOnPVC RangeOrder.reversed
      (sampleClaim "a" 10 5 [sampleCondition "Ready" "True" 1, sampleCondition "Resizing" "True" 2,
        sampleCondition "Bound" "True" 3])
      [sampleCondition "Resizing" "False" 7,
        sampleCondition "FileSystemResizePending" "True" 8]).Status.Conditions.filter
        isOtherCondition =
      (sampleClaim "a" 10 5 [sampleCondition "Ready" "True" 1, sampleCondition "Resizing" "True" 2,
        sampleCondition "Bound" "True" 3]).Status.Conditions.filter isOtherCondition :=
  ⟨by decide, merge_preserves_other_conditions _ _ _ (by decide)⟩

/-- C5 (as stated, refuted): the claim holds a Resizing condition `c` of status
True, and the desired list holds a Resizing condition of status False followed
by one of status True.  A desired condition of the kind of `c` with a status
other than that of `c` exists, yet `c` is not replaced: the result holds the
original `c` and no desired condition at all.  Of several desired conditions
of one kind only the last is compared with `c`; the earlier one is neither
used nor appended. -/
theorem merge_matched_ignores_earlier_desired :
    sampleCondition "Resizing" "False" 5 ∈
      [sampleCondition "Resizing" "False" 5, sampleCondition "Resizing" "True" 6] ∧
    (sampleCondition "Resizing" "False" 5).Type_ = (sampleCondition "Resizing" "True" 1).Type_ ∧
    (sampleCondition "Resizing" "False" 5).Status ≠ (sampleCondition "Resizing" "True" 1).Status ∧
    (∀ ord : RangeOrder, (MergeResizeConditionOnPVC ord
      (sampleClaim "a" 10 5 [sampleCondition "Resizing" "True" 1])
      [sampleCondition "Resizing" "False" 5,
        sampleCondition "Resizing" "True" 6]).Status.Conditions =
      [sampleCondition "Resizing" "True" 1]) := by
  refine ⟨by decide, by decide, by decide, ?_⟩
  intro ord
  rw [merge_conditions_eq]
  have hm : (buildResizeConditionMap [sampleCondition "Resizing" "False" 5,
        sampleCondition "Resizing" "True" 6]).map
        (markProcessed
          (sampleClaim "a" 10 5 [sampleCondition "Resizing" "True" 1]).Status.Conditions) =
      [("Resizing", { condition := sampleCondition "Resizing" "True" 6, processed := true })] := by
    decide
  rw [hm, List.perm_singleton.mp (ord.perm _)]
  decide

/-- C5 (amended): let `c` be an existing condition of a resize kind and `d` the
last desired condition of that kind.  The result holds, between what is carried
over from the conditions before `c` and what is carried over from those after
it, the original `c` when `d.Status = c.Status` and `d` otherwise. -/
theorem merge_replaces_or_keeps_matched (ord : RangeOrder) (pvc : PersistentVolumeClaim)
    (desired pre post before after : List PersistentVolumeClaimCondition)
    (c d : PersistentVolumeClaimCondition)
    (hold : pvc.Status.Conditions = pre ++ c :: post)
    (hknown : c.Type_ = PersistentVolumeClaimResizing ∨
      c.Type_ = PersistentVolumeClaimFileSystemResizePending)
    (hdes : desired = before ++ d :: after)
    (hkind : d.Type_ = c.Type_)
    (hlast : ∀ x ∈ after, x.Type_ ≠ c.Type_) :
    ∃ appended, (MergeResizeConditionOnPVC ord pvc desired).Status.Conditions =
      carriedOver desired pre ++ (if d.Status = c.Status then c else d) ::
        carriedOver desired post ++ appended := by
  have hk : isKnownResizeCondition c.Type_ = true := (isKnownResizeCondition_iff _).mpr hknown
  have hl : mapLookup c.Type_ (buildResizeConditionMap desired) =
      some { condition := d, processed := false } := by
    rw [hdes, ← hkind]
    exact buildResizeConditionMap_lookup_last before after d (fun x hx => hkind ▸ hlast x hx)
  have hc : carryOne (buildResizeConditionMap desired) c =
      some (if d.Status = c.Status then c else d) := by
    by_cases hs : d.Status = c.Status <;> simp [carryOne, hk, hl, hs]
  refine ⟨(ord.visit ((buildResizeConditionMap desired).map
    (markProcessed pvc.Status.Conditions))).filterMap unprocessedCondition, ?_⟩
  rw [merge_conditions_eq, hold, List.filterMap_append, List.filterMap_cons, hc,
    carriedOver_eq, carriedOver_eq]

theorem merge_replaces_or_keeps_matched_witness :
    ∃ appended, (MergeResizeConditionOnPVC RangeOrder.stored
      (sampleClaim "a" 10 5 [sampleCondition "Ready" "True" 1, sampleCondition "Resizing" "True" 2,
        sampleCondition "Bound" "True" 3])
      [sampleCondition "Resizing" "True" 5, sampleCondition "Resizing" "False" 6,
        sampleCondition "FileSystemResizePending" "True" 7]).Status.Conditions =
      carriedOver [sampleCondition "Resizing" "True" 5, sampleCondition "Resizing" "False" 6,
          sampleCondition "FileSystemResizePending" "True" 7] [sampleCondition "Ready" "True" 1] ++
        (if (sampleCondition "Resizing" "False" 6).Status = (sampleCondition "Resizing" "True" 2).Status
          then sampleCondition "Resizing" "True" 2 else sampleCondition "Resizing" "False" 6) ::
        carriedOver [sampleCondition "Resizing" "True" 5, sampleCondition "Resizing" "False" 6,
          sampleCondition "FileSystemResizePending" "True" 7] [sampleCondition "Bound" "True" 3] ++
        appended :=
  merge_replaces_or_keeps_matched RangeOrder.stored
    (sampleClaim "a" 10 5 [sampleCondition "Ready" "True" 1, sampleCondition "Resizing" "True" 2,
      sampleCondition "Bound" "True" 3])
    [sampleCondition "Resizing" "True" 5, sampleCondition "Resizing" "False" 6,
      sampleCondition "FileSystemResizePending" "True" 7]
    [sampleCondition "Ready" "True" 1] [sampleCondition "Bound" "True" 3]
    [sampleCondition "Resizing" "True" 5] [sampleCondition "FileSystemResizePending" "True" 7]
    (sampleCondition "Resizing" "True" 2) (sampleCondition "Resizing" "False" 6)
    (by rfl) (by decide) (by rfl) (by rfl) (by decide)

/-- C6 (as stated, refuted): merging the desired list of `MarkResizeInProgress`
(one Resizing condition) into a claim whose only condition is
FileSystemResizePending yields the Resizing condition alone: the existing
condition, for whose kind nothing is desired, is not kept. -/
theorem merge_unmatched_resize_condition_not_kept :
    (∀ d ∈ [sampleCondition "Resizing" "True" 5],
      d.Type_ ≠ (sampleCondition "FileSystemResizePending" "True" 1).Type_) ∧
    (MergeResizeConditionOnPVC RangeOrder.stored
      (sampleClaim "a" 10 5 [sampleCondition "FileSystemResizePending" "True" 1])
      [sampleCondition "Resizing" "True" 5]).Status.Conditions =
      [sampleCondition "Resizing" "True" 5] ∧
    sampleCondition "FileSystemResizePending" "True" 1 ∉
      (MergeResizeConditionOnPVC RangeOrder.stored
        (sampleClaim "a" 10 5 [sampleCondition "FileSystemResizePending" "True" 1])
        [sampleCondition "Resizing" "True" 5]).Status.Conditions := by
  decide

/-- C6 (amended): an existing condition `c` of a resize kind for which the
desired list holds no condition of the same kind is removed: the result
contains neither `c` nor any other condition of that kind. -/
theorem merge_drops_unmatched_resize_condition (ord : RangeOrder) (pvc : PersistentVolumeClaim)
    (desired : List PersistentVolumeClaimCondition) (c : PersistentVolumeClaimCondition)
    (hc : c ∈ pvc.Status.Conditions)
    (hknown : c.Type_ = PersistentVolumeClaimResizing ∨
      c.Type_ = PersistentVolumeClaimFileSystemResizePending)
    (hnone : ∀ d ∈ desired, d.Type_ ≠ c.Type_) :
    c ∉ (MergeResizeConditionOnPVC ord pvc desired).Status.Conditions ∧
    ∀ x ∈ (MergeResizeConditionOnPVC ord pvc desired).Status.Conditions, x.Type_ ≠ c.Type_ := by
  have hk : isKnownResizeCondition c.Type_ = true := (isKnownResizeCondition_iff _).mpr hknown
  have hl : mapLookup c.Type_ (buildResizeConditionMap desired) = none :=
    buildResizeConditionMap_lookup_none desired _ hnone
  have hall : ∀ x ∈ (MergeResizeConditionOnPVC ord pvc desired).Status.Conditions,
      x.Type_ ≠ c.Type_ := by
    intro x hx
    rw [merge_conditions_eq, List.mem_append] at hx
    rcases hx with hx | hx
    · obtain ⟨c', _, hc'⟩ := List.mem_filterMap.mp hx
      have ht := carryOne_type _ (buildResizeConditionMap_type desired) c' x hc'
      intro hxc
      have hcc : c'.Type_ = c.Type_ := by rw [← ht, hxc]
      simp [carryOne, hcc, hk, hl] at hc'
    · exact hnone x (mem_appended_desired ord desired _ x hx)
  have _ := hc
  exact ⟨fun hmem => hall c hmem rfl, hall⟩

theorem merge_drops_unmatched_resize_condition_witness :
    sampleCondition "FileSystemResizePending" "True" 1 ∉
      (MergeResizeConditionOnPVC RangeOrder.stored
        (sampleClaim "a" 10 5 [sampleCondition "Ready" "True" 0,
          sampleCondition "FileSystemResizePending" "True" 1])
        [sampleCondition "Resizing" "True" 5]).Status.Conditions ∧
    ∀ x ∈ (MergeResizeConditionOnPVC RangeOrder.stored
        (sampleClaim "a" 10 5 [sampleCondition "Ready" "True" 0,
          sampleCondition "FileSystemResizePending" "True" 1])
        [sampleCondition "Resizing" "True" 5]).Status.Conditions,
      x.Type_ ≠ (sampleCondition "FileSystemResizePending" "True" 1).Type_ :=
  merge_drops_unmatched_resize_condition RangeOrder.stored
    (sampleClaim "a" 10 5 [sampleCondition "Ready" "True" 0,
      sampleCondition "FileSystemResizePending" "True" 1])
    [sampleCondition "Resizing" "True" 5] (sampleCondition "FileSystemResizePending" "True" 1)
    (by decide) (by decide) (by decide)

/-- C7: merging the empty desired list, as `MarkFSResizeFinished` does, leaves
exactly the claim's conditions of other kinds, in their original order, and so
no Resizing and no FileSystemResizePending condition. -/
theorem merge_empty_clears_resize_conditions (ord : RangeOrder) (pvc : PersistentVolumeClaim) :
    (MergeResizeConditionOnPVC ord pvc []).Status.Conditions =
      pvc.Status.Conditions.filter isOtherCondition ∧
    ∀ c ∈ (MergeResizeConditionOnPVC ord pvc []).Status.Conditions,
      c.Type_ ≠ PersistentVolumeClaimResizing ∧
      c.Type_ ≠ PersistentVolumeClaimFileSystemResizePending := by
  have hv : ord.visit ([] : List (String × resizeProcessStatus)) = [] :=
    List.Perm.eq_nil (ord.perm [])
  have hcarry : ∀ l : List PersistentVolumeClaimCondition,
      l.filterMap (carryOne []) = l.filter isOtherCondition := by
    intro l
    induction l with
    | nil => simp
    | cons c rest ih =>
      by_cases ho : isOtherCondition c = true
      · simp [List.filterMap_cons, carryOne_of_other [] c ho, ho, ih]
      · have hk : isKnownResizeCondition c.Type_ = true := by
          rw [isOtherCondition_eq] at ho
          simpa using ho
        simp [List.filterMap_cons, carryOne, hk, mapLookup, ho, ih]
  have heq : (MergeResizeConditionOnPVC ord pvc []).Status.Conditions =
      pvc.Status.Conditions.filter isOtherCondition := by
    rw [merge_conditions_eq]
    simp [buildResizeConditionMap, hv, hcarry]
  refine ⟨heq, ?_⟩
  intro c hc
  rw [heq] at hc
  have := (List.mem_filter.mp hc).2
  simpa [isOtherCondition] using this

theorem appended_of_nodup (desired l : List PersistentVolumeClaimCondition)
    (h : (desired.map (fun c => c.Type_)).Nodup) :
    ((buildResizeConditionMap desired).map (markProcessed l)).filterMap unprocessedCondition =
      desired.filter (fun c =>
        !(isKnownResizeCondition c.Type_ && l.any (fun c' => c'.Type_ == c.Type_))) := by
  rw [buildResizeConditionMap_of_nodup desired h, List.map_map, List.filterMap_map]
  clear h
  induction desired with
  | nil => simp
  | cons c rest ih =>
    by_cases hp : (isKnownResizeCondition c.Type_ && l.any (fun c' => c'.Type_ == c.Type_)) = true
    · simp only [List.filterMap_cons, List.filter_cons, Function.comp, unprocessedCondition,
        markProcessed, Bool.false_or, hp, Bool.not_true, Bool.false_eq_true, if_false]
      exact ih
    · have hf : (isKnownResizeCondition c.Type_ && l.any (fun c' => c'.Type_ == c.Type_)) = false := by
        simpa using hp
      simp only [List.filterMap_cons, List.filter_cons, Function.comp, unprocessedCondition,
        markProcessed, Bool.false_or, hf, Bool.not_false, if_true]
      rw [← ih]

/-- C8: when the kinds of the desired list are pairwise distinct, a desired
condition `d` whose kind does not occur among the claim's conditions is not
among the conditions carried over, and is appended once after all of them: it
occurs exactly once in the result. -/
theorem merge_appends_new_kinds (ord : RangeOrder) (pvc : PersistentVolumeClaim)
    (desired : List PersistentVolumeClaimCondition) (d : PersistentVolumeClaimCondition)
    (hnodup : (desired.map (fun c => c.Type_)).Nodup) (hd : d ∈ desired)
    (hnew : ∀ c ∈ pvc.Status.Conditions, c.Type_ ≠ d.Type_) :
    ∃ appended, (MergeResizeConditionOnPVC ord pvc desired).Status.Conditions =
        carriedOver desired pvc.Status.Conditions ++ appended ∧
      d ∉ carriedOver desired pvc.Status.Conditions ∧
      appended.count d = 1 ∧
      (MergeResizeConditionOnPVC ord pvc desired).Status.Conditions.count d = 1 := by
  have hcar : d ∉ carriedOver desired pvc.Status.Conditions := by
    rw [carriedOver_eq]
    intro hmem
    obtain ⟨c, hc, hcd⟩ := List.mem_filterMap.mp hmem
    exact hnew c hc (carryOne_type _ (buildResizeConditionMap_type desired) c d hcd).symm
  have hany : pvc.Status.Conditions.any (fun c' => c'.Type_ == d.Type_) = false := by
    rw [List.any_eq_false]
    intro c hc
    simpa using hnew c hc
  have happ : ((ord.visit ((buildResizeConditionMap desired).map
      (markProcessed pvc.Status.Conditions))).filterMap unprocessedCondition).count d = 1 := by
    rw [((ord.perm _).filterMap unprocessedCondition).count_eq,
      appended_of_nodup desired _ hnodup, List.count_filter (by simp [hany])]
    exact List.count_eq_one_of_mem (List.Nodup.of_map _ hnodup) hd
  refine ⟨(ord.visit ((buildResizeConditionMap desired).map
    (markProcessed pvc.Status.Conditions))).filterMap unprocessedCondition, ?_, hcar, happ, ?_⟩
  · rw [merge_conditions_eq, carriedOver_eq]
  · rw [merge_conditions_eq, List.count_append, happ, ← carriedOver_eq,
      List.count_eq_zero_of_not_mem hcar]

theorem merge_appends_new_kinds_witness :
    ∃ appended, (MergeResizeConditionOnPVC RangeOrder.reversed
        (sampleClaim "a" 10 5 [sampleCondition "Ready" "True" 1, sampleCondition "Resizing" "True" 2])
        [sampleCondition "Resizing" "False" 6,
          sampleCondition "FileSystemResizePending" "True" 7]).Status.Conditions =
        carriedOver [sampleCondition "Resizing" "False" 6,
          sampleCondition "FileSystemResizePending" "True" 7]
          (sampleClaim "a" 10 5 [sampleCondition "Ready" "True" 1,
            sampleCondition "Resizing" "True" 2]).Status.Conditions ++ appended ∧
      sampleCondition "FileSystemResizePending" "True" 7 ∉
        carriedOver [sampleCondition "Resizing" "False" 6,
          sampleCondition "FileSystemResizePending" "True" 7]
          (sampleClaim "a" 10 5 [sampleCondition "Ready" "True" 1,
            sampleCondition "Resizing" "True" 2]).Status.Conditions ∧
      appended.count (sampleCondition "FileSystemResizePending" "True" 7) = 1 ∧
      (MergeResizeConditionOnPVC RangeOrder.reversed
        (sampleClaim "a" 10 5 [sampleCondition "Ready" "True" 1, sampleCondition "Resizing" "True" 2])
        [sampleCondition "Resizing" "False" 6,
          sampleCondition "FileSystemResizePending" "True" 7]).Status.Conditions.count
        (sampleCondition "FileSystemResizePending" "True" 7) = 1 :=
  merge_appends_new_kinds RangeOrder.reversed
    (sampleClaim "a" 10 5 [sampleCondition "Ready" "True" 1, sampleCondition "Resizing" "True" 2])
    [sampleCondition "Resizing" "False" 6, sampleCondition "FileSystemResizePending" "True" 7]
    (sampleCondition "FileSystemResizePending" "True" 7) (by decide) (by decide) (by decide)

/-- C9 (as stated, refuted): the claim holds a Resizing condition before a
condition of another kind; after merging a desired Resizing condition the
Resizing condition still comes first, before the condition of the other kind. -/
theorem merge_resize_condition_before_other :
    (MergeResizeConditionOnPVC RangeOrder.stored
      (sampleClaim "a" 10 5 [sampleCondition "Resizing" "True" 1, sampleCondition "Ready" "True" 2])
      [sampleCondition "Resizing" "True" 5]).Status.Conditions =
      [sampleCondition "Resizing" "True" 1, sampleCondition "Ready" "True" 2] ∧
    isOtherCondition (sampleCondition "Resizing" "True" 1) = false ∧
    isOtherCondition (sampleCondition "Ready" "True" 2) = true := by
  decide

/-- C9 (amended): the result is the conditions carried over from the claim
followed by appended desired conditions.  The carried-over conditions keep the
order of the claim's conditions kind by kind, a resize condition staying where
it was among the others, and the conditions of other kinds among them are the
claim's, in original order. -/
theorem merge_keeps_existing_order (ord : RangeOrder) (pvc : PersistentVolumeClaim)
    (desired : List PersistentVolumeClaimCondition) :
    ∃ appended, (MergeResizeConditionOnPVC ord pvc desired).Status.Conditions =
        carriedOver desired pvc.Status.Conditions ++ appended ∧
      ((carriedOver desired pvc.Status.Conditions).map (fun c => c.Type_)).Sublist
        (pvc.Status.Conditions.map (fun c => c.Type_)) ∧
      (carriedOver desired pvc.Status.Conditions).filter isOtherCondition =
        pvc.Status.Conditions.filter isOtherCondition ∧
      ∀ a ∈ appended, a ∈ desired := by
  refine ⟨(ord.visit ((buildResizeConditionMap desired).map
    (markProcessed pvc.Status.Conditions))).filterMap unprocessedCondition, ?_, ?_, ?_, ?_⟩
  · rw [merge_conditions_eq, carriedOver_eq]
  · rw [carriedOver_eq]
    exact types_carried_sublist _ (buildResizeConditionMap_type desired) _
  · rw [carriedOver_eq]
    exact filter_other_carried _ (buildResizeConditionMap_type desired) _
  · exact fun a ha => mem_appended_desired ord desired _ a ha

theorem countP_carried_le (m : List (String × resizeProcessStatus))
    (hm : ∀ x ∈ m, x.2.condition.Type_ = x.1) (K : String)
    (l : List PersistentVolumeClaimCondition) :
    (l.filterMap (carryOne m)).countP (fun c => c.Type_ == K) ≤
      l.countP (fun c => c.Type_ == K) := by
  induction l with
  | nil => simp
  | cons c rest ih =>
    cases hc : carryOne m c with
    | none =>
      simp only [List.filterMap_cons, hc, List.countP_cons]
      omega
    | some x =>
      simp only [List.filterMap_cons, hc, List.countP_cons, carryOne_type m hm c x hc]
      omega

theorem countP_keys_le_one (m : List (String × resizeProcessStatus))
    (hn : (m.map Prod.fst).Nodup) (K : String) :
    m.countP (fun y => y.1 == K) ≤ 1 := by
  induction m with
  | nil => simp
  | cons y rest ih =>
    simp only [List.map_cons, List.nodup_cons] at hn
    by_cases hy : y.1 = K
    · have hz : rest.countP (fun y => y.1 == K) = 0 := by
        rw [List.countP_eq_zero]
        intro z hz hzk
        have hzk' : z.1 = K := by simpa using hzk
        exact hn.1 (hy ▸ hzk' ▸ List.mem_map_of_mem Prod.fst hz)
      simp [List.countP_cons, hz, hy]
    · have := ih hn.2
      simp [List.countP_cons, hy, this]

theorem countP_unprocessed_le (m : List (String × resizeProcessStatus))
    (hm : ∀ x ∈ m, x.2.condition.Type_ = x.1) (K : String) :
    (m.filterMap unprocessedCondition).countP (fun c => c.Type_ == K) ≤
      m.countP (fun y => y.1 == K) := by
  induction m with
  | nil => simp
  | cons y rest ih =>
    have ih' := ih (fun x hx => hm x (List.mem_cons_of_mem _ hx))
    have hy := hm y (List.mem_cons_self _ _)
    by_cases hp : y.2.processed = true
    · simp only [List.filterMap_cons, unprocessedCondition, hp, Bool.not_true,
        Bool.false_eq_true, if_false, List.countP_cons]
      omega
    · have hf : y.2.processed = false := by simpa using hp
      simp only [List.filterMap_cons, unprocessedCondition, hf, Bool.not_false, if_true,
        List.countP_cons, hy]
      omega

/-- C10: if the claim holds at most one condition of each resize kind, then so
does the merge result, whatever the desired list, repeated kinds included. -/
theorem merge_keeps_resize_conditions_unique (ord : RangeOrder) (pvc : PersistentVolumeClaim)
    (desired : List PersistentVolumeClaimCondition)
    (h : ∀ K, K = PersistentVolumeClaimResizing ∨
        K = PersistentVolumeClaimFileSystemResizePending →
      pvc.Status.Conditions.countP (fun c => c.Type_ == K) ≤ 1) :
    ∀ K, K = PersistentVolumeClaimResizing ∨
        K = PersistentVolumeClaimFileSystemResizePending →
      (MergeResizeConditionOnPVC ord pvc desired).Status.Conditions.countP
        (fun c => c.Type_ == K) ≤ 1 := by
  intro K hK
  have hk : isKnownResizeCondition K = true := (isKnownResizeCondition_iff _).mpr hK
  have hcar := countP_carried_le _ (buildResizeConditionMap_type desired) K
    pvc.Status.Conditions
  rw [merge_conditions_eq, List.countP_append]
  by_cases hex : pvc.Status.Conditions.any (fun c => c.Type_ == K) = true
  · have hz : ((ord.visit ((buildResizeConditionMap desired).map
        (markProcessed pvc.Status.Conditions))).filterMap unprocessedCondition).countP
          (fun c => c.Type_ == K) = 0 := by
      rw [List.countP_eq_zero]
      intro a ha hak
      obtain ⟨y, hy, rfl, hun⟩ := mem_appended ord _ _ a ha
      have hyk : y.1 = K := by
        rw [← buildResizeConditionMap_type desired y hy]
        simpa using hak
      rw [hyk, hk, hex] at hun
      simp at hun
    have := h K hK
    omega
  · have hz : pvc.Status.Conditions.countP (fun c => c.Type_ == K) = 0 := by
      rw [List.countP_eq_zero]
      intro c hc hck
      exact hex (List.any_eq_true.mpr ⟨c, hc, hck⟩)
    have hm' : ∀ x ∈ (buildResizeConditionMap desired).map (markProcessed pvc.Status.Conditions),
        x.2.condition.Type_ = x.1 := by
      intro x hx
      obtain ⟨y, hy, rfl⟩ := List.mem_map.mp hx
      exact buildResizeConditionMap_type desired y hy
    have hn' : (((buildResizeConditionMap desired).map
        (markProcessed pvc.Status.Conditions)).map Prod.fst).Nodup := by
      have e : ((buildResizeConditionMap desired).map
          (markProcessed pvc.Status.Conditions)).map Prod.fst =
          (buildResizeConditionMap desired).map Prod.fst := by
        rw [List.map_map]
        rfl
      rw [e]
      exact buildResizeConditionMap_nodup desired
    have h1 := ((ord.perm ((buildResizeConditionMap desired).map
      (markProcessed pvc.Status.Conditions))).filterMap unprocessedCondition).countP_eq
      (fun c => c.Type_ == K)
    have h2 := countP_unprocessed_le _ hm' K
    have h3 := countP_keys_le_one _ hn' K
    omega

theorem merge_keeps_resize_conditions_unique_witness :
    (∀ K, K = PersistentVolumeClaimResizing ∨
        K = PersistentVolumeClaimFileSystemResizePending →
      (sampleClaim "a" 10 5 [sampleCondition "Ready" "True" 1,
        sampleCondition "Resizing" "True" 2]).Status.Conditions.countP
          (fun c => c.Type_ == K) ≤ 1) ∧
    (∀ K, K = PersistentVolumeClaimResizing ∨
        K = PersistentVolumeClaimFileSystemResizePending →
      (MergeResizeConditionOnPVC RangeOrder.stored
        (sampleClaim "a" 10 5 [sampleCondition "Ready" "True" 1,
          sampleCondition "Resizing" "True" 2])
        [sampleCondition "FileSystemResizePending" "True" 5,
          sampleCondition "FileSystemResizePending" "False" 6,
          sampleCondition "Resizing" "False" 7,
          sampleCondition "Resizing" "True" 8]).Status.Conditions.countP
          (fun c => c.Type_ == K) ≤ 1) :=
  ⟨fun K hK => by rcases hK with rfl | rfl <;> decide,
   merge_keeps_resize_conditions_unique RangeOrder.stored
    (sampleClaim "a" 10 5 [sampleCondition "Ready" "True" 1, sampleCondition "Resizing" "True" 2])
    [sampleCondition "FileSystemResizePending" "True" 5,
      sampleCondition "FileSystemResizePending" "False" 6,
      sampleCondition "Resizing" "False" 7, sampleCondition "Resizing" "True" 8]
    (fun K hK => by rcases hK with rfl | rfl <;> decide)⟩

/-! ## Desired state of world: listing and marking -/

theorem foldl_pending (l : List (String × PvcWithResizeRequest))
    (acc : List PvcWithResizeRequest) :
    l.foldl (fun pvcrs entry => if !entry.2.ResizeDone then pvcrs ++ [entry.2] else pvcrs) acc =
      acc ++ (l.map Prod.snd).filter (fun r => !r.ResizeDone) := by
  induction l generalizing acc with
  | nil => simp
  | cons x rest ih =>
    simp only [List.foldl_cons, List.map_cons, List.filter_cons]
    rw [ih]
    by_cases hd : x.2.ResizeDone = true <;> simp [hd]

theorem GetPvcsWithResizeRequest_eq (ord : RangeOrder) (dsow : desiredStateOfWorld) :
    dsow.GetPvcsWithResizeRequest ord =
      ((ord.visit (dsow.pvcrs.getD [])).map Prod.snd).filter (fun r => !r.ResizeDone) := by
  unfold desiredStateOfWorld.GetPvcsWithResizeRequest
  cases h : dsow.pvcrs <;> simp only [Option.getD_none, Option.getD_some] <;>
    rw [foldl_pending] <;> simp

/-- C11: `GetPvcsWithResizeRequest` returns, in some order, the cached entries
whose `ResizeDone` is false, each as often as it is stored; it returns no entry
whose `ResizeDone` is true; and on the cache built by `NewDesiredStateOfWorld`
it returns the empty list. -/
theorem GetPvcsWithResizeRequest_lists_pending (ord : RangeOrder) (dsow : desiredStateOfWorld) :
    (dsow.GetPvcsWithResizeRequest ord).Perm
      (((dsow.pvcrs.getD []).map Prod.snd).filter (fun r => !r.ResizeDone)) ∧
    (∀ r ∈ dsow.GetPvcsWithResizeRequest ord, r.ResizeDone = false) ∧
    NewDesiredStateOfWorld.GetPvcsWithResizeRequest ord = [] := by
  refine ⟨?_, ?_, ?_⟩
  · rw [GetPvcsWithResizeRequest_eq]
    exact ((ord.perm _).map Prod.snd).filter _
  · intro r hr
    rw [GetPvcsWithResizeRequest_eq] at hr
    simpa using (List.mem_filter.mp hr).2
  · have hv : ord.visit ([] : List (String × PvcWithResizeRequest)) = [] :=
      List.Perm.eq_nil (ord.perm [])
    simp [GetPvcsWithResizeRequest_eq, NewDesiredStateOfWorld, hv]

theorem mapAssign_eq_map {ν : Type} (k : String) (v e : ν) (m : List (String × ν))
    (hn : (m.map Prod.fst).Nodup) (h : mapLookup k m = some e) :
    mapAssign k v m = m.map (fun x => if x.1 = k then (k, v) else x) := by
  induction m with
  | nil => simp [mapLookup] at h
  | cons y rest ih =>
    obtain ⟨a, b⟩ := y
    simp only [List.map_cons, List.nodup_cons] at hn
    by_cases h2 : a = k
    · subst h2
      have hrest : rest.map (fun x => if x.1 = a then (a, v) else x) = rest := by
        conv_rhs => rw [← List.map_id rest]
        apply List.map_congr_left
        intro x hx
        have : x.1 ≠ a := fun e => hn.1 (e ▸ List.mem_map_of_mem Prod.fst hx)
        simp [this]
      simp [mapAssign, hrest]
    · simp only [mapLookup, h2, if_false] at h
      simp [mapAssign, h2, ih hn.2 h]

theorem pending_after_mark (k : String) (v : PvcWithResizeRequest) (hv : v.ResizeDone = true)
    (m : List (String × PvcWithResizeRequest)) :
    ((m.map (fun x => if x.1 = k then (k, v) else x)).map Prod.snd).filter
        (fun r => !r.ResizeDone) =
      ((m.filter (fun x => x.1 != k)).map Prod.snd).filter (fun r => !r.ResizeDone) := by
  induction m with
  | nil => simp
  | cons y rest ih =>
    by_cases hy : y.1 = k
    · simp only [List.map_cons, hy, if_true, List.filter_cons, hv, Bool.not_true,
        Bool.false_eq_true, if_false, bne_self_eq_false]
      exact ih
    · have hb : (y.1 != k) = true := bne_iff_ne.mpr hy
      simp only [List.map_cons, hy, if_false, List.filter_cons, hb, if_true]
      rw [ih]

theorem filter_other_keys_of_absent {ν : Type} (k : String) (m : List (String × ν))
    (h : mapLookup k m = none) : m.filter (fun x => x.1 != k) = m := by
  rw [List.filter_eq_self]
  intro x hx
  exact bne_iff_ne.mpr (mapLookup_eq_none k m h x hx)

/-- C12: on a cache whose map has pairwise distinct keys, `MarkAsResized r`
turns the entry stored under `r`'s key into the same entry with `ResizeDone`
true; with no entry under that key it returns the cache as it was; the entry
under every other key is what it was; and `GetPvcsWithResizeRequest` then
returns the unfinished entries stored under the other keys, and nothing else. -/
theorem MarkAsResized_marks_only_that_entry (ord : RangeOrder) (dsow : desiredStateOfWorld)
    (r : PvcWithResizeRequest) (hn : ((dsow.pvcrs.getD []).map Prod.fst).Nodup) :
    (∀ e, mapLookup r.UniquePvcKey (dsow.pvcrs.getD []) = some e →
      mapLookup r.UniquePvcKey ((dsow.MarkAsResized r).pvcrs.getD []) =
        some { e with ResizeDone := true }) ∧
    (mapLookup r.UniquePvcKey (dsow.pvcrs.getD []) = none → dsow.MarkAsResized r = dsow) ∧
    (∀ k, k ≠ r.UniquePvcKey →
      mapLookup k ((dsow.MarkAsResized r).pvcrs.getD []) = mapLookup k (dsow.pvcrs.getD [])) ∧
    ((dsow.MarkAsResized r).GetPvcsWithResizeRequest ord).Perm
      ((((dsow.pvcrs.getD []).filter (fun x => x.1 != r.UniquePvcKey)).map Prod.snd).filter
        (fun x => !x.ResizeDone)) := by
  obtain ⟨pvcrs⟩ := dsow
  cases pvcrs with
  | none =>
    have hv : ord.visit ([] : List (String × PvcWithResizeRequest)) = [] :=
      List.Perm.eq_nil (ord.perm [])
    refine ⟨?_, ?_, ?_, ?_⟩
    · intro e he
      simp [mapLookup] at he
    · intro _
      rfl
    · intro k _
      rfl
    · simp [desiredStateOfWorld.MarkAsResized, GetPvcsWithResizeRequest_eq, hv]
  | some entries =>
    simp only [Option.getD_some] at hn ⊢
    cases hl : mapLookup r.UniquePvcKey entries with
    | none =>
      have hm : desiredStateOfWorld.MarkAsResized { pvcrs := some entries } r =
          { pvcrs := some entries } := by
        simp [desiredStateOfWorld.MarkAsResized, hl]
      refine ⟨?_, ?_, ?_, ?_⟩
      · intro e he
        simp at he
      · intro _
        exact hm
      · intro k _
        rw [hm]
        rfl
      · rw [hm, filter_other_keys_of_absent _ _ hl, GetPvcsWithResizeRequest_eq]
        exact ((ord.perm _).map Prod.snd).filter _
    | some found =>
      have hm : desiredStateOfWorld.MarkAsResized { pvcrs := some entries } r =
          { pvcrs := some (mapAssign r.UniquePvcKey { found with ResizeDone := true } entries) } := by
        simp [desiredStateOfWorld.MarkAsResized, hl]
      refine ⟨?_, ?_, ?_, ?_⟩
      · intro e he
        simp only [Option.some.injEq] at he
        subst he
        rw [hm]
        simp [mapLookup_mapAssign]
      · intro h
        simp at h
      · intro k hk
        rw [hm]
        have hk' : ¬ r.UniquePvcKey = k := fun e => hk e.symm
        simp only [Option.getD_some, mapLookup_mapAssign, hk', if_false]
      · rw [hm, GetPvcsWithResizeRequest_eq]
        simp only [Option.getD_some]
        refine (((ord.perm _).map Prod.snd).filter _).trans ?_
        rw [mapAssign_eq_map _ _ _ _ hn hl, pending_after_mark _ _ rfl]

theorem MarkAsResized_marks_only_that_entry_witness :
    (∀ e, mapLookup (sampleRequest "a" false).UniquePvcKey (samplePendingCache.pvcrs.getD []) =
        some e →
      mapLookup (sampleRequest "a" false).UniquePvcKey
        ((samplePendingCache.MarkAsResized (sampleRequest "a" false)).pvcrs.getD []) =
        some { e with ResizeDone := true }) ∧
    (mapLookup (sampleRequest "a" false).UniquePvcKey (samplePendingCache.pvcrs.getD []) = none →
      samplePendingCache.MarkAsResized (sampleRequest "a" false) = samplePendingCache) ∧
    (∀ k, k ≠ (sampleRequest "a" false).UniquePvcKey →
      mapLookup k ((samplePendingCache.MarkAsResized (sampleRequest "a" false)).pvcrs.getD []) =
        mapLookup k (samplePendingCache.pvcrs.getD [])) ∧
    ((samplePendingCache.MarkAsResized (sampleRequest "a" false)).GetPvcsWithResizeRequest
        RangeOrder.reversed).Perm
      ((((samplePendingCache.pvcrs.getD []).filter
        (fun x => x.1 != (sampleRequest "a" false).UniquePvcKey)).map Prod.snd).filter
        (fun x => !x.ResizeDone)) :=
  MarkAsResized_marks_only_that_entry RangeOrder.reversed samplePendingCache
    (sampleRequest "a" false) (by decide)

/-! ## Node expansion: the paths through `NodeExpandVolume` -/

theorem nodeExpandAndFinish_path {σ : Type} (ord : RangeOrder) (vo : volumeOperationImpl σ)
    (s : σ) (vtm : VolumeToMount) (rsOpts : NodeResizeOptions)
    (plugin : NodeExpandableVolumePlugin) (pvc : PersistentVolumeClaim)
    (pvSpecCap pvcStatusCap : Quantity) (before : List Effect) :
    FinishPath ord vo s vtm
      { rsOpts with VolumeSpec := vtm.VolumeSpec, NewSize := pvSpecCap, OldSize := pvcStatusCap }
      plugin pvc pvSpecCap before
      (nodeExpandAndFinish ord vo s vtm rsOpts plugin pvc pvSpecCap pvcStatusCap before).result
      (nodeExpandAndFinish ord vo s vtm rsOpts plugin pvc pvSpecCap pvcStatusCap before).effects
      (nodeExpandAndFinish ord vo s vtm rsOpts plugin pvc pvSpecCap pvcStatusCap before).store := by
  unfold nodeExpandAndFinish
  simp only []
  generalize hopts : NodeResizeOptions.mk vtm.VolumeSpec rsOpts.DevicePath rsOpts.DeviceMountPath
    pvSpecCap pvcStatusCap = opts
  rcases hres : plugin.NodeExpand opts with ⟨resizeDone, resizeErr⟩
  cases resizeErr with
  | some e =>
    simp only []
    exact FinishPath.expandFailed resizeDone e _ hres
  | none =>
    cases resizeDone with
    | false =>
      simp only [Bool.not_false, if_true]
      exact FinishPath.notDone hres
    | true =>
      simp only [Bool.not_true, Bool.false_eq_true, if_false]
      unfold MarkFSResizeFinished
      cases hcap : pvc.Status.Capacity with
      | none =>
        simp only [List.append_nil, List.append_assoc, List.singleton_append]
        exact FinishPath.nilCapacity _ hres hcap
      | some capacity =>
        simp only [PatchPVCStatus]
        rcases hp : vo.kubeClient.PatchStatus s pvc (resizedClaim ord pvc capacity pvSpecCap)
          with ⟨store, patchResult⟩
        cases patchResult with
        | error err =>
          simp only [Except.map, List.append_assoc, List.singleton_append]
          exact FinishPath.patchFailed capacity store err _ hres hcap hp
        | ok updatedClaim =>
          simp only [Except.map, List.append_assoc, List.singleton_append]
          exact FinishPath.patched capacity store updatedClaim hres hcap hp

theorem inlineMigrated_some (spec : VolumeSpec) :
    inlineMigrated (some spec) = spec.InlineVolumeSpecForCSIMigration := rfl

theorem fetchAndExpand_path {σ : Type} (ord : RangeOrder) (vo : volumeOperationImpl σ)
    (s : σ) (vtm : VolumeToMount) (rsOpts : NodeResizeOptions)
    (plugin : NodeExpandableVolumePlugin) (spec : VolumeSpec) (pv : PersistentVolume)
    (hg : vo.ExpandPersistentVolumes = true) (hi : inlineMigrated vtm.VolumeSpec = false)
    (hf : vo.FindNodeExpandablePluginBySpec vtm.VolumeSpec = some plugin)
    (hr : plugin.RequiresFSResize = true) (hs : vtm.VolumeSpec = some spec)
    (hpv : spec.PersistentVolume = some pv) :
    ExpandPath ord vo s vtm rsOpts
      (fetchAndExpand ord vo s vtm rsOpts plugin spec pv
        [Effect.FindNodeExpandablePluginBySpec vtm.VolumeSpec]).result
      (fetchAndExpand ord vo s vtm rsOpts plugin spec pv
        [Effect.FindNodeExpandablePluginBySpec vtm.VolumeSpec]).effects
      (fetchAndExpand ord vo s vtm rsOpts plugin spec pv
        [Effect.FindNodeExpandablePluginBySpec vtm.VolumeSpec]).store := by
  unfold fetchAndExpand
  cases hc : pv.ClaimRef with
  | none =>
    simp only []
    exact ExpandPath.nilClaimRef plugin spec pv _ hg hi hf hr hs hpv hc
  | some claimRef =>
    simp only []
    cases hget : vo.kubeClient.Get s claimRef.Namespace claimRef.Name with
    | error err =>
      simp only [List.singleton_append]
      exact ExpandPath.fetchFailed plugin spec pv claimRef err _ hg hi hf hr hs hpv hc hget
    | ok pvc =>
      simp only []
      by_cases hcmp : (pvc.Status.Capacity.index ResourceStorage).Cmp
          (pv.Capacity.index ResourceStorage) < 0
      · simp only [hcmp, if_true]
        by_cases hro : spec.ReadOnly = true
        · simp only [hro, if_true, List.singleton_append, List.cons_append, List.nil_append]
          exact ExpandPath.readOnly plugin spec pv claimRef pvc hg hi hf hr hs hpv hc hget hcmp hro
        · have hro' : spec.ReadOnly = false := by simpa using hro
          simp only [hro', Bool.false_eq_true, if_false, List.singleton_append]
          exact ExpandPath.expanding plugin spec pv claimRef pvc _ _ _ hg hi hf hr hs hpv hc hget
            hcmp hro' rfl rfl rfl
      · simp only [hcmp, if_false, List.singleton_append]
        exact ExpandPath.upToDate plugin spec pv claimRef pvc hg hi hf hr hs hpv hc hget hcmp

/-- Every run of `NodeExpandVolume` follows one of the paths of `ExpandPath`. -/
theorem NodeExpandVolume_path {σ : Type} (ord : RangeOrder) (vo : volumeOperationImpl σ)
    (s : σ) (vtm : VolumeToMount) (rsOpts : NodeResizeOptions) :
    ExpandPath ord vo s vtm rsOpts
      (NodeExpandVolume ord vo s vtm rsOpts).result
      (NodeExpandVolume ord vo s vtm rsOpts).effects
      (NodeExpandVolume ord vo s vtm rsOpts).store := by
  by_cases hg : vo.ExpandPersistentVolumes = true
  · by_cases hi : inlineMigrated vtm.VolumeSpec = true
    · have e : NodeExpandVolume ord vo s vtm rsOpts =
          { result := .ok (true, none), effects := [], store := s } := by
        simp [NodeExpandVolume, hg, hi]
      rw [e]
      exact ExpandPath.inline hg hi
    · have hi' : inlineMigrated vtm.VolumeSpec = false := by simpa using hi
      cases hf : vo.FindNodeExpandablePluginBySpec vtm.VolumeSpec with
      | none =>
        have e : NodeExpandVolume ord vo s vtm rsOpts =
            { result := .ok (true, none)
              effects := [Effect.FindNodeExpandablePluginBySpec vtm.VolumeSpec], store := s } := by
          simp [NodeExpandVolume, hg, hi', hf]
        rw [e]
        exact ExpandPath.noPlugin hg hi' hf
      | some plugin =>
        by_cases hr : plugin.RequiresFSResize = true
        · cases hs : vtm.VolumeSpec with
          | none =>
            have e : NodeExpandVolume ord vo s vtm rsOpts =
                { result := .error "invalid memory address or nil pointer dereference"
                  effects := [Effect.FindNodeExpandablePluginBySpec vtm.VolumeSpec]
                  store := s } := by
              simp only [NodeExpandVolume, hg, hi', hf, hr, Bool.not_true, Bool.false_eq_true,
                if_false]
              simp [hs]
            rw [e]
            exact ExpandPath.nilSpec plugin _ hg hf hr hs
          | some spec =>
            cases hpv : spec.PersistentVolume with
            | none =>
              have e : NodeExpandVolume ord vo s vtm rsOpts =
                  { result := .ok (true, none)
                    effects := [Effect.FindNodeExpandablePluginBySpec vtm.VolumeSpec]
                    store := s } := by
                simp only [NodeExpandVolume, hg, hi', hf, hr, Bool.not_true, Bool.false_eq_true,
                  if_false]
                simp [hs, hpv]
              rw [e]
              exact ExpandPath.noVolume plugin spec hg hi' hf hr hs hpv
            | some pv =>
              have e : NodeExpandVolume ord vo s vtm rsOpts =
                  fetchAndExpand ord vo s vtm rsOpts plugin spec pv
                    [Effect.FindNodeExpandablePluginBySpec vtm.VolumeSpec] := by
                simp only [NodeExpandVolume, hg, hi', hf, hr, Bool.not_true, Bool.false_eq_true,
                  if_false]
                simp [hs, hpv]
              rw [e]
              exact fetchAndExpand_path ord vo s vtm rsOpts plugin spec pv hg hi' hf hr hs hpv
        · have hr' : plugin.RequiresFSResize = false := by simpa using hr
          have e : NodeExpandVolume ord vo s vtm rsOpts =
              { result := .ok (true, none)
                effects := [Effect.FindNodeExpandablePluginBySpec vtm.VolumeSpec]
                store := s } := by
            simp [NodeExpandVolume, hg, hi', hf, hr']
          rw [e]
          exact ExpandPath.noResize plugin hg hi' hf hr'
  · have hg' : vo.ExpandPersistentVolumes = false := by simpa using hg
    have e : NodeExpandVolume ord vo s vtm rsOpts =
        { result := .ok (true, none), effects := [], store := s } := by
      simp [NodeExpandVolume, hg']
    rw [e]
    exact ExpandPath.disabled hg'

theorem NodeExpandVolume_eq_fetchAndExpand {σ : Type} (ord : RangeOrder)
    (vo : volumeOperationImpl σ) (s : σ) (vtm : VolumeToMount) (rsOpts : NodeResizeOptions)
    (plugin : NodeExpandableVolumePlugin) (spec : VolumeSpec) (pv : PersistentVolume)
    (hg : vo.ExpandPersistentVolumes = true) (hs : vtm.VolumeSpec = some spec)
    (hi : spec.InlineVolumeSpecForCSIMigration = false)
    (hf : vo.FindNodeExpandablePluginBySpec vtm.VolumeSpec = some plugin)
    (hr : plugin.RequiresFSResize = true) (hpv : spec.PersistentVolume = some pv) :
    NodeExpandVolume ord vo s vtm rsOpts =
      fetchAndExpand ord vo s vtm rsOpts plugin spec pv
        [Effect.FindNodeExpandablePluginBySpec vtm.VolumeSpec] := by
  have hi' : inlineMigrated vtm.VolumeSpec = false := by rw [hs]; exact hi
  simp only [NodeExpandVolume, hg, hi', hf, hr, Bool.not_true, Bool.false_eq_true, if_false]
  simp [hs, hpv]

theorem fetchAndExpand_eq_nodeExpandAndFinish {σ : Type} (ord : RangeOrder)
    (vo : volumeOperationImpl σ) (s : σ) (vtm : VolumeToMount) (rsOpts : NodeResizeOptions)
    (plugin : NodeExpandableVolumePlugin) (spec : VolumeSpec) (pv : PersistentVolume)
    (claimRef : ObjectReference) (pvc : PersistentVolumeClaim) (before : List Effect)
    (hc : pv.ClaimRef = some claimRef)
    (hget : vo.kubeClient.Get s claimRef.Namespace claimRef.Name = .ok pvc)
    (hcmp : (pvc.Status.Capacity.index ResourceStorage).Cmp
      (pv.Capacity.index ResourceStorage) < 0)
    (hro : spec.ReadOnly = false) :
    fetchAndExpand ord vo s vtm rsOpts plugin spec pv before =
      nodeExpandAndFinish ord vo s vtm rsOpts plugin pvc (pv.Capacity.index ResourceStorage)
        (pvc.Status.Capacity.index ResourceStorage)
        (before ++ [Effect.GetClaim claimRef.Namespace claimRef.Name none]) := by
  simp [fetchAndExpand, hc, hget, hcmp, hro]

/-- C13: `NodeExpandVolume` returns `(true, nil)`, leaves the store as it was
and makes no call other than the plugin lookup (no fetch of the claim, no
`NodeExpand`, no event, no patch) when the `ExpandPersistentVolumes` gate is
off, and with the gate on when no plugin is found for the spec, when the
plugin found does not require a file system resize, or when the spec carries
no persistent volume. -/
theorem NodeExpandVolume_nothing_to_expand {σ : Type} (ord : RangeOrder)
    (vo : volumeOperationImpl σ) (s : σ) (vtm : VolumeToMount) (rsOpts : NodeResizeOptions)
    (h : vo.ExpandPersistentVolumes = false ∨
      vo.FindNodeExpandablePluginBySpec vtm.VolumeSpec = none ∨
      (∃ plugin, vo.FindNodeExpandablePluginBySpec vtm.VolumeSpec = some plugin ∧
        plugin.RequiresFSResize = false) ∨
      (∃ spec, vtm.VolumeSpec = some spec ∧ spec.PersistentVolume = none)) :
    (NodeExpandVolume ord vo s vtm rsOpts).result = .ok (true, none) ∧
    (NodeExpandVolume ord vo s vtm rsOpts).effects.any
      (fun e => e.isGetClaim || e.isNodeExpand || e.isEventf || e.isPatchStatus) = false ∧
    (NodeExpandVolume ord vo s vtm rsOpts).store = s := by
  have hp := NodeExpandVolume_path ord vo s vtm rsOpts
  generalize (NodeExpandVolume ord vo s vtm rsOpts).result = res at hp ⊢
  generalize (NodeExpandVolume ord vo s vtm rsOpts).effects = eff at hp ⊢
  generalize (NodeExpandVolume ord vo s vtm rsOpts).store = st at hp ⊢
  cases hp <;>
    simp_all [Effect.isGetClaim, Effect.isNodeExpand, Effect.isEventf, Effect.isPatchStatus]

theorem NodeExpandVolume_nothing_to_expand_witness :
    (NodeExpandVolume RangeOrder.stored (sampleOperation (some (samplePlugin true none)))
      (sampleClaim "a" 10 5 [])
      (sampleVolumeToMount (some
        { PersistentVolume := none, ReadOnly := false, InlineVolumeSpecForCSIMigration := false }))
      sampleResizeOptions).result = .ok (true, none) ∧
    (NodeExpandVolume RangeOrder.stored (sampleOperation (some (samplePlugin true none)))
      (sampleClaim "a" 10 5 [])
      (sampleVolumeToMount (some
        { PersistentVolume := none, ReadOnly := false, InlineVolumeSpecForCSIMigration := false }))
      sampleResizeOptions).effects.any
      (fun e => e.isGetClaim || e.isNodeExpand || e.isEventf || e.isPatchStatus) = false ∧
    (NodeExpandVolume RangeOrder.stored (sampleOperation (some (samplePlugin true none)))
      (sampleClaim "a" 10 5 [])
      (sampleVolumeToMount (some
        { PersistentVolume := none, ReadOnly := false, InlineVolumeSpecForCSIMigration := false }))
      sampleResizeOptions).store = sampleClaim "a" 10 5 [] :=
  NodeExpandVolume_nothing_to_expand RangeOrder.stored
    (sampleOperation (some (samplePlugin true none))) (sampleClaim "a" 10 5 [])
    (sampleVolumeToMount (some
      { PersistentVolume := none, ReadOnly := false, InlineVolumeSpecForCSIMigration := false }))
    sampleResizeOptions (Or.inr (Or.inr (Or.inr ⟨_, rfl, rfl⟩)))

/-- C14: with expansion enabled and a volume spec marked
`InlineVolumeSpecForCSIMigration`, `NodeExpandVolume` returns `(true, nil)`
having made no call at all: no plugin lookup, no fetch of the claim, no
`NodeExpand`, no event and no patch; the store is as it was. -/
theorem NodeExpandVolume_inline_migrated {σ : Type} (ord : RangeOrder)
    (vo : volumeOperationImpl σ) (s : σ) (vtm : VolumeToMount) (rsOpts : NodeResizeOptions)
    (spec : VolumeSpec) (hg : vo.ExpandPersistentVolumes = true)
    (hs : vtm.VolumeSpec = some spec) (hi : spec.InlineVolumeSpecForCSIMigration = true) :
    (NodeExpandVolume ord vo s vtm rsOpts).result = .ok (true, none) ∧
    (NodeExpandVolume ord vo s vtm rsOpts).effects = [] ∧
    (NodeExpandVolume ord vo s vtm rsOpts).store = s := by
  have hi' : inlineMigrated vtm.VolumeSpec = true := by rw [hs]; exact hi
  simp [NodeExpandVolume, hg, hi']

theorem NodeExpandVolume_inline_migrated_witness :
    (NodeExpandVolume RangeOrder.stored (sampleOperation (some (samplePlugin true none)))
      (sampleClaim "a" 10 5 []) (sampleVolumeToMount (some (sampleSpec 10 false true)))
      sampleResizeOptions).result = .ok (true, none) ∧
    (NodeExpandVolume RangeOrder.stored (sampleOperation (some (samplePlugin true none)))
      (sampleClaim "a" 10 5 []) (sampleVolumeToMount (some (sampleSpec 10 false true)))
      sampleResizeOptions).effects = [] ∧
    (NodeExpandVolume RangeOrder.stored (sampleOperation (some (samplePlugin true none)))
      (sampleClaim "a" 10 5 []) (sampleVolumeToMount (some (sampleSpec 10 false true)))
      sampleResizeOptions).store = sampleClaim "a" 10 5 [] :=
  NodeExpandVolume_inline_migrated RangeOrder.stored
    (sampleOperation (some (samplePlugin true none))) (sampleClaim "a" 10 5 [])
    (sampleVolumeToMount (some (sampleSpec 10 false true))) sampleResizeOptions
    (sampleSpec 10 false true) rfl rfl rfl

/-- C15: when expansion is enabled, the spec is not inline-migrated, a plugin
requiring a file system resize is found, and the claim is fetched with a status
storage capacity not below the volume's spec storage capacity,
`NodeExpandVolume` returns `(true, nil)` having made the plugin lookup and the
fetch and nothing else (no `NodeExpand`, event or patch), whatever the
read-only flag. -/
theorem NodeExpandVolume_capacity_up_to_date {σ : Type} (ord : RangeOrder)
    (vo : volumeOperationImpl σ) (s : σ) (vtm : VolumeToMount) (rsOpts : NodeResizeOptions)
    (plugin : NodeExpandableVolumePlugin) (spec : VolumeSpec) (pv : PersistentVolume)
    (claimRef : ObjectReference) (pvc : PersistentVolumeClaim)
    (hg : vo.ExpandPersistentVolumes = true) (hs : vtm.VolumeSpec = some spec)
    (hi : spec.InlineVolumeSpecForCSIMigration = false)
    (hf : vo.FindNodeExpandablePluginBySpec vtm.VolumeSpec = some plugin)
    (hr : plugin.RequiresFSResize = true) (hpv : spec.PersistentVolume = some pv)
    (hc : pv.ClaimRef = some claimRef)
    (hget : vo.kubeClient.Get s claimRef.Namespace claimRef.Name = .ok pvc)
    (hcmp : 0 ≤ (pvc.Status.Capacity.index ResourceStorage).Cmp
      (pv.Capacity.index ResourceStorage)) :
    (NodeExpandVolume ord vo s vtm rsOpts).result = .ok (true, none) ∧
    (NodeExpandVolume ord vo s vtm rsOpts).effects =
      [Effect.FindNodeExpandablePluginBySpec vtm.VolumeSpec,
        Effect.GetClaim claimRef.Namespace claimRef.Name none] ∧
    (NodeExpandVolume ord vo s vtm rsOpts).store = s := by
  have hcmp' : ¬ (pvc.Status.Capacity.index ResourceStorage).Cmp
      (pv.Capacity.index ResourceStorage) < 0 := not_lt.mpr hcmp
  rw [NodeExpandVolume_eq_fetchAndExpand ord vo s vtm rsOpts plugin spec pv hg hs hi hf hr hpv]
  simp [fetchAndExpand, hc, hget, hcmp']

theorem NodeExpandVolume_capacity_up_to_date_witness :
    (NodeExpandVolume RangeOrder.stored (sampleOperation (some (samplePlugin true none)))
      (sampleClaim "a" 10 10 []) (sampleVolumeToMount (some (sampleSpec 10 true false)))
      sampleResizeOptions).result = .ok (true, none) ∧
    (NodeExpandVolume RangeOrder.stored (sampleOperation (some (samplePlugin true none)))
      (sampleClaim "a" 10 10 []) (sampleVolumeToMount (some (sampleSpec 10 true false)))
      sampleResizeOptions).effects =
      [Effect.FindNodeExpandablePluginBySpec
          (sampleVolumeToMount (some (sampleSpec 10 true false))).VolumeSpec,
        Effect.GetClaim "default" "a" none] ∧
    (NodeExpandVolume RangeOrder.stored (sampleOperation (some (samplePlugin true none)))
      (sampleClaim "a" 10 10 []) (sampleVolumeToMount (some (sampleSpec 10 true false)))
      sampleResizeOptions).store = sampleClaim "a" 10 10 [] :=
  NodeExpandVolume_capacity_up_to_date RangeOrder.stored
    (sampleOperation (some (samplePlugin true none))) (sampleClaim "a" 10 10 [])
    (sampleVolumeToMount (some (sampleSpec 10 true false))) sampleResizeOptions
    (samplePlugin true none) (sampleSpec 10 true false)
    { Name := "pv-a", Capacity := some [(ResourceStorage, ⟨10⟩)]
      ClaimRef := some { Namespace := "default", Name := "a" } }
    { Namespace := "default", Name := "a" } (sampleClaim "a" 10 10 [])
    rfl rfl rfl rfl rfl rfl rfl rfl (by decide)

/-- C16: for a read-only volume spec `NodeExpandVolume` never calls
`NodeExpand` and never patches the claim; and when expansion is enabled, the
spec is not inline-migrated, a plugin requiring a file system resize is found
and the claim is fetched with a status capacity below the volume's spec
capacity, it records one Warning event, makes no other call after the fetch,
and returns `(true, nil)`. -/
theorem NodeExpandVolume_read_only {σ : Type} (ord : RangeOrder)
    (vo : volumeOperationImpl σ) (s : σ) (vtm : VolumeToMount) (rsOpts : NodeResizeOptions)
    (spec : VolumeSpec) (hs : vtm.VolumeSpec = some spec) (hro : spec.ReadOnly = true) :
    (NodeExpandVolume ord vo s vtm rsOpts).effects.any Effect.isNodeExpand = false ∧
    (NodeExpandVolume ord vo s vtm rsOpts).effects.any Effect.isPatchStatus = false ∧
    ∀ (plugin : NodeExpandableVolumePlugin) (pv : PersistentVolume)
      (claimRef : ObjectReference) (pvc : PersistentVolumeClaim),
      vo.ExpandPersistentVolumes = true →
      spec.InlineVolumeSpecForCSIMigration = false →
      vo.FindNodeExpandablePluginBySpec vtm.VolumeSpec = some plugin →
      plugin.RequiresFSResize = true →
      spec.PersistentVolume = some pv →
      pv.ClaimRef = some claimRef →
      vo.kubeClient.Get s claimRef.Namespace claimRef.Name = .ok pvc →
      (pvc.Status.Capacity.index ResourceStorage).Cmp (pv.Capacity.index ResourceStorage) < 0 →
      (NodeExpandVolume ord vo s vtm rsOpts).result = .ok (true, none) ∧
      (NodeExpandVolume ord vo s vtm rsOpts).effects =
        [Effect.FindNodeExpandablePluginBySpec vtm.VolumeSpec,
          Effect.GetClaim claimRef.Namespace claimRef.Name none,
          Effect.Eventf vtm.Pod EventTypeWarning FileSystemResizeFailed
            (vo.GenerateMsg vtm "MountVolume.NodeExpandVolume failed"
              "requested read-only file system").1] ∧
      (NodeExpandVolume ord vo s vtm rsOpts).store = s := by
  refine ⟨?_, ?_, ?_⟩
  · have hp := NodeExpandVolume_path ord vo s vtm rsOpts
    generalize (NodeExpandVolume ord vo s vtm rsOpts).result = res at hp ⊢
    generalize (NodeExpandVolume ord vo s vtm rsOpts).effects = eff at hp ⊢
    generalize (NodeExpandVolume ord vo s vtm rsOpts).store = st at hp ⊢
    cases hp <;> simp_all [Effect.isNodeExpand]
  · have hp := NodeExpandVolume_path ord vo s vtm rsOpts
    generalize (NodeExpandVolume ord vo s vtm rsOpts).result = res at hp ⊢
    generalize (NodeExpandVolume ord vo s vtm rsOpts).effects = eff at hp ⊢
    generalize (NodeExpandVolume ord vo s vtm rsOpts).store = st at hp ⊢
    cases hp <;> simp_all [Effect.isPatchStatus]
  · intro plugin pv claimRef pvc hg hi hf hr hpv hc hget hcmp
    rw [NodeExpandVolume_eq_fetchAndExpand ord vo s vtm rsOpts plugin spec pv hg hs hi hf hr hpv]
    simp [fetchAndExpand, hc, hget, hcmp, hro]

theorem NodeExpandVolume_read_only_witness :
    (NodeExpandVolume RangeOrder.stored (sampleOperation (some (samplePlugin true none)))
      (sampleClaim "a" 10 5 []) (sampleVolumeToMount (some (sampleSpec 10 true false)))
      sampleResizeOptions).effects.any Effect.isNodeExpand = false ∧
    (NodeExpandVolume RangeOrder.stored (sampleOperation (some (samplePlugin true none)))
      (sampleClaim "a" 10 5 []) (sampleVolumeToMount (some (sampleSpec 10 true false)))
      sampleResizeOptions).effects.any Effect.isPatchStatus = false ∧
    (NodeExpandVolume RangeOrder.stored (sampleOperation (some (samplePlugin true none)))
      (sampleClaim "a" 10 5 []) (sampleVolumeToMount (some (sampleSpec 10 true false)))
      sampleResizeOptions).result = .ok (true, none) ∧
    (NodeExpandVolume RangeOrder.stored (sampleOperation (some (samplePlugin true none)))
      (sampleClaim "a" 10 5 []) (sampleVolumeToMount (some (sampleSpec 10 true false)))
      sampleResizeOptions).effects =
      [Effect.FindNodeExpandablePluginBySpec
          (sampleVolumeToMount (some (sampleSpec 10 true false))).VolumeSpec,
        Effect.GetClaim "default" "a" none,
        Effect.Eventf "pod-a" EventTypeWarning FileSystemResizeFailed
          ((sampleOperation (some (samplePlugin true none))).GenerateMsg
            (sampleVolumeToMount (some (sampleSpec 10 true false)))
            "MountVolume.NodeExpandVolume failed" "requested read-only file system").1] ∧
    (NodeExpandVolume RangeOrder.stored (sampleOperation (some (samplePlugin true none)))
      (sampleClaim "a" 10 5 []) (sampleVolumeToMount (some (sampleSpec 10 true false)))
      sampleResizeOptions).store = sampleClaim "a" 10 5 [] :=
  ⟨(NodeExpandVolume_read_only RangeOrder.stored
      (sampleOperation (some (samplePlugin true none))) (sampleClaim "a" 10 5 [])
      (sampleVolumeToMount (some (sampleSpec 10 true false))) sampleResizeOptions
      (sampleSpec 10 true false) rfl rfl).1,
   (NodeExpandVolume_read_only RangeOrder.stored
      (sampleOperation (some (samplePlugin true none))) (sampleClaim "a" 10 5 [])
      (sampleVolumeToMount (some (sampleSpec 10 true false))) sampleResizeOptions
      (sampleSpec 10 true false) rfl rfl).2.1,
   (NodeExpandVolume_read_only RangeOrder.stored
      (sampleOperation (some (samplePlugin true none))) (sampleClaim "a" 10 5 [])
      (sampleVolumeToMount (some (sampleSpec 10 true false))) sampleResizeOptions
      (sampleSpec 10 true false) rfl rfl).2.2 (samplePlugin true none)
      { Name := "pv-a", Capacity := some [(ResourceStorage, ⟨10⟩)]
        ClaimRef := some { Namespace := "default", Name := "a" } }
      { Namespace := "default", Name := "a" } (sampleClaim "a" 10 5 [])
      rfl rfl rfl rfl rfl rfl rfl (by decide)⟩

/-- C17: when all guards pass (expansion enabled, spec not inline-migrated and
not read-only, plugin requiring a file system resize found, claim fetched with
status capacity below the volume's spec capacity) and `NodeExpand` returns
`(false, nil)`, `NodeExpandVolume` returns `(false, nil)`; its calls are the
plugin lookup, the fetch and that `NodeExpand`: no event and no status patch;
the store is as it was. -/
theorem NodeExpandVolume_resize_not_done {σ : Type} (ord : RangeOrder)
    (vo : volumeOperationImpl σ) (s : σ) (vtm : VolumeToMount) (rsOpts : NodeResizeOptions)
    (plugin : NodeExpandableVolumePlugin) (spec : VolumeSpec) (pv : PersistentVolume)
    (claimRef : ObjectReference) (pvc : PersistentVolumeClaim)
    (hg : vo.ExpandPersistentVolumes = true) (hs : vtm.VolumeSpec = some spec)
    (hi : spec.InlineVolumeSpecForCSIMigration = false)
    (hf : vo.FindNodeExpandablePluginBySpec vtm.VolumeSpec = some plugin)
    (hr : plugin.RequiresFSResize = true) (hpv : spec.PersistentVolume = some pv)
    (hc : pv.ClaimRef = some claimRef)
    (hget : vo.kubeClient.Get s claimRef.Namespace claimRef.Name = .ok pvc)
    (hcmp : (pvc.Status.Capacity.index ResourceStorage).Cmp
      (pv.Capacity.index ResourceStorage) < 0)
    (hro : spec.ReadOnly = false)
    (hres : plugin.NodeExpand
      { rsOpts with VolumeSpec := vtm.VolumeSpec, NewSize := pv.Capacity.index ResourceStorage,
                    OldSize := pvc.Status.Capacity.index ResourceStorage } = (false, none)) :
    (NodeExpandVolume ord vo s vtm rsOpts).result = .ok (false, none) ∧
    (NodeExpandVolume ord vo s vtm rsOpts).effects =
      [Effect.FindNodeExpandablePluginBySpec vtm.VolumeSpec,
        Effect.GetClaim claimRef.Namespace claimRef.Name none,
        Effect.NodeExpand
          { rsOpts with VolumeSpec := vtm.VolumeSpec, NewSize := pv.Capacity.index ResourceStorage,
                        OldSize := pvc.Status.Capacity.index ResourceStorage } false none] ∧
    (NodeExpandVolume ord vo s vtm rsOpts).store = s := by
  rw [NodeExpandVolume_eq_fetchAndExpand ord vo s vtm rsOpts plugin spec pv hg hs hi hf hr hpv,
    fetchAndExpand_eq_nodeExpandAndFinish ord vo s vtm rsOpts plugin spec pv claimRef pvc _
      hc hget hcmp hro]
  have hp := nodeExpandAndFinish_path ord vo s vtm rsOpts plugin pvc
    (pv.Capacity.index ResourceStorage) (pvc.Status.Capacity.index ResourceStorage)
    ([Effect.FindNodeExpandablePluginBySpec vtm.VolumeSpec] ++
      [Effect.GetClaim claimRef.Namespace claimRef.Name none])
  generalize (nodeExpandAndFinish ord vo s vtm rsOpts plugin pvc
    (pv.Capacity.index ResourceStorage) (pvc.Status.Capacity.index ResourceStorage)
    ([Effect.FindNodeExpandablePluginBySpec vtm.VolumeSpec] ++
      [Effect.GetClaim claimRef.Namespace claimRef.Name none])) = run at hp ⊢
  obtain ⟨res, eff, st⟩ := run
  simp only at hp ⊢
  cases hp <;> simp_all

theorem NodeExpandVolume_resize_not_done_witness :
    (NodeExpandVolume RangeOrder.stored (sampleOperation (some (samplePlugin false none)))
      (sampleClaim "a" 10 5 []) (sampleVolumeToMount (some (sampleSpec 10 false false)))
      sampleResizeOptions).result = .ok (false, none) ∧
    (NodeExpandVolume RangeOrder.stored (sampleOperation (some (samplePlugin false none)))
      (sampleClaim "a" 10 5 []) (sampleVolumeToMount (some (sampleSpec 10 false false)))
      sampleResizeOptions).effects =
      [Effect.FindNodeExpandablePluginBySpec
          (sampleVolumeToMount (some (sampleSpec 10 false false))).VolumeSpec,
        Effect.GetClaim "default" "a" none,
        Effect.NodeExpand
          { sampleResizeOptions with
            VolumeSpec := (sampleVolumeToMount (some (sampleSpec 10 false false))).VolumeSpec,
            NewSize := ⟨10⟩, OldSize := ⟨5⟩ } false none] ∧
    (NodeExpandVolume RangeOrder.stored (sampleOperation (some (samplePlugin false none)))
      (sampleClaim "a" 10 5 []) (sampleVolumeToMount (some (sampleSpec 10 false false)))
      sampleResizeOptions).store = sampleClaim "a" 10 5 [] :=
  NodeExpandVolume_resize_not_done RangeOrder.stored
    (sampleOperation (some (samplePlugin false none))) (sampleClaim "a" 10 5 [])
    (sampleVolumeToMount (some (sampleSpec 10 false false))) sampleResizeOptions
    (samplePlugin false none) (sampleSpec 10 false false)
    { Name := "pv-a", Capacity := some [(ResourceStorage, ⟨10⟩)]
      ClaimRef := some { Namespace := "default", Name := "a" } }
    { Namespace := "default", Name := "a" } (sampleClaim "a" 10 5 [])
    rfl rfl rfl rfl rfl rfl rfl rfl (by decide) rfl rfl

theorem merge_nil_conditions (ord : RangeOrder) (pvc : PersistentVolumeClaim) :
    (MergeResizeConditionOnPVC ord pvc []).Status.Conditions =
      pvc.Status.Conditions.filter isOtherCondition := by
  have hv : ord.visit ([] : List (String × resizeProcessStatus)) = [] :=
    List.Perm.eq_nil (ord.perm [])
  rw [merge_conditions_eq]
  simp only [buildResizeConditionMap, List.foldl_nil, List.map_nil, hv, List.filterMap_nil,
    List.append_nil]
  generalize pvc.Status.Conditions = l
  induction l with
  | nil => simp
  | cons c rest ih =>
    by_cases ho : isOtherCondition c = true
    · simp [List.filterMap_cons, carryOne_of_other [] c ho, ho, ih]
    · have hk : isKnownResizeCondition c.Type_ = true := by
        rw [isOtherCondition_eq] at ho
        simpa using ho
      simp [List.filterMap_cons, carryOne, hk, mapLookup, ho, ih]

theorem resizedClaim_capacity (ord : RangeOrder) (pvc : PersistentVolumeClaim)
    (capacity : List (String × Quantity)) (newSize : Quantity) :
    (resizedClaim ord pvc capacity newSize).Status.Capacity.index ResourceStorage = newSize := by
  simp [resizedClaim, MergeResizeConditionOnPVC, ResourceList.index, mapLookup_mapAssign]

theorem resizedClaim_conditions (ord : RangeOrder) (pvc : PersistentVolumeClaim)
    (capacity : List (String × Quantity)) (newSize : Quantity) :
    ∀ c ∈ (resizedClaim ord pvc capacity newSize).Status.Conditions,
      c.Type_ ≠ PersistentVolumeClaimResizing ∧
      c.Type_ ≠ PersistentVolumeClaimFileSystemResizePending := by
  intro c hc
  unfold resizedClaim at hc
  simp only [merge_nil_conditions] at hc
  have := (List.mem_filter.mp hc).2
  simpa [isOtherCondition] using this

/-- C18 (evaluation at the failing input): all guards pass for a non-read-only
volume of spec capacity 10 whose fetched claim has a nil `Status.Capacity` map,
so that its status capacity reads as 0 < 10.  `NodeExpand` is called with
`OldSize` 0 and `NewSize` 10 and returns `(true, nil)`; the run records the
Normal event and then panics in `MarkFSResizeFinished` on the assignment into
the nil map: no status patch is issued and `(true, nil)` is not returned. -/
theorem NodeExpandVolume_nil_capacity_no_patch :
    (sampleClaimWithoutCapacity.Status.Capacity.index ResourceStorage).Cmp ⟨10⟩ < 0 ∧
    (samplePlugin true none).NodeExpand
      { sampleResizeOptions with
        VolumeSpec := some (sampleSpec 10 false false), NewSize := ⟨10⟩, OldSize := ⟨0⟩ } =
      (true, none) ∧
    (NodeExpandVolume RangeOrder.stored (sampleOperation (some (samplePlugin true none)))
      sampleClaimWithoutCapacity (sampleVolumeToMount (some (sampleSpec 10 false false)))
      sampleResizeOptions).result = .error "assignment to entry in nil map" ∧
    (NodeExpandVolume RangeOrder.stored (sampleOperation (some (samplePlugin true none)))
      sampleClaimWithoutCapacity (sampleVolumeToMount (some (sampleSpec 10 false false)))
      sampleResizeOptions).effects =
      [Effect.FindNodeExpandablePluginBySpec (some (sampleSpec 10 false false)),
        Effect.GetClaim "default" "a" none,
        Effect.NodeExpand
          { sampleResizeOptions with
            VolumeSpec := some (sampleSpec 10 false false), NewSize := ⟨10⟩, OldSize := ⟨0⟩ }
          true none,
        Effect.Eventf "pod-a" "Normal" "FileSystemResizeSuccessful"
          "MountVolume.NodeExpandVolume succeeded "] := by
  refine ⟨by decide, rfl, rfl, rfl⟩

/-- Expansion on a claim whose `Status.Capacity` map is not nil: when all guards
pass for a non-read-only volume whose fetched claim has such a map and a status
capacity S below the volume's spec capacity P, `NodeExpandVolume` calls
`NodeExpand` exactly once, with `OldSize` S, `NewSize` P and the request's
`VolumeSpec`; if that returns `(true, nil)` the calls after it are one Normal event and one
status patch whose new object has status storage capacity P and no Resizing or
FileSystemResizePending condition, and when the patch succeeds the result is
`(true, nil)` and the store is the patched one. -/
theorem NodeExpandVolume_expands_and_patches {σ : Type} (ord : RangeOrder)
    (vo : volumeOperationImpl σ) (s : σ) (vtm : VolumeToMount) (rsOpts : NodeResizeOptions)
    (plugin : NodeExpandableVolumePlugin) (spec : VolumeSpec) (pv : PersistentVolume)
    (claimRef : ObjectReference) (pvc : PersistentVolumeClaim)
    (capacity : List (String × Quantity))
    (hg : vo.ExpandPersistentVolumes = true) (hs : vtm.VolumeSpec = some spec)
    (hi : spec.InlineVolumeSpecForCSIMigration = false)
    (hf : vo.FindNodeExpandablePluginBySpec vtm.VolumeSpec = some plugin)
    (hr : plugin.RequiresFSResize = true) (hpv : spec.PersistentVolume = some pv)
    (hc : pv.ClaimRef = some claimRef)
    (hget : vo.kubeClient.Get s claimRef.Namespace claimRef.Name = .ok pvc)
    (hcap : pvc.Status.Capacity = some capacity)
    (hcmp : (pvc.Status.Capacity.index ResourceStorage).Cmp
      (pv.Capacity.index ResourceStorage) < 0)
    (hro : spec.ReadOnly = false) :
    (NodeExpandVolume ord vo s vtm rsOpts).effects.filter Effect.isNodeExpand =
      [Effect.NodeExpand
        { rsOpts with VolumeSpec := vtm.VolumeSpec, NewSize := pv.Capacity.index ResourceStorage,
                      OldSize := pvc.Status.Capacity.index ResourceStorage }
        (plugin.NodeExpand
          { rsOpts with VolumeSpec := vtm.VolumeSpec,
                        NewSize := pv.Capacity.index ResourceStorage,
                        OldSize := pvc.Status.Capacity.index ResourceStorage }).1
        (plugin.NodeExpand
          { rsOpts with VolumeSpec := vtm.VolumeSpec,
                        NewSize := pv.Capacity.index ResourceStorage,
                        OldSize := pvc.Status.Capacity.index ResourceStorage }).2] ∧
    (plugin.NodeExpand
        { rsOpts with VolumeSpec := vtm.VolumeSpec, NewSize := pv.Capacity.index ResourceStorage,
                      OldSize := pvc.Status.Capacity.index ResourceStorage } = (true, none) →
      (∃ err, (NodeExpandVolume ord vo s vtm rsOpts).effects =
        [Effect.FindNodeExpandablePluginBySpec vtm.VolumeSpec,
          Effect.GetClaim claimRef.Namespace claimRef.Name none,
          Effect.NodeExpand
            { rsOpts with VolumeSpec := vtm.VolumeSpec,
                          NewSize := pv.Capacity.index ResourceStorage,
                          OldSize := pvc.Status.Capacity.index ResourceStorage } true none,
          Effect.Eventf vtm.Pod EventTypeNormal FileSystemResizeSuccess
            (vo.GenerateMsg vtm "MountVolume.NodeExpandVolume succeeded" "").1,
          Effect.PatchStatus pvc
            (resizedClaim ord pvc capacity (pv.Capacity.index ResourceStorage)) err]) ∧
      (resizedClaim ord pvc capacity (pv.Capacity.index ResourceStorage)).Status.Capacity.index
        ResourceStorage = pv.Capacity.index ResourceStorage ∧
      (∀ c ∈ (resizedClaim ord pvc capacity
          (pv.Capacity.index ResourceStorage)).Status.Conditions,
        c.Type_ ≠ PersistentVolumeClaimResizing ∧
        c.Type_ ≠ PersistentVolumeClaimFileSystemResizePending) ∧
      (∀ store updatedClaim,
        vo.kubeClient.PatchStatus s pvc
          (resizedClaim ord pvc capacity (pv.Capacity.index ResourceStorage)) =
          (store, .ok updatedClaim) →
        (NodeExpandVolume ord vo s vtm rsOpts).result = .ok (true, none) ∧
        (NodeExpandVolume ord vo s vtm rsOpts).store = store)) := by
  rw [NodeExpandVolume_eq_fetchAndExpand ord vo s vtm rsOpts plugin spec pv hg hs hi hf hr hpv,
    fetchAndExpand_eq_nodeExpandAndFinish ord vo s vtm rsOpts plugin spec pv claimRef pvc _
      hc hget hcmp hro]
  have hp := nodeExpandAndFinish_path ord vo s vtm rsOpts plugin pvc
    (pv.Capacity.index ResourceStorage) (pvc.Status.Capacity.index ResourceStorage)
    ([Effect.FindNodeExpandablePluginBySpec vtm.VolumeSpec] ++
      [Effect.GetClaim claimRef.Namespace claimRef.Name none])
  generalize (nodeExpandAndFinish ord vo s vtm rsOpts plugin pvc
    (pv.Capacity.index ResourceStorage) (pvc.Status.Capacity.index ResourceStorage)
    ([Effect.FindNodeExpandablePluginBySpec vtm.VolumeSpec] ++
      [Effect.GetClaim claimRef.Namespace claimRef.Name none])) = run at hp ⊢
  obtain ⟨res, eff, st⟩ := run
  simp only at hp ⊢
  refine ⟨?_, ?_⟩
  · cases hp <;> simp_all [Effect.isNodeExpand, List.filter_cons]
  · intro hres
    refine ⟨?_, resizedClaim_capacity _ _ _ _, resizedClaim_conditions _ _ _ _, ?_⟩
    · cases hp <;> simp_all
    · intro store updatedClaim hpatch
      cases hp <;> simp_all

theorem NodeExpandVolume_expands_and_patches_witness :
    (NodeExpandVolume RangeOrder.stored (sampleOperation (some (samplePlugin true none)))
      (sampleClaim "a" 10 5 [sampleCondition "Resizing" "True" 1])
      (sampleVolumeToMount (some (sampleSpec 10 false false)))
      sampleResizeOptions).effects.filter Effect.isNodeExpand =
      [Effect.NodeExpand
        { sampleResizeOptions with
          VolumeSpec := some (sampleSpec 10 false false), NewSize := ⟨10⟩, OldSize := ⟨5⟩ }
        true none] ∧
    (NodeExpandVolume RangeOrder.stored (sampleOperation (some (samplePlugin true none)))
      (sampleClaim "a" 10 5 [sampleCondition "Resizing" "True" 1])
      (sampleVolumeToMount (some (sampleSpec 10 false false)))
      sampleResizeOptions).result = .ok (true, none) ∧
    (NodeExpandVolume RangeOrder.stored (sampleOperation (some (samplePlugin true none)))
      (sampleClaim "a" 10 5 [sampleCondition "Resizing" "True" 1])
      (sampleVolumeToMount (some (sampleSpec 10 false false)))
      sampleResizeOptions).store = sampleClaim "a" 10 10 [] :=
  ⟨(NodeExpandVolume_expands_and_patches RangeOrder.stored
      (sampleOperation (some (samplePlugin true none)))
      (sampleClaim "a" 10 5 [sampleCondition "Resizing" "True" 1])
      (sampleVolumeToMount (some (sampleSpec 10 false false))) sampleResizeOptions
      (samplePlugin true none) (sampleSpec 10 false false)
      { Name := "pv-a", Capacity := some [(ResourceStorage, ⟨10⟩)]
        ClaimRef := some { Namespace := "default", Name := "a" } }
      { Namespace := "default", Name := "a" }
      (sampleClaim "a" 10 5 [sampleCondition "Resizing" "True" 1])
      [(ResourceStorage, ⟨5⟩)]
      rfl rfl rfl rfl rfl rfl rfl rfl rfl (by decide) rfl).1,
   ((NodeExpandVolume_expands_and_patches RangeOrder.stored
      (sampleOperation (some (samplePlugin true none)))
      (sampleClaim "a" 10 5 [sampleCondition "Resizing" "True" 1])
      (sampleVolumeToMount (some (sampleSpec 10 false false))) sampleResizeOptions
      (samplePlugin true none) (sampleSpec 10 false false)
      { Name := "pv-a", Capacity := some [(ResourceStorage, ⟨10⟩)]
        ClaimRef := some { Namespace := "default", Name := "a" } }
      { Namespace := "default", Name := "a" }
      (sampleClaim "a" 10 5 [sampleCondition "Resizing" "True" 1])
      [(ResourceStorage, ⟨5⟩)]
      rfl rfl rfl rfl rfl rfl rfl rfl rfl (by decide) rfl).2 rfl).2.2.2
      (sampleClaim "a" 10 10 []) (sampleClaim "a" 10 10 []) rfl⟩

theorem FinishPath_errors {σ : Type} (ord : RangeOrder) (vo : volumeOperationImpl σ) (s : σ)
    (vtm : VolumeToMount) (rsOpts : NodeResizeOptions) (plugin : NodeExpandableVolumePlugin)
    (pvc : PersistentVolumeClaim) (pvSpecCap : Quantity) (before : List Effect)
    (res : Except String (Bool × Option String)) (eff : List Effect) (st : σ)
    (hp : FinishPath ord vo s vtm rsOpts plugin pvc pvSpecCap before res eff st)
    (hb1 : before.any Effect.failed = false)
    (hb2 : before.any Effect.failedNodeExpand = false)
    (hb3 : before.any Effect.isPatchStatus = false) :
    ((∃ e, res = .ok (false, some e)) ↔ eff.any Effect.failed = true) ∧
    (∀ e, res ≠ .ok (true, some e)) ∧
    (eff.any Effect.failedNodeExpand = false ∨ eff.any Effect.isPatchStatus = false) := by
  cases hp <;>
    simp_all [Effect.failed, Effect.failedNodeExpand, Effect.isPatchStatus, List.any_append]

/-- C19: `NodeExpandVolume` returns `(false, err)` with a non-nil error exactly
when, among its calls, the fetch of the claim, `NodeExpand` or the status
patch returned an error; it never returns `(true, err)` with a non-nil error;
and a run in which `NodeExpand` returned an error issues no status patch. -/
theorem NodeExpandVolume_error_iff_step_failed {σ : Type} (ord : RangeOrder)
    (vo : volumeOperationImpl σ) (s : σ) (vtm : VolumeToMount) (rsOpts : NodeResizeOptions) :
    ((∃ e, (NodeExpandVolume ord vo s vtm rsOpts).result = .ok (false, some e)) ↔
      (NodeExpandVolume ord vo s vtm rsOpts).effects.any Effect.failed = true) ∧
    (∀ e, (NodeExpandVolume ord vo s vtm rsOpts).result ≠ .ok (true, some e)) ∧
    ((NodeExpandVolume ord vo s vtm rsOpts).effects.any Effect.failedNodeExpand = false ∨
      (NodeExpandVolume ord vo s vtm rsOpts).effects.any Effect.isPatchStatus = false) := by
  have hp := NodeExpandVolume_path ord vo s vtm rsOpts
  generalize (NodeExpandVolume ord vo s vtm rsOpts).result = res at hp ⊢
  generalize (NodeExpandVolume ord vo s vtm rsOpts).effects = eff at hp ⊢
  generalize (NodeExpandVolume ord vo s vtm rsOpts).store = st at hp ⊢
  cases hp with
  | expanding plugin spec pv claimRef pvc _ _ _ hg hi hf hr hs hpv hc hget hcmp hro hres heff hst =>
    rw [hres, heff]
    exact FinishPath_errors ord vo s vtm _ plugin pvc _ _ _ _ _
      (nodeExpandAndFinish_path ord vo s vtm rsOpts plugin pvc _ _ _)
      (by simp [Effect.failed]) (by simp [Effect.failedNodeExpand])
      (by simp [Effect.isPatchStatus])
  | _ => simp_all [Effect.failed, Effect.failedNodeExpand, Effect.isPatchStatus]

theorem NodeExpandVolume_error_iff_step_failed_witness :
    (∃ e, (NodeExpandVolume RangeOrder.stored (refusingOperation (some (samplePlugin true none)))
      (sampleClaim "a" 10 5 []) (sampleVolumeToMount (some (sampleSpec 10 false false)))
      sampleResizeOptions).result = .ok (false, some e)) ∧
    (NodeExpandVolume RangeOrder.stored (refusingOperation (some (samplePlugin true none)))
      (sampleClaim "a" 10 5 []) (sampleVolumeToMount (some (sampleSpec 10 false false)))
      sampleResizeOptions).effects.any Effect.failed = true :=
  ⟨⟨_, rfl⟩,
   (NodeExpandVolume_error_iff_step_failed RangeOrder.stored
      (refusingOperation (some (samplePlugin true none))) (sampleClaim "a" 10 5 [])
      (sampleVolumeToMount (some (sampleSpec 10 false false))) sampleResizeOptions).1.mp
      ⟨_, rfl⟩⟩

theorem FinishPath_patched_inv {σ : Type} (ord : RangeOrder) (vo : volumeOperationImpl σ)
    (s : σ) (vtm : VolumeToMount) (rsOpts : NodeResizeOptions)
    (plugin : NodeExpandableVolumePlugin) (pvc : PersistentVolumeClaim) (pvSpecCap : Quantity)
    (before : List Effect) (res : Except String (Bool × Option String)) (eff : List Effect)
    (st : σ) (hp : FinishPath ord vo s vtm rsOpts plugin pvc pvSpecCap before res eff st)
    (hb : before.any Effect.succeededPatchStatus = false)
    (h : eff.any Effect.succeededPatchStatus = true) :
    ∃ capacity updatedClaim, pvc.Status.Capacity = some capacity ∧
      vo.kubeClient.PatchStatus s pvc (resizedClaim ord pvc capacity pvSpecCap) =
        (st, .ok updatedClaim) := by
  cases hp with
  | patched capacity store updatedClaim h1 h2 h3 => exact ⟨capacity, updatedClaim, h2, h3⟩
  | _ =>
    rw [List.any_append, hb, Bool.false_or] at h
    simp [Effect.succeededPatchStatus] at h

/-- C20: let a first `NodeExpandVolume` call return `(true, nil)` after a
`NodeExpand` that returned `(true, nil)` and a status patch that returned no
error, against a store that applies the patch (a fetch after a successful
patch returns the claim with the storage capacity of the patch's new object).
Then a second call for the same volume on the store the first call left
returns `(true, nil)` without calling `NodeExpand`, recording an event or
issuing a patch, and leaves the store as it found it. -/
theorem NodeExpandVolume_second_call_noop {σ : Type} (ord ord2 : RangeOrder)
    (vo : volumeOperationImpl σ) (s : σ) (vtm : VolumeToMount)
    (rsOpts rsOpts2 : NodeResizeOptions)
    (hfirst : (NodeExpandVolume ord vo s vtm rsOpts).result = .ok (true, none))
    (hexp : (NodeExpandVolume ord vo s vtm rsOpts).effects.any Effect.succeededNodeExpand = true)
    (hpatch : (NodeExpandVolume ord vo s vtm rsOpts).effects.any
      Effect.succeededPatchStatus = true)
    (hstore : ∀ ns name oldPVC newPVC store updatedClaim,
      vo.kubeClient.Get s ns name = .ok oldPVC →
      vo.kubeClient.PatchStatus s oldPVC newPVC = (store, .ok updatedClaim) →
      ∃ c, vo.kubeClient.Get store ns name = .ok c ∧
        c.Status.Capacity.index ResourceStorage =
          newPVC.Status.Capacity.index ResourceStorage) :
    (NodeExpandVolume ord2 vo (NodeExpandVolume ord vo s vtm rsOpts).store vtm rsOpts2).result =
      .ok (true, none) ∧
    (NodeExpandVolume ord2 vo (NodeExpandVolume ord vo s vtm rsOpts).store vtm rsOpts2).effects.any
      (fun e => e.isNodeExpand || e.isEventf || e.isPatchStatus) = false ∧
    (NodeExpandVolume ord2 vo (NodeExpandVolume ord vo s vtm rsOpts).store vtm rsOpts2).store =
      (NodeExpandVolume ord vo s vtm rsOpts).store := by
  have _ := hfirst
  have _ := hexp
  have hp := NodeExpandVolume_path ord vo s vtm rsOpts
  generalize (NodeExpandVolume ord vo s vtm rsOpts).result = res at hp
  generalize (NodeExpandVolume ord vo s vtm rsOpts).effects = eff at hp hpatch
  generalize (NodeExpandVolume ord vo s vtm rsOpts).store = st at hp ⊢
  cases hp with
  | expanding plugin spec pv claimRef pvc _ _ _ hg hi hf hr hs hpv hc hget hcmp hro hres heff hst =>
    have hi' : spec.InlineVolumeSpecForCSIMigration = false := by
      rw [hs] at hi
      exact hi
    obtain ⟨capacity, updatedClaim, _, hpatched⟩ :=
      FinishPath_patched_inv ord vo s vtm _ plugin pvc _ _ _ _ _
        (nodeExpandAndFinish_path ord vo s vtm rsOpts plugin pvc _ _ _)
        (by simp [Effect.succeededPatchStatus]) (heff ▸ hpatch)
    rw [← hst] at hpatched
    obtain ⟨c, hget2, hcapc⟩ := hstore _ _ _ _ _ _ hget hpatched
    rw [resizedClaim_capacity] at hcapc
    have hcmp2 : ¬ (c.Status.Capacity.index ResourceStorage).Cmp
        (pv.Capacity.index ResourceStorage) < 0 := by
      rw [hcapc, Quantity.Cmp_self]
      decide
    rw [NodeExpandVolume_eq_fetchAndExpand ord2 vo st vtm rsOpts2 plugin spec pv hg hs hi' hf hr
      hpv]
    simp [fetchAndExpand, hc, hget2, hcmp2, Effect.isNodeExpand, Effect.isEventf,
      Effect.isPatchStatus]
  | _ => simp [Effect.succeededPatchStatus] at hpatch

theorem NodeExpandVolume_second_call_noop_witness :
    (NodeExpandVolume RangeOrder.reversed (sampleOperation (some (samplePlugin true none)))
      (NodeExpandVolume RangeOrder.stored (sampleOperation (some (samplePlugin true none)))
        (sampleClaim "a" 10 5 [sampleCondition "Resizing" "True" 1])
        (sampleVolumeToMount (some (sampleSpec 10 false false))) sampleResizeOptions).store
      (sampleVolumeToMount (some (sampleSpec 10 false false))) sampleResizeOptions).result =
      .ok (true, none) ∧
    (NodeExpandVolume RangeOrder.reversed (sampleOperation (some (samplePlugin true none)))
      (NodeExpandVolume RangeOrder.stored (sampleOperation (some (samplePlugin true none)))
        (sampleClaim "a" 10 5 [sampleCondition "Resizing" "True" 1])
        (sampleVolumeToMount (some (sampleSpec 10 false false))) sampleResizeOptions).store
      (sampleVolumeToMount (some (sampleSpec 10 false false))) sampleResizeOptions).effects.any
      (fun e => e.isNodeExpand || e.isEventf || e.isPatchStatus) = false ∧
    (NodeExpandVolume RangeOrder.reversed (sampleOperation (some (samplePlugin true none)))
      (NodeExpandVolume RangeOrder.stored (sampleOperation (some (samplePlugin true none)))
        (sampleClaim "a" 10 5 [sampleCondition "Resizing" "True" 1])
        (sampleVolumeToMount (some (sampleSpec 10 false false))) sampleResizeOptions).store
      (sampleVolumeToMount (some (sampleSpec 10 false false))) sampleResizeOptions).store =
      (NodeExpandVolume RangeOrder.stored (sampleOperation (some (samplePlugin true none)))
        (sampleClaim "a" 10 5 [sampleCondition "Resizing" "True" 1])
        (sampleVolumeToMount (some (sampleSpec 10 false false))) sampleResizeOptions).store :=
  NodeExpandVolume_second_call_noop RangeOrder.stored RangeOrder.reversed
    (sampleOperation (some (samplePlugin true none)))
    (sampleClaim "a" 10 5 [sampleCondition "Resizing" "True" 1])
    (sampleVolumeToMount (some (sampleSpec 10 false false))) sampleResizeOptions
    sampleResizeOptions rfl rfl rfl
    (by
      intro ns name oldPVC newPVC store updatedClaim hget hpatched
      simp only [sampleOperation, singleClaimClient, Prod.mk.injEq] at hget hpatched ⊢
      obtain ⟨rfl, _⟩ := hpatched
      exact ⟨_, rfl, rfl⟩)

/-! ## Node expansion: nil references -/

/-- C21 (evaluation at failing inputs): with expansion enabled and a plugin
requiring a file system resize found, `NodeExpandVolume` panics on a persistent
volume whose `ClaimRef` is nil, on a nil `VolumeSpec`, and, after `NodeExpand`
returned `(true, nil)`, on a fetched claim whose `Status.Capacity` map is nil. -/
theorem NodeExpandVolume_panics_on_nil_references :
    (NodeExpandVolume RangeOrder.stored (sampleOperation (some (samplePlugin true none)))
      (sampleClaim "a" 10 5 [])
      (sampleVolumeToMount (some
        { PersistentVolume := some
            { Name := "pv-a", Capacity := some [(ResourceStorage, ⟨10⟩)], ClaimRef := none }
          ReadOnly := false, InlineVolumeSpecForCSIMigration := false }))
      sampleResizeOptions).result =
      .error "invalid memory address or nil pointer dereference" ∧
    (NodeExpandVolume RangeOrder.stored (sampleOperation (some (samplePlugin true none)))
      (sampleClaim "a" 10 5 []) (sampleVolumeToMount none) sampleResizeOptions).result =
      .error "invalid memory address or nil pointer dereference" ∧
    (NodeExpandVolume RangeOrder.stored (sampleOperation (some (samplePlugin true none)))
      sampleClaimWithoutCapacity (sampleVolumeToMount (some (sampleSpec 10 false false)))
      sampleResizeOptions).result = .error "assignment to entry in nil map" := by
  refine ⟨rfl, rfl, rfl⟩

/-! ## Reconciler: errors and completion -/

theorem reconcileLoop_append {σ : Type} (opsExecutor : OperationExecutor σ)
    (l1 l2 : List PvcWithResizeRequest) :
    ∀ t : Tick σ, reconcileLoop opsExecutor t (l1 ++ l2) =
      reconcileLoop opsExecutor (reconcileLoop opsExecutor t l1) l2 := by
  induction l1 with
  | nil => intro t; rfl
  | cons r rest ih =>
    intro t
    show reconcileLoop opsExecutor (reconcileBody opsExecutor t r) (rest ++ l2) = _
    rw [ih]
    rfl

/-- C22: let `r` be any request of the tick, `before` the requests listed
before it and `later` those after it.  Whatever `GrowPvc` returned for `r`, an
error included, the tick goes on: its calls are those made up to and including
`r` followed by the calls the tick contract prescribes for `later` (for each
later request the query, and `GrowPvc` when no operation is in flight), and
`reconcile` returns the state these calls leave. -/
theorem reconcile_continues_after_error {σ : Type} (ord : RangeOrder)
    (opsExecutor : OperationExecutor σ) (exec : σ) (dsow : desiredStateOfWorld)
    (before later : List PvcWithResizeRequest) (r : PvcWithResizeRequest)
    (h : dsow.GetPvcsWithResizeRequest ord = before ++ r :: later) :
    ∃ laterCalls,
      (reconcile ord opsExecutor exec dsow).calls =
        (reconcileLoop opsExecutor { exec := exec, dsow := dsow, calls := [] }
          (before ++ [r])).calls ++ laterCalls ∧
      TickCalls opsExecutor
        (reconcileLoop opsExecutor { exec := exec, dsow := dsow, calls := [] }
          (before ++ [r])).exec
        (reconcileLoop opsExecutor { exec := exec, dsow := dsow, calls := [] }
          (before ++ [r])).dsow
        later laterCalls := by
  have e : before ++ r :: later = (before ++ [r]) ++ later := by simp
  unfold reconcile
  rw [h, e, reconcileLoop_append]
  exact reconcileLoop_calls opsExecutor later _

theorem reconcile_continues_after_error_witness :
    ∃ laterCalls,
      (reconcile RangeOrder.stored (sampleExecutor (some "grow failed")) [] samplePendingCache).calls =
        (reconcileLoop (sampleExecutor (some "grow failed"))
          { exec := [], dsow := samplePendingCache, calls := [] }
          ([] ++ [sampleRequest "a" false])).calls ++ laterCalls ∧
      TickCalls (sampleExecutor (some "grow failed"))
        (reconcileLoop (sampleExecutor (some "grow failed"))
          { exec := [], dsow := samplePendingCache, calls := [] }
          ([] ++ [sampleRequest "a" false])).exec
        (reconcileLoop (sampleExecutor (some "grow failed"))
          { exec := [], dsow := samplePendingCache, calls := [] }
          ([] ++ [sampleRequest "a" false])).dsow
        [sampleRequest "b" false] laterCalls :=
  reconcile_continues_after_error RangeOrder.stored (sampleExecutor (some "grow failed")) []
    samplePendingCache [] [sampleRequest "b" false] (sampleRequest "a" false) (by rfl)

/-- C23 (as stated, refuted): `GrowPvc` returns no error for the pending
requests `a` and `b`, and after the tick the cache is what it was: both entries
still have `ResizeDone` false and `GetPvcsWithResizeRequest` returns them. -/
theorem reconcile_does_not_mark_done :
    (reconcile RangeOrder.stored (sampleExecutor none) [] samplePendingCache).calls =
      [Call.IsOperationPending "a" "" false, Call.GrowPvc (sampleRequest "a" false) none,
        Call.IsOperationPending "b" "" false, Call.GrowPvc (sampleRequest "b" false) none] ∧
    (reconcile RangeOrder.stored (sampleExecutor none) [] samplePendingCache).dsow =
      samplePendingCache ∧
    (reconcile RangeOrder.stored (sampleExecutor none) []
      samplePendingCache).dsow.GetPvcsWithResizeRequest RangeOrder.stored =
      [sampleRequest "a" false, sampleRequest "b" false] := by
  refine ⟨by decide, by decide, by decide⟩

theorem reconcileLoop_dsow {σ : Type} (opsExecutor : OperationExecutor σ)
    (h : ∀ s r d, (opsExecutor.GrowPvc s r d).2.1 = d) (pending : List PvcWithResizeRequest) :
    ∀ t : Tick σ, (reconcileLoop opsExecutor t pending).dsow = t.dsow := by
  induction pending with
  | nil => intro t; rfl
  | cons r rest ih =>
    intro t
    simp only [reconcileLoop, ih]
    unfold reconcileBody
    by_cases hp : opsExecutor.IsOperationPending t.exec r.UniquePvcKey "" = true
    · simp [hp]
    · simp [hp, h]

theorem reconcileLoop_state {σ : Type} (opsExecutor : OperationExecutor σ)
    (pending : List PvcWithResizeRequest) :
    ∀ t : Tick σ, TickState opsExecutor t.exec t.dsow pending
      (reconcileLoop opsExecutor t pending).exec (reconcileLoop opsExecutor t pending).dsow := by
  induction pending with
  | nil => intro t; exact TickState.done _ _
  | cons r rest ih =>
    intro t
    by_cases hp : opsExecutor.IsOperationPending t.exec r.UniquePvcKey "" = true
    · have e : reconcileBody opsExecutor t r =
          { t with calls := t.calls ++ [Call.IsOperationPending r.UniquePvcKey "" true] } := by
        simp [reconcileBody, hp]
      have h := ih (reconcileBody opsExecutor t r)
      rw [e] at h
      show TickState opsExecutor t.exec t.dsow (r :: rest)
        (reconcileLoop opsExecutor (reconcileBody opsExecutor t r) rest).exec
        (reconcileLoop opsExecutor (reconcileBody opsExecutor t r) rest).dsow
      rw [e]
      exact TickState.skip _ _ _ _ _ _ hp h
    · have hp' : opsExecutor.IsOperationPending t.exec r.UniquePvcKey "" = false := by
        simpa using hp
      have e : reconcileBody opsExecutor t r =
          { exec := (opsExecutor.GrowPvc t.exec r t.dsow).1
            dsow := (opsExecutor.GrowPvc t.exec r t.dsow).2.1
            calls := t.calls ++ [Call.IsOperationPending r.UniquePvcKey "" false,
              Call.GrowPvc r (opsExecutor.GrowPvc t.exec r t.dsow).2.2] } := by
        simp [reconcileBody, hp']
      have h := ih (reconcileBody opsExecutor t r)
      rw [e] at h
      show TickState opsExecutor t.exec t.dsow (r :: rest)
        (reconcileLoop opsExecutor (reconcileBody opsExecutor t r) rest).exec
        (reconcileLoop opsExecutor (reconcileBody opsExecutor t r) rest).dsow
      rw [e]
      exact TickState.grow _ _ _ _ _ _ hp' h

theorem TickState_marking {σ : Type} (opsExecutor : OperationExecutor σ)
    (hmark : ∀ s r d, (opsExecutor.GrowPvc s r d).2.1 = d.MarkAsResized r)
    (hfree : ∀ s k, opsExecutor.IsOperationPending s k "" = false)
    (s : σ) (d : desiredStateOfWorld) (pending : List PvcWithResizeRequest)
    (s' : σ) (d' : desiredStateOfWorld) (h : TickState opsExecutor s d pending s' d') :
    d' = pending.foldl (fun cache r => cache.MarkAsResized r) d := by
  induction h with
  | done s d => rfl
  | skip s d r rest s' d' hp _ _ => simp [hfree] at hp
  | grow s d r rest s' d' _ _ ih => rw [ih, hmark]; rfl

/-- C23 (amended): `reconcile` never marks a request done itself; it hands the
cache to `GrowPvc` and keeps what `GrowPvc` returns.  The cache after the tick
is the one the `GrowPvc` calls of the tick left: each call is handed the cache
as it is then, a request whose operation is pending leaves it alone, and
nothing else changes it.  So when `GrowPvc` leaves the cache as it is, the
cache after the tick is the cache before it, and the requests pending before
are pending after, whatever `GrowPvc` returned; and when `GrowPvc` marks its
request as resized and no operation is in flight, the cache after the tick is
the cache before it with the listed requests marked, one after the other. -/
theorem reconcile_leaves_marking_to_GrowPvc {σ : Type} (ord ord2 : RangeOrder)
    (opsExecutor : OperationExecutor σ) (exec : σ) (dsow : desiredStateOfWorld) :
    TickState opsExecutor exec dsow (dsow.GetPvcsWithResizeRequest ord)
      (reconcile ord opsExecutor exec dsow).exec (reconcile ord opsExecutor exec dsow).dsow ∧
    ((∀ s r d, (opsExecutor.GrowPvc s r d).2.1 = d) →
      (reconcile ord opsExecutor exec dsow).dsow = dsow ∧
      (reconcile ord opsExecutor exec dsow).dsow.GetPvcsWithResizeRequest ord2 =
        dsow.GetPvcsWithResizeRequest ord2) ∧
    ((∀ s r d, (opsExecutor.GrowPvc s r d).2.1 = d.MarkAsResized r) →
      (∀ s k, opsExecutor.IsOperationPending s k "" = false) →
      (reconcile ord opsExecutor exec dsow).dsow =
        (dsow.GetPvcsWithResizeRequest ord).foldl (fun cache r => cache.MarkAsResized r) dsow) := by
  have hstate := reconcileLoop_state opsExecutor (dsow.GetPvcsWithResizeRequest ord)
    { exec := exec, dsow := dsow, calls := [] }
  refine ⟨hstate, ?_, ?_⟩
  · intro h
    have e : (reconcile ord opsExecutor exec dsow).dsow = dsow := by
      unfold reconcile
      rw [reconcileLoop_dsow opsExecutor h]
    exact ⟨e, by rw [e]⟩
  · intro hmark hfree
    exact TickState_marking opsExecutor hmark hfree _ _ _ _ _ hstate

theorem reconcile_leaves_marking_to_GrowPvc_witness :
    ((reconcile RangeOrder.stored (sampleExecutor none) [] samplePendingCache).dsow =
        samplePendingCache ∧
      (reconcile RangeOrder.stored (sampleExecutor none) []
        samplePendingCache).dsow.GetPvcsWithResizeRequest RangeOrder.reversed =
        samplePendingCache.GetPvcsWithResizeRequest RangeOrder.reversed) ∧
    (reconcile RangeOrder.stored markingExecutor () samplePendingCache).dsow =
      (samplePendingCache.GetPvcsWithResizeRequest RangeOrder.stored).foldl
        (fun cache r => cache.MarkAsResized r) samplePendingCache :=
  ⟨(reconcile_leaves_marking_to_GrowPvc RangeOrder.stored RangeOrder.reversed
      (sampleExecutor none) [] samplePendingCache).2.1 (fun _ _ _ => rfl),
   (reconcile_leaves_marking_to_GrowPvc RangeOrder.stored RangeOrder.reversed
      markingExecutor () samplePendingCache).2.2 (fun _ _ _ => rfl) (fun _ _ => rfl)⟩

/-- With an executor whose `GrowPvc` marks its request as resized, the tick
leaves no request pending: the marking `GrowPvc` did is kept by `reconcile`. -/
theorem reconcile_keeps_marking_of_GrowPvc :
    (reconcile RangeOrder.stored markingExecutor () samplePendingCache).calls =
      [Call.IsOperationPending "a" "" false, Call.GrowPvc (sampleRequest "a" false) none,
        Call.IsOperationPending "b" "" false, Call.GrowPvc (sampleRequest "b" false) none] ∧
    (reconcile RangeOrder.stored markingExecutor ()
      samplePendingCache).dsow.GetPvcsWithResizeRequest RangeOrder.stored = [] := by
  refine ⟨by decide, by decide⟩

/-! ## Operation types: theorems -/

/-- C24 (as stated, refuted): `OperationFunc` returns `(nil, err)` without
panicking, and `Run` returns `(nil, nil)`: `CompleteFunc`, which is handed a
pointer to the detailed error, has cleared it.  Likewise, when `OperationFunc`
panics, `Run` with that `CompleteFunc` returns a nil detailed error. -/
theorem Run_hook_can_change_result :
    (GeneratedOperations.Run
      { OperationName := "expand", OperationFunc := .ok (none, some (GoError.other "failed"))
        EventRecorderFunc := none, CompleteFunc := some (fun _ => none) }).outcome =
      .ok (none, none) ∧
    (GeneratedOperations.Run
      { OperationName := "expand", OperationFunc := .error "boom"
        EventRecorderFunc := none, CompleteFunc := some (fun _ => none) }).outcome =
      .ok (none, none) := by
  exact ⟨rfl, rfl⟩

/-- C24 (amended): provided `EventRecorderFunc` and `CompleteFunc` do not assign
through the error pointer they are handed, `Run` never lets a panic of
`OperationFunc` through: it then returns a nil event error and a non-nil
detailed error, having called `EventRecorderFunc` (with the nil event error)
and then `CompleteFunc` (with that detailed error), each once when set; and
when `OperationFunc` returns a pair, `Run` returns that pair, after the same
two calls with the errors of the pair. -/
theorem Run_recovers_and_returns (o : GeneratedOperations)
    (hrec : ∀ f, o.EventRecorderFunc = some f → ∀ e, f e = e)
    (hcomp : ∀ f, o.CompleteFunc = some f → ∀ e, f e = e) :
    (∀ r, o.OperationFunc = .error r →
      ∃ detailedErr, o.Run.outcome = .ok (none, some detailedErr) ∧
        o.Run.calls =
          (if o.EventRecorderFunc.isSome then [HookCall.EventRecorderFunc none] else []) ++
          (if o.CompleteFunc.isSome then [HookCall.CompleteFunc (some detailedErr)] else [])) ∧
    (∀ eventErr detailedErr, o.OperationFunc = .ok (eventErr, detailedErr) →
      o.Run.outcome = .ok (eventErr, detailedErr) ∧
      o.Run.calls =
        (if o.EventRecorderFunc.isSome then [HookCall.EventRecorderFunc eventErr] else []) ++
        (if o.CompleteFunc.isSome then [HookCall.CompleteFunc detailedErr] else [])) := by
  obtain ⟨name, op, rec, comp⟩ := o
  refine ⟨?_, ?_⟩
  · intro r hr
    simp only at hr hrec hcomp
    subst hr
    refine ⟨GoError.other ("recovered from panic " ++ r), ?_⟩
    cases rec with
    | none =>
      cases comp with
      | none => exact ⟨rfl, rfl⟩
      | some g => simp [GeneratedOperations.Run, RecoverFromPanic, hcomp g rfl]
    | some f =>
      cases comp with
      | none => simp [GeneratedOperations.Run, RecoverFromPanic, hrec f rfl]
      | some g => simp [GeneratedOperations.Run, RecoverFromPanic, hrec f rfl, hcomp g rfl]
  · intro eventErr detailedErr hr
    simp only at hr hrec hcomp
    subst hr
    cases rec with
    | none =>
      cases comp with
      | none => exact ⟨rfl, rfl⟩
      | some g => simp [GeneratedOperations.Run, RecoverFromPanic, hcomp g rfl]
    | some f =>
      cases comp with
      | none => simp [GeneratedOperations.Run, RecoverFromPanic, hrec f rfl]
      | some g => simp [GeneratedOperations.Run, RecoverFromPanic, hrec f rfl, hcomp g rfl]

theorem Run_recovers_and_returns_witness :
    ∃ detailedErr,
      (GeneratedOperations.Run
        { OperationName := "expand", OperationFunc := .error "boom"
          EventRecorderFunc := some (fun e => e), CompleteFunc := some (fun e => e) }).outcome =
        .ok (none, some detailedErr) ∧
      (GeneratedOperations.Run
        { OperationName := "expand", OperationFunc := .error "boom"
          EventRecorderFunc := some (fun e => e), CompleteFunc := some (fun e => e) }).calls =
        [HookCall.EventRecorderFunc none] ++ [HookCall.CompleteFunc (some detailedErr)] :=
  (Run_recovers_and_returns
    { OperationName := "expand", OperationFunc := .error "boom"
      EventRecorderFunc := some (fun e => e), CompleteFunc := some (fun e => e) }
    (fun f hf e => by
      simp only [Option.some.injEq] at hf
      subst hf
      rfl)
    (fun f hf e => by
      simp only [Option.some.injEq] at hf
      subst hf
      rfl)).1 "boom" rfl

/-- C28: `IsOperationFinishedError` is false exactly for the errors whose
dynamic type is `*TransientOperationFailure` or `*NonFinalOperationFailure`,
and true for every other error and for nil; `IsNonFinalError` is true exactly
for those of type `*NonFinalOperationFailure`; so `IsNonFinalError` implies
that `IsOperationFinishedError` is false; and the errors made by the two
constructors report their message from `Error`. -/
theorem operation_error_classification :
    (∀ err, IsOperationFinishedError err = false ↔
      ((∃ p, err = some (GoError.transient p)) ∨ (∃ p, err = some (GoError.nonFinal p)))) ∧
    IsOperationFinishedError none = true ∧
    (∀ msg, IsOperationFinishedError (some (GoError.other msg)) = true) ∧
    (∀ err, IsNonFinalError err = true ↔ ∃ p, err = some (GoError.nonFinal p)) ∧
    (∀ err, IsNonFinalError err = true → IsOperationFinishedError err = false) ∧
    (∀ m, (NewTransientOperationFailure m).Error = m) ∧
    (∀ m, (NewNonFinalOperationFailure m).Error = m) := by
  refine ⟨?_, rfl, fun _ => rfl, ?_, ?_, fun _ => rfl, fun _ => rfl⟩
  · intro err
    rcases err with _ | ⟨p | p | m⟩ <;>
      simp [IsOperationFinishedError, assertNonFinal, assertTransient]
  · intro err
    rcases err with _ | ⟨p | p | m⟩ <;> simp [IsNonFinalError, assertNonFinal]
  · intro err
    rcases err with _ | ⟨p | p | m⟩ <;>
      simp [IsNonFinalError, IsOperationFinishedError, assertNonFinal]

/-! ## Claim field gating: theorems -/

/-- C25: after `DropDisabledFields` the data source of the claim is the one
supplied when it was nil, or the `AnyVolumeDataSource` gate is on, or it has
kind PersistentVolumeClaim with a nil or empty API group, or kind
VolumeSnapshot with API group `snapshot.storage.k8s.io`, or the old claim is
non-nil with a non-nil data source; in every other case it is nil. -/
theorem DropDisabledFields_data_source (gates : FeatureGates) (pvc : CoreClaim)
    (oldPVC : Option CoreClaim) :
    ((pvc.Spec.DataSource = none ∨ gates.AnyVolumeDataSource = true ∨
        (∃ ds, pvc.Spec.DataSource = some ds ∧ ds.Kind = "PersistentVolumeClaim" ∧
          (ds.APIGroup = none ∨ ds.APIGroup = some "")) ∨
        (∃ ds, pvc.Spec.DataSource = some ds ∧ ds.Kind = "VolumeSnapshot" ∧
          ds.APIGroup = some "snapshot.storage.k8s.io") ∨
        (∃ old ds, oldPVC = some old ∧ old.Spec.DataSource = some ds)) →
      (DropDisabledFields gates pvc oldPVC).Spec.DataSource = pvc.Spec.DataSource) ∧
    (¬ (pvc.Spec.DataSource = none ∨ gates.AnyVolumeDataSource = true ∨
        (∃ ds, pvc.Spec.DataSource = some ds ∧ ds.Kind = "PersistentVolumeClaim" ∧
          (ds.APIGroup = none ∨ ds.APIGroup = some "")) ∨
        (∃ ds, pvc.Spec.DataSource = some ds ∧ ds.Kind = "VolumeSnapshot" ∧
          ds.APIGroup = some "snapshot.storage.k8s.io") ∨
        (∃ old ds, oldPVC = some old ∧ old.Spec.DataSource = some ds)) →
      (DropDisabledFields gates pvc oldPVC).Spec.DataSource = none) := by
  have hds : (DropDisabledFields gates pvc oldPVC).Spec.DataSource =
      if (!dataSourceIsEnabled gates pvc.Spec && !dataSourceInUse (oldPVC.map (fun o => o.Spec)))
      then none else pvc.Spec.DataSource := by
    unfold DropDisabledFields
    simp only []
    split <;> split <;> simp_all
  have hen : dataSourceIsEnabled gates pvc.Spec = true ↔
      ∃ ds, pvc.Spec.DataSource = some ds ∧ (gates.AnyVolumeDataSource = true ∨
        (ds.Kind = "PersistentVolumeClaim" ∧ (ds.APIGroup = none ∨ ds.APIGroup = some "")) ∨
        (ds.Kind = "VolumeSnapshot" ∧ ds.APIGroup = some "snapshot.storage.k8s.io")) := by
    unfold dataSourceIsEnabled
    cases hd : pvc.Spec.DataSource with
    | none => simp
    | some ds =>
      obtain ⟨g, k, n⟩ := ds
      cases g with
      | none => by_cases hg : gates.AnyVolumeDataSource = true <;> simp [hg, pvcKind, volumeSnapshot]
      | some g =>
        by_cases hg : gates.AnyVolumeDataSource = true <;> simp [hg, pvcKind, volumeSnapshot]
  have huse : dataSourceInUse (oldPVC.map (fun o => o.Spec)) = true ↔
      ∃ old ds, oldPVC = some old ∧ old.Spec.DataSource = some ds := by
    cases oldPVC with
    | none => simp [dataSourceInUse]
    | some old =>
      cases hd : old.Spec.DataSource <;> simp [dataSourceInUse, hd]
  rw [hds]
  constructor
  · intro h
    by_cases hnone : pvc.Spec.DataSource = none
    · simp [hnone]
    · have : dataSourceIsEnabled gates pvc.Spec = true ∨
          dataSourceInUse (oldPVC.map (fun o => o.Spec)) = true := by
        rcases h with h | h | ⟨ds, h1, h2, h3⟩ | ⟨ds, h1, h2, h3⟩ | h
        · exact absurd h hnone
        · obtain ⟨ds, hds'⟩ := Option.ne_none_iff_exists'.mp hnone
          exact Or.inl (hen.mpr ⟨ds, hds', Or.inl h⟩)
        · exact Or.inl (hen.mpr ⟨ds, h1, Or.inr (Or.inl ⟨h2, h3⟩)⟩)
        · exact Or.inl (hen.mpr ⟨ds, h1, Or.inr (Or.inr ⟨h2, h3⟩)⟩)
        · exact Or.inr (huse.mpr h)
      rcases this with h1 | h1 <;> simp [h1]
  · intro h
    have h1 : dataSourceIsEnabled gates pvc.Spec = false := by
      rw [← Bool.not_eq_true]
      intro he
      obtain ⟨ds, hd, hc⟩ := hen.mp he
      apply h
      rcases hc with hc | ⟨hk, hg⟩ | ⟨hk, hg⟩
      · exact Or.inr (Or.inl hc)
      · exact Or.inr (Or.inr (Or.inl ⟨ds, hd, hk, hg⟩))
      · exact Or.inr (Or.inr (Or.inr (Or.inl ⟨ds, hd, hk, hg⟩)))
    have h2 : dataSourceInUse (oldPVC.map (fun o => o.Spec)) = false := by
      rw [← Bool.not_eq_true]
      intro hu
      exact h (Or.inr (Or.inr (Or.inr (Or.inr (huse.mp hu)))))
    simp [h1, h2]

theorem DropDisabledFields_data_source_witness :
    (DropDisabledFields { AnyVolumeDataSource := false, RecoverVolumeExpansionFailure := false }
      (sampleCoreClaim 10 none (some { APIGroup := none, Kind := "Pod", Name := "p" }))
      none).Spec.DataSource = none ∧
    (DropDisabledFields { AnyVolumeDataSource := false, RecoverVolumeExpansionFailure := false }
      (sampleCoreClaim 10 none
        (some { APIGroup := some "snapshot.storage.k8s.io", Kind := "VolumeSnapshot", Name := "s" }))
      none).Spec.DataSource =
      some { APIGroup := some "snapshot.storage.k8s.io", Kind := "VolumeSnapshot", Name := "s" } :=
  ⟨(DropDisabledFields_data_source _ _ _).2 (by simp [sampleCoreClaim]),
   (DropDisabledFields_data_source _ _ _).1
    (Or.inr (Or.inr (Or.inr (Or.inl ⟨_, rfl, rfl, rfl⟩))))⟩

/-- C26: after `DropDisabledFields` the allocated resources of the claim's
status are nil when the `RecoverVolumeExpansionFailure` gate is off and the old
claim is nil or has nil allocated resources; otherwise they are as supplied;
and the status is in every other field the status supplied. -/
theorem DropDisabledFields_allocated_resources (gates : FeatureGates) (pvc : CoreClaim)
    (oldPVC : Option CoreClaim) :
    ((gates.RecoverVolumeExpansionFailure = false ∧
        (oldPVC = none ∨ ∃ old, oldPVC = some old ∧ old.Status.AllocatedResources = none)) →
      (DropDisabledFields gates pvc oldPVC).Status =
        { pvc.Status with AllocatedResources := none }) ∧
    (¬ (gates.RecoverVolumeExpansionFailure = false ∧
        (oldPVC = none ∨ ∃ old, oldPVC = some old ∧ old.Status.AllocatedResources = none)) →
      (DropDisabledFields gates pvc oldPVC).Status = pvc.Status) := by
  have hst : (DropDisabledFields gates pvc oldPVC).Status =
      if (!gates.RecoverVolumeExpansionFailure && !allocatedResourcesInUse oldPVC)
      then { pvc.Status with AllocatedResources := none } else pvc.Status := by
    unfold DropDisabledFields
    simp only []
    split <;> split <;> simp_all
  have huse : allocatedResourcesInUse oldPVC = false ↔
      (oldPVC = none ∨ ∃ old, oldPVC = some old ∧ old.Status.AllocatedResources = none) := by
    cases oldPVC with
    | none => simp [allocatedResourcesInUse]
    | some old =>
      cases hd : old.Status.AllocatedResources <;> simp [allocatedResourcesInUse, hd]
  rw [hst]
  constructor
  · rintro ⟨hg, hu⟩
    simp [hg, huse.mpr hu]
  · intro h
    by_cases hg : gates.RecoverVolumeExpansionFailure = true
    · simp [hg]
    · have hg' : gates.RecoverVolumeExpansionFailure = false := by simpa using hg
      have hu : allocatedResourcesInUse oldPVC = true := by
        rw [← Bool.not_eq_false]
        intro hf
        exact h ⟨hg', huse.mp hf⟩
      simp [hu]

theorem DropDisabledFields_allocated_resources_witness :
    (DropDisabledFields { AnyVolumeDataSource := false, RecoverVolumeExpansionFailure := false }
      (sampleCoreClaim 10 (some 7) none) (some (sampleCoreClaim 10 none none))).Status =
      { (sampleCoreClaim 10 (some 7) none).Status with AllocatedResources := none } ∧
    (DropDisabledFields { AnyVolumeDataSource := false, RecoverVolumeExpansionFailure := false }
      (sampleCoreClaim 10 (some 7) none) (some (sampleCoreClaim 10 (some 5) none))).Status =
      (sampleCoreClaim 10 (some 7) none).Status :=
  ⟨(DropDisabledFields_allocated_resources _ _ _).1 ⟨rfl, Or.inr ⟨_, rfl, rfl⟩⟩,
   (DropDisabledFields_allocated_resources _ _ _).2 (by simp [sampleCoreClaim])⟩

/-- C27 (evaluation at the failing input): with the
`RecoverVolumeExpansionFailure` gate on, for an update in which the old claim
has allocated storage 10 and the new claim requests 20 and carries allocated
storage 5, `SetAllocatedResources` leaves the claim as supplied: its allocated
storage, 5, is below that of the old claim and below the requested storage. -/
theorem SetAllocatedResources_update_unchanged :
    SetAllocatedResources { AnyVolumeDataSource := false, RecoverVolumeExpansionFailure := true }
      (sampleCoreClaim 20 (some 5) none) (some (sampleCoreClaim 10 (some 10) none)) =
      sampleCoreClaim 20 (some 5) none ∧
    ((SetAllocatedResources
        { AnyVolumeDataSource := false, RecoverVolumeExpansionFailure := true }
        (sampleCoreClaim 20 (some 5) none)
        (some (sampleCoreClaim 10 (some 10) none))).Status.AllocatedResources.index
        ResourceStorage).Cmp
      ((sampleCoreClaim 10 (some 10) none).Status.AllocatedResources.index ResourceStorage) < 0 ∧
    ((SetAllocatedResources
        { AnyVolumeDataSource := false, RecoverVolumeExpansionFailure := true }
        (sampleCoreClaim 20 (some 5) none)
        (some (sampleCoreClaim 10 (some 10) none))).Status.AllocatedResources.index
        ResourceStorage).Cmp
      ((sampleCoreClaim 20 (some 5) none).Spec.Resources.Requests.index ResourceStorage) < 0 ∧
    (SetAllocatedResources
        { AnyVolumeDataSource := false, RecoverVolumeExpansionFailure := true }
        (sampleCoreClaim 20 (some 5) none) none).Status.AllocatedResources =
      (sampleCoreClaim 20 (some 5) none).Spec.Resources.Requests := by
  refine ⟨by decide, by decide, by decide, by decide⟩

/-! ## Resize conditions: merging twice -/

theorem mapLookup_of_mem {ν : Type} (k : String) (v : ν) (m : List (String × ν))
    (hn : (m.map Prod.fst).Nodup) (h : (k, v) ∈ m) : mapLookup k m = some v := by
  induction m with
  | nil => simp at h
  | cons y rest ih =>
    obtain ⟨a, b⟩ := y
    simp only [List.map_cons, List.nodup_cons] at hn
    rcases List.mem_cons.mp h with heq | hmem
    · simp only [Prod.mk.injEq] at heq
      simp [mapLookup, heq.1, heq.2]
    · have hne : a ≠ k := fun e => hn.1 (e ▸ List.mem_map_of_mem Prod.fst hmem)
      simp [mapLookup, hne, ih hn.2 hmem]

theorem filterMap_eq_self_of_some {α : Type} (f : α → Option α) (l : List α)
    (h : ∀ x ∈ l, f x = some x) : l.filterMap f = l := by
  induction l with
  | nil => rfl
  | cons x rest ih =>
    rw [List.filterMap_cons, h x (List.mem_cons_self _ _)]
    simp only
    rw [ih (fun y hy => h y (List.mem_cons_of_mem _ hy))]

theorem carryOne_fixed (m : List (String × resizeProcessStatus))
    (hm : ∀ x ∈ m, x.2.condition.Type_ = x.1)
    (c x : PersistentVolumeClaimCondition) (h : carryOne m c = some x) :
    carryOne m x = some x := by
  have ht := carryOne_type m hm c x h
  unfold carryOne at h ⊢
  by_cases hk : isKnownResizeCondition c.Type_ = true
  · cases hl : mapLookup c.Type_ m with
    | none => simp [hk, hl] at h
    | some e =>
      simp only [hk, hl, Bool.not_true, Bool.false_eq_true, if_false, Option.some.injEq] at h
      rw [ht]
      simp only [hk, hl, Bool.not_true, Bool.false_eq_true, if_false, Option.some.injEq]
      by_cases hs : (e.condition.Status != c.Status) = true
      · simp only [hs, if_true] at h
        subst h
        simp
      · simp only [hs, if_false] at h
        subst h
        simp [hs]
  · have hf : isKnownResizeCondition c.Type_ = false := by simpa using hk
    simp only [hf, Bool.not_false, if_true, Option.some.injEq] at h
    subst h
    simp [hf]

/-- C29: for a desired list made only of resize kinds, merging it into the
result of merging it into a claim gives exactly the conditions of the first
merge, in the same order, whatever the orders in which the two merges visit
their maps. -/
theorem merge_twice_same_conditions (ord ord2 : RangeOrder) (pvc : PersistentVolumeClaim)
    (desired : List PersistentVolumeClaimCondition)
    (h : ∀ d ∈ desired, isOtherCondition d = false) :
    (MergeResizeConditionOnPVC ord2 (MergeResizeConditionOnPVC ord pvc desired)
      desired).Status.Conditions =
      (MergeResizeConditionOnPVC ord pvc desired).Status.Conditions := by
  have hty := buildResizeConditionMap_type desired
  have hnd := buildResizeConditionMap_nodup desired
  have hknown : ∀ y ∈ buildResizeConditionMap desired, isKnownResizeCondition y.1 = true := by
    intro y hy
    have h1 := h _ (buildResizeConditionMap_entry desired y hy).1
    rw [isOtherCondition_eq, hty y hy] at h1
    simpa using h1
  have hfix : ∀ x ∈ (MergeResizeConditionOnPVC ord pvc desired).Status.Conditions,
      carryOne (buildResizeConditionMap desired) x = some x := by
    intro x hx
    rw [merge_conditions_eq, List.mem_append] at hx
    rcases hx with hx | hx
    · obtain ⟨c, _, hc⟩ := List.mem_filterMap.mp hx
      exact carryOne_fixed _ hty c x hc
    · obtain ⟨y, hy, rfl, _⟩ := mem_appended ord _ _ x hx
      have hl : mapLookup y.1 (buildResizeConditionMap desired) = some y.2 :=
        mapLookup_of_mem _ _ _ hnd hy
      simp [carryOne, hty y hy, hknown y hy, hl]
  have hall : ∀ y ∈ buildResizeConditionMap desired,
      (MergeResizeConditionOnPVC ord pvc desired).Status.Conditions.any
        (fun c => c.Type_ == y.1) = true := by
    intro y hy
    rw [merge_conditions_eq, List.any_append, Bool.or_eq_true]
    by_cases hany : pvc.Status.Conditions.any (fun c => c.Type_ == y.1) = true
    · left
      obtain ⟨c, hc, hcy⟩ := List.any_eq_true.mp hany
      have hcy' : c.Type_ = y.1 := by simpa using hcy
      have hl : mapLookup c.Type_ (buildResizeConditionMap desired) = some y.2 := by
        rw [hcy']
        exact mapLookup_of_mem _ _ _ hnd hy
      have hk : isKnownResizeCondition c.Type_ = true := by
        rw [hcy']
        exact hknown y hy
      have hcar : carryOne (buildResizeConditionMap desired) c =
          some (if (y.2.condition.Status != c.Status) = true then y.2.condition else c) := by
        simp [carryOne, hk, hl]
      refine List.any_eq_true.mpr ⟨_, List.mem_filterMap.mpr ⟨c, hc, hcar⟩, ?_⟩
      have := carryOne_type _ hty c _ hcar
      rw [this, hcy']
      simp
    · right
      have hany' : pvc.Status.Conditions.any (fun c => c.Type_ == y.1) = false := by
        simpa using hany
      have hproc := (buildResizeConditionMap_entry desired y hy).2.2
      have hun : unprocessedCondition (markProcessed pvc.Status.Conditions y) =
          some y.2.condition := by
        simp [unprocessedCondition, markProcessed, hproc, hany']
      have hmem : markProcessed pvc.Status.Conditions y ∈
          ord.visit ((buildResizeConditionMap desired).map
            (markProcessed pvc.Status.Conditions)) :=
        (ord.perm _).mem_iff.mpr (List.mem_map_of_mem _ hy)
      refine List.any_eq_true.mpr ⟨y.2.condition, List.mem_filterMap.mpr ⟨_, hmem, hun⟩, ?_⟩
      simp [hty y hy]
  rw [merge_conditions_eq ord2, filterMap_eq_self_of_some _ _ hfix]
  have hnil : (ord2.visit ((buildResizeConditionMap desired).map
      (markProcessed (MergeResizeConditionOnPVC ord pvc desired).Status.Conditions))).filterMap
        unprocessedCondition = [] := by
    rw [List.filterMap_eq_nil_iff]
    intro z hz
    have hz' := (ord2.perm _).mem_iff.mp hz
    obtain ⟨y, hy, rfl⟩ := List.mem_map.mp hz'
    simp [unprocessedCondition, markProcessed, hknown y hy, hall y hy]
  rw [hnil, List.append_nil]

theorem merge_twice_same_conditions_witness :
    (MergeResizeConditionOnPVC RangeOrder.reversed
      (MergeResizeConditionOnPVC RangeOrder.stored
        (sampleClaim "a" 10 5 [sampleCondition "Ready" "True" 1,
          sampleCondition "Resizing" "True" 2])
        [sampleCondition "FileSystemResizePending" "True" 5,
          sampleCondition "Resizing" "False" 7])
      [sampleCondition "FileSystemResizePending" "True" 5,
        sampleCondition "Resizing" "False" 7]).Status.Conditions =
      (MergeResizeConditionOnPVC RangeOrder.stored
        (sampleClaim "a" 10 5 [sampleCondition "Ready" "True" 1,
          sampleCondition "Resizing" "True" 2])
        [sampleCondition "FileSystemResizePending" "True" 5,
          sampleCondition "Resizing" "False" 7]).Status.Conditions :=
  merge_twice_same_conditions RangeOrder.stored RangeOrder.reversed
    (sampleClaim "a" 10 5 [sampleCondition "Ready" "True" 1, sampleCondition "Resizing" "True" 2])
    [sampleCondition "FileSystemResizePending" "True" 5, sampleCondition "Resizing" "False" 7]
    (by decide)

/-! ## CSI volume limits: lemmas -/

theorem mapLookup_isSome_iff {ν : Type} (k : String) (m : List (String × ν)) :
    (mapLookup k m).isSome = true ↔ k ∈ m.map Prod.fst := by
  induction m with
  | nil => simp [mapLookup]
  | cons y rest ih =>
    obtain ⟨a, b⟩ := y
    by_cases h : a = k
    · simp [mapLookup, h]
    · have h' : ¬ k = a := fun e => h e.symm
      simp [mapLookup, h, h', ih]

theorem countAttached_loop (attached : List (String × String)) :
    ∀ (state : List (String × String) × List (String × Int)),
      attached.foldl
        (fun state entry =>
          (if (mapLookup entry.1 state.1).isSome then mapDelete entry.1 state.1 else state.1,
            mapIncrement entry.2 state.2)) state =
      (state.1.filter (fun x => !(attached.map Prod.fst).contains x.1),
        (attached.map Prod.snd).foldl (fun m key => mapIncrement key m) state.2) := by
  induction attached with
  | nil =>
    intro state
    simp
  | cons e rest ih =>
    intro state
    have hdel : (if (mapLookup e.1 state.1).isSome then mapDelete e.1 state.1 else state.1) =
        state.1.filter (fun x => x.1 != e.1) := by
      by_cases hs : (mapLookup e.1 state.1).isSome = true
      · simp [hs, mapDelete]
      · have hn : mapLookup e.1 state.1 = none := by
          cases h : mapLookup e.1 state.1 with
          | none => rfl
          | some v => simp [h] at hs
        simp only [hs, Bool.false_eq_true, if_false]
        symm
        rw [List.filter_eq_self]
        intro x hx
        exact bne_iff_ne.mpr (mapLookup_eq_none _ _ hn x hx)
    simp only [List.foldl_cons, List.map_cons]
    rw [ih, hdel, List.filter_filter]
    congr 1
    apply List.filter_congr
    intro x _
    by_cases hx : x.1 = e.1
    · simp [hx]
    · have hb : (x.1 == e.1) = false := beq_eq_false_iff_ne.mpr hx
      simp [List.contains_cons, hb, hx]

theorem countAttached_eq (attached newVolumes : List (String × String)) :
    countAttached attached newVolumes =
      (newVolumes.filter (fun x => !(attached.map Prod.fst).contains x.1),
        (attached.map Prod.snd).foldl (fun m key => mapIncrement key m) []) := by
  unfold countAttached
  exact countAttached_loop attached (newVolumes, [])

theorem countNew_eq (newVolumes : List (String × String)) :
    countNew newVolumes = (newVolumes.map Prod.snd).foldl (fun m key => mapIncrement key m) [] := by
  unfold countNew
  rw [List.foldl_map]

theorem mapLookup_increments (keys : List String) (k : String) :
    ∀ m : List (String × Int),
      mapLookup k (keys.foldl (fun m key => mapIncrement key m) m) =
        if k ∈ keys then some ((mapLookup k m).getD 0 + (keys.count k : Int))
        else mapLookup k m := by
  induction keys with
  | nil => intro m; simp
  | cons a rest ih =>
    intro m
    simp only [List.foldl_cons]
    rw [ih]
    have hl : mapLookup k (mapIncrement a m) =
        if a = k then some ((mapLookup a m).getD 0 + 1) else mapLookup k m := by
      unfold mapIncrement
      rw [mapLookup_mapAssign]
    by_cases hak : a = k
    · subst hak
      by_cases hmem : a ∈ rest
      · simp only [hmem, if_true, hl, Option.getD_some, List.mem_cons, true_or,
          List.count_cons_self]
        congr 1
        push_cast
        ring
      · simp only [hmem, if_false, hl, if_true, List.mem_cons, true_or, List.count_cons_self,
          List.count_eq_zero_of_not_mem hmem]
        simp
    · have hka : ¬ k = a := fun e => hak e.symm
      have hc : (a :: rest).count k = rest.count k := by
        rw [List.count_cons_of_ne hka]
      simp only [hl, hak, if_false, List.mem_cons, hka, false_or, hc]

theorem nodup_keys_increments (keys : List String) :
    ∀ m : List (String × Int), (m.map Prod.fst).Nodup →
      ((keys.foldl (fun m key => mapIncrement key m) m).map Prod.fst).Nodup := by
  induction keys with
  | nil => intro m h; exact h
  | cons a rest ih =>
    intro m h
    exact ih _ (nodup_keys_mapAssign _ _ _ h)

theorem withinLimits_eq_false (limits attachedCount : List (String × Int)) :
    ∀ entries : List (String × Int),
      withinLimits limits attachedCount entries = false ↔
        ∃ e ∈ entries, ∃ maxVolumeLimit, mapLookup e.1 limits = some maxVolumeLimit ∧
          (mapLookup e.1 attachedCount).getD 0 + e.2 > maxVolumeLimit := by
  intro entries
  induction entries with
  | nil => simp [withinLimits]
  | cons e rest ih =>
    obtain ⟨key, count⟩ := e
    cases hl : mapLookup key limits with
    | none =>
      simp only [withinLimits, hl, ih, List.mem_cons]
      constructor
      · rintro ⟨e, he, hx⟩
        exact ⟨e, Or.inr he, hx⟩
      · rintro ⟨e, he | he, m, hm, hx⟩
        · subst he
          simp [hl] at hm
        · exact ⟨e, he, m, hm, hx⟩
    | some maxLimit =>
      by_cases hgt : (mapLookup key attachedCount).getD 0 + count > maxLimit
      · simp only [withinLimits, hl, hgt, if_true, List.mem_cons, true_iff]
        exact ⟨(key, count), Or.inl rfl, maxLimit, hl, hgt⟩
      · simp only [withinLimits, hl, hgt, if_false, ih, List.mem_cons]
        constructor
        · rintro ⟨e, he, hx⟩
          exact ⟨e, Or.inr he, hx⟩
        · rintro ⟨e, he | he, m, hm, hx⟩
          · subst he
            simp only [hl, Option.some.injEq] at hm
            subst hm
            exact absurd hx hgt
          · exact ⟨e, he, m, hm, hx⟩

theorem count_map_snd (l : List (String × String)) (key : String) :
    (l.map Prod.snd).count key = l.countP (fun x => x.2 == key) := by
  induction l with
  | nil => rfl
  | cons x rest ih =>
    by_cases h : x.2 = key
    · simp [List.count_cons, List.countP_cons, h, ih]
    · have hb : (x.2 == key) = false := beq_eq_false_iff_ne.mpr h
      simp [List.count_cons, List.countP_cons, hb, ih]

theorem mem_map_snd_iff_countP (l : List (String × String)) (key : String) :
    key ∈ l.map Prod.snd ↔ 1 ≤ l.countP (fun x => x.2 == key) := by
  rw [← count_map_snd, List.one_le_count_iff]

theorem mapLookup_key_counts (ord : RangeOrder) (l : List (String × String)) (key : String) :
    mapLookup key (((ord.visit l).map Prod.snd).foldl (fun m k => mapIncrement k m) []) =
      if 1 ≤ l.countP (fun x => x.2 == key) then
        some ((l.countP (fun x => x.2 == key) : Nat) : Int)
      else none := by
  have hp : ((ord.visit l).map Prod.snd).Perm (l.map Prod.snd) := (ord.perm l).map Prod.snd
  have hmem : key ∈ (ord.visit l).map Prod.snd ↔ 1 ≤ l.countP (fun x => x.2 == key) := by
    rw [hp.mem_iff]
    exact mem_map_snd_iff_countP l key
  have hcount : ((ord.visit l).map Prod.snd).count key = l.countP (fun x => x.2 == key) := by
    rw [hp.count_eq, count_map_snd]
  rw [mapLookup_increments, hcount]
  by_cases h : 1 ≤ l.countP (fun x => x.2 == key)
  · rw [if_pos (hmem.mpr h), if_pos h]
    simp [mapLookup]
  · rw [if_neg (fun hm => h (hmem.mp hm)), if_neg h]
    rfl

theorem getD_key_counts (ord : RangeOrder) (l : List (String × String)) (key : String) :
    (mapLookup key (((ord.visit l).map Prod.snd).foldl (fun m k => mapIncrement k m) [])).getD 0 =
      ((l.countP (fun x => x.2 == key) : Nat) : Int) := by
  rw [mapLookup_key_counts]
  by_cases h : 1 ≤ l.countP (fun x => x.2 == key)
  · simp [h]
  · have h0 : l.countP (fun x => x.2 == key) = 0 := by omega
    simp [h0]

theorem not_attached_filter (ord : RangeOrder) (attached newVolumes : List (String × String)) :
    newVolumes.filter (fun x => !((ord.visit attached).map Prod.fst).contains x.1) =
      newVolumes.filter (fun x => (mapLookup x.1 attached).isNone) := by
  apply List.filter_congr
  intro x _
  have hp : ((ord.visit attached).map Prod.fst).Perm (attached.map Prod.fst) :=
    (ord.perm attached).map Prod.fst
  by_cases hm : x.1 ∈ attached.map Prod.fst
  · have h1 : (mapLookup x.1 attached).isSome = true := (mapLookup_isSome_iff _ _).mpr hm
    have h2 : ((ord.visit attached).map Prod.fst).contains x.1 = true :=
      List.elem_iff.mpr (hp.mem_iff.mpr hm)
    cases hl : mapLookup x.1 attached with
    | none => simp [hl] at h1
    | some v =>
      rw [h2]
      rfl
  · have h1 : ¬ (mapLookup x.1 attached).isSome = true :=
      fun h => hm ((mapLookup_isSome_iff _ _).mp h)
    have h2 : ((ord.visit attached).map Prod.fst).contains x.1 = false := by
      rw [← Bool.not_eq_true]
      exact fun h => hm (hp.mem_iff.mp (List.elem_iff.mp h))
    cases hl : mapLookup x.1 attached with
    | none =>
      rw [h2]
      rfl
    | some v => simp [hl] at h1

/-- The three counting loops of `attachableLimitPredicate` find a limit
exceeded exactly when some limit key with a node limit has at least one new
volume and more attached and new volumes than the limit, the new volumes being
the entries of `newVolumes` whose handle has no entry in `attachedVolumes`. -/
theorem limits_exceeded_iff (ord1 ord2 ord3 : RangeOrder) (limits : List (String × Int))
    (attached newVolumes : List (String × String)) :
    withinLimits limits (countAttached (ord1.visit attached) newVolumes).2
        (ord3.visit (countNew (ord2.visit (countAttached (ord1.visit attached) newVolumes).1)))
        = false ↔
      ∃ key maxVolumeLimit, mapLookup key limits = some maxVolumeLimit ∧
        1 ≤ (newVolumes.filter (fun x => (mapLookup x.1 attached).isNone)).countP
          (fun x => x.2 == key) ∧
        ((attached.countP (fun x => x.2 == key) : Nat) : Int) +
          (((newVolumes.filter (fun x => (mapLookup x.1 attached).isNone)).countP
            (fun x => x.2 == key) : Nat) : Int) > maxVolumeLimit := by
  rw [countAttached_eq, not_attached_filter, countNew_eq, withinLimits_eq_false]
  generalize newVolumes.filter (fun x => (mapLookup x.1 attached).isNone) = fresh
  have hnd : ((((ord2.visit fresh).map Prod.snd).foldl (fun m k => mapIncrement k m)
      ([] : List (String × Int))).map Prod.fst).Nodup :=
    nodup_keys_increments _ [] (by simp)
  constructor
  · rintro ⟨e, he, maxLimit, hmax, hgt⟩
    have he' := (ord3.perm _).mem_iff.mp he
    have hl := mapLookup_of_mem e.1 e.2 _ hnd he'
    rw [mapLookup_key_counts] at hl
    rw [getD_key_counts] at hgt
    by_cases h1 : 1 ≤ fresh.countP (fun x => x.2 == e.1)
    · simp only [h1, if_true, Option.some.injEq] at hl
      refine ⟨e.1, maxLimit, hmax, h1, ?_⟩
      rw [hl]
      exact hgt
    · simp [h1] at hl
  · rintro ⟨key, maxLimit, hmax, h1, hgt⟩
    have hl : mapLookup key (((ord2.visit fresh).map Prod.snd).foldl
        (fun m k => mapIncrement k m) []) =
        some ((fresh.countP (fun x => x.2 == key) : Nat) : Int) := by
      rw [mapLookup_key_counts]
      simp [h1]
    refine ⟨(key, ((fresh.countP (fun x => x.2 == key) : Nat) : Int)),
      (ord3.perm _).mem_iff.mpr (mapLookup_mem _ _ _ hl), maxLimit, hmax, ?_⟩
    rw [getD_key_counts]
    exact hgt

theorem filterAttachableVolumes_nodup (c : CSIMaxVolumeLimitChecker) (nodeInfo : NodeInfo)
    (namespace_ : String) (volumes : List Volume) :
    ∀ (start result : List (String × String)), (start.map Prod.fst).Nodup →
      c.filterAttachableVolumes nodeInfo volumes namespace_ start = .ok result →
      (result.map Prod.fst).Nodup := by
  induction volumes with
  | nil =>
    intro start result hn h
    simp only [CSIMaxVolumeLimitChecker.filterAttachableVolumes, Except.ok.injEq] at h
    rw [← h]
    exact hn
  | cons vol rest ih =>
    intro start result hn h
    unfold CSIMaxVolumeLimitChecker.filterAttachableVolumes at h
    cases hv : c.attachableVolume nodeInfo namespace_ vol with
    | error err => simp [hv] at h
    | ok use =>
      cases use with
      | none =>
        simp only [hv] at h
        exact ih start result hn h
      | some use =>
        obtain ⟨handle, key⟩ := use
        simp only [hv] at h
        exact ih _ result (nodup_keys_mapAssign _ _ _ hn) h

theorem filterExistingPods_nodup (c : CSIMaxVolumeLimitChecker) (nodeInfo : NodeInfo)
    (pods : List Pod) :
    ∀ (start result : List (String × String)), (start.map Prod.fst).Nodup →
      c.filterExistingPods nodeInfo pods start = .ok result → (result.map Prod.fst).Nodup := by
  induction pods with
  | nil =>
    intro start result hn h
    simp only [CSIMaxVolumeLimitChecker.filterExistingPods, Except.ok.injEq] at h
    rw [← h]
    exact hn
  | cons pod rest ih =>
    intro start result hn h
    unfold CSIMaxVolumeLimitChecker.filterExistingPods at h
    cases hv : c.filterAttachableVolumes nodeInfo pod.Volumes pod.Namespace start with
    | error err => simp [hv] at h
    | ok attached =>
      simp only [hv] at h
      exact ih attached result (filterAttachableVolumes_nodup c nodeInfo _ _ _ _ hn hv) h

theorem filterAttachableVolumes_empty_name (c : CSIMaxVolumeLimitChecker) (nodeInfo : NodeInfo)
    (namespace_ : String) (volumes : List Volume)
    (h : ∃ vol ∈ volumes, ∃ source, vol.PersistentVolumeClaim = some source ∧
      source.ClaimName = "") :
    ∀ start, ∃ err, c.filterAttachableVolumes nodeInfo volumes namespace_ start = .error err := by
  induction volumes with
  | nil =>
    obtain ⟨vol, hv, _⟩ := h
    simp at hv
  | cons vol rest ih =>
    intro start
    unfold CSIMaxVolumeLimitChecker.filterAttachableVolumes
    cases hv : c.attachableVolume nodeInfo namespace_ vol with
    | error err => exact ⟨err, rfl⟩
    | ok use =>
      have hrest : ∃ v ∈ rest, ∃ source, v.PersistentVolumeClaim = some source ∧
          source.ClaimName = "" := by
        obtain ⟨v, hmem, source, hs, hn⟩ := h
        rcases List.mem_cons.mp hmem with rfl | hmem
        · simp [CSIMaxVolumeLimitChecker.attachableVolume, hs, hn] at hv
        · exact ⟨v, hmem, source, hs, hn⟩
      cases use with
      | none => exact ih hrest start
      | some use => exact ih hrest _

/-! ## CSI volume limits: theorems -/

/-- C30 (evaluation at the failing input): the node limits the key of driver
`d1` to 1; the pods on the node use the handle `h` with that key (claim `c1`
of pod `p1`) and the same handle with the key of driver `d2` (claim `c2` of pod
`p2`); the new pod uses the handle `g` with the key of `d1`.  One distinct
handle with the key of `d1` is used on the node and the new pod adds one,
2 > 1, yet with the pods listed `p1`, `p2` the predicate accepts: the map of
attached volumes is keyed by the handle alone and holds `h` once, under the key
of `d2`.  With the same pods listed `p2`, `p1` it holds `h` under the key of
`d1` and the predicate rejects. -/
theorem attachableLimitPredicate_handle_under_two_keys :
    sampleChecker.attachableLimitPredicate RangeOrder.stored RangeOrder.stored RangeOrder.stored
      true (samplePod "new" ["c3"])
      { VolumeLimits := [("attachable-volumes-csi-d1", 1)]
        Pods := [samplePod "p1" ["c1"], samplePod "p2" ["c2"]], CSINode := none } =
      (true, [], none) ∧
    handlesWithKey
      (sampleChecker.volumeUses
        { VolumeLimits := [("attachable-volumes-csi-d1", 1)]
          Pods := [samplePod "p1" ["c1"], samplePod "p2" ["c2"]], CSINode := none }
        "default" ((samplePod "p1" ["c1"]).Volumes ++ (samplePod "p2" ["c2"]).Volumes))
      "attachable-volumes-csi-d1" = ["h"] ∧
    handlesWithKey
      (sampleChecker.volumeUses
        { VolumeLimits := [("attachable-volumes-csi-d1", 1)]
          Pods := [samplePod "p1" ["c1"], samplePod "p2" ["c2"]], CSINode := none }
        "default" (samplePod "new" ["c3"]).Volumes)
      "attachable-volumes-csi-d1" = ["g"] ∧
    mapLookup "attachable-volumes-csi-d1" [("attachable-volumes-csi-d1", (1 : Int))] = some 1 ∧
    ((["h"].length : Int) + (["g"].length : Int) > 1) ∧
    sampleChecker.filterExistingPods
      { VolumeLimits := [("attachable-volumes-csi-d1", 1)]
        Pods := [samplePod "p1" ["c1"], samplePod "p2" ["c2"]], CSINode := none }
      [samplePod "p1" ["c1"], samplePod "p2" ["c2"]] [] =
      .ok [("h", "attachable-volumes-csi-d2")] ∧
    sampleChecker.attachableLimitPredicate RangeOrder.stored RangeOrder.stored RangeOrder.stored
      true (samplePod "new" ["c3"])
      { VolumeLimits := [("attachable-volumes-csi-d1", 1)]
        Pods := [samplePod "p2" ["c2"], samplePod "p1" ["c1"]], CSINode := none } =
      (false, [ErrMaxVolumeCountExceeded], none) := by
  refine ⟨by decide, by decide, by decide, by decide, by decide, rfl, by decide⟩

/-- What `attachableLimitPredicate` computes, over the maps it builds: it accepts
when the gate is off, the pod has no volumes or the node has no limits.  Otherwise a pod volume with an
empty claim name yields an error; with no error, the predicate accepts when
the pod has no countable volume, and else it rejects with
`ErrMaxVolumeCountExceeded` exactly when for some limit key with a node limit L
the attached volumes under that key plus the new volumes under that key, at
least one, exceed L, and accepts otherwise.  The counts are over the maps
built by `filterAttachableVolumes`, which hold each volume handle once: the
attached volumes are the entries of the map of the pods on the node, the new
volumes the entries of the pod's map whose handle has no entry in that map. -/
theorem attachableLimitPredicate_counts (c : CSIMaxVolumeLimitChecker)
    (ord1 ord2 ord3 : RangeOrder) (gate : Bool) (pod : Pod) (nodeInfo : NodeInfo) :
    ((gate = false ∨ pod.Volumes = [] ∨ nodeInfo.VolumeLimits = []) →
      c.attachableLimitPredicate ord1 ord2 ord3 gate pod nodeInfo = (true, [], none)) ∧
    (gate = true → pod.Volumes ≠ [] → nodeInfo.VolumeLimits ≠ [] →
      ((∃ vol ∈ pod.Volumes, ∃ source, vol.PersistentVolumeClaim = some source ∧
          source.ClaimName = "") →
        ∃ err, c.attachableLimitPredicate ord1 ord2 ord3 gate pod nodeInfo =
          (false, [], some err)) ∧
      (∀ newVolumes,
        c.filterAttachableVolumes nodeInfo pod.Volumes pod.Namespace [] = .ok newVolumes →
        (newVolumes = [] →
          c.attachableLimitPredicate ord1 ord2 ord3 gate pod nodeInfo = (true, [], none)) ∧
        (∀ attached, newVolumes ≠ [] →
          c.filterExistingPods nodeInfo nodeInfo.Pods [] = .ok attached →
          (newVolumes.map Prod.fst).Nodup ∧ (attached.map Prod.fst).Nodup ∧
          (c.attachableLimitPredicate ord1 ord2 ord3 gate pod nodeInfo =
              (false, [ErrMaxVolumeCountExceeded], none) ↔
            ∃ key maxVolumeLimit, mapLookup key nodeInfo.VolumeLimits = some maxVolumeLimit ∧
              1 ≤ (newVolumes.filter (fun x => (mapLookup x.1 attached).isNone)).countP
                (fun x => x.2 == key) ∧
              ((attached.countP (fun x => x.2 == key) : Nat) : Int) +
                (((newVolumes.filter (fun x => (mapLookup x.1 attached).isNone)).countP
                  (fun x => x.2 == key) : Nat) : Int) > maxVolumeLimit) ∧
          (c.attachableLimitPredicate ord1 ord2 ord3 gate pod nodeInfo =
              (false, [ErrMaxVolumeCountExceeded], none) ∨
            c.attachableLimitPredicate ord1 ord2 ord3 gate pod nodeInfo = (true, [], none))))) := by
  refine ⟨?_, ?_⟩
  · intro h
    unfold CSIMaxVolumeLimitChecker.attachableLimitPredicate
    rcases h with h | h | h
    · simp [h]
    · simp [h]
    · simp [h]
  · intro hg hv hl
    have hv' : ¬ pod.Volumes.length = 0 := fun e => hv (List.length_eq_zero.mp e)
    have hl' : ¬ nodeInfo.VolumeLimits.length = 0 := fun e => hl (List.length_eq_zero.mp e)
    refine ⟨?_, ?_⟩
    · intro hempty
      obtain ⟨err, herr⟩ := filterAttachableVolumes_empty_name c nodeInfo pod.Namespace
        pod.Volumes hempty []
      refine ⟨err, ?_⟩
      unfold CSIMaxVolumeLimitChecker.attachableLimitPredicate
      simp [hg, hv', hl', herr]
    · intro newVolumes hnew
      refine ⟨?_, ?_⟩
      · intro hnil
        unfold CSIMaxVolumeLimitChecker.attachableLimitPredicate
        simp [hg, hv', hl', hnew, hnil]
      · intro attached hne hatt
        have hne' : ¬ newVolumes.length = 0 := fun e => hne (List.length_eq_zero.mp e)
        have hres : c.attachableLimitPredicate ord1 ord2 ord3 gate pod nodeInfo =
            if withinLimits nodeInfo.VolumeLimits
                (countAttached (ord1.visit attached) newVolumes).2
                (ord3.visit (countNew (ord2.visit
                  (countAttached (ord1.visit attached) newVolumes).1))) = true
            then (true, [], none) else (false, [ErrMaxVolumeCountExceeded], none) := by
          unfold CSIMaxVolumeLimitChecker.attachableLimitPredicate
          simp only [hg, Bool.not_true, Bool.false_eq_true, if_false, hv', hl', hnew, hne',
            hatt]
        have hiff := limits_exceeded_iff ord1 ord2 ord3 nodeInfo.VolumeLimits attached newVolumes
        refine ⟨filterAttachableVolumes_nodup c nodeInfo _ _ [] newVolumes (by simp) hnew,
          filterExistingPods_nodup c nodeInfo _ [] attached (by simp) hatt, ?_, ?_⟩
        · rw [← hiff, hres]
          cases hw : withinLimits nodeInfo.VolumeLimits
              (countAttached (ord1.visit attached) newVolumes).2
              (ord3.visit (countNew (ord2.visit
                (countAttached (ord1.visit attached) newVolumes).1))) <;> simp
        · rw [hres]
          cases hw : withinLimits nodeInfo.VolumeLimits
              (countAttached (ord1.visit attached) newVolumes).2
              (ord3.visit (countNew (ord2.visit
                (countAttached (ord1.visit attached) newVolumes).1))) <;> simp

theorem attachableLimitPredicate_counts_witness :
    sampleChecker.attachableLimitPredicate RangeOrder.stored RangeOrder.reversed
      RangeOrder.stored true (samplePod "new" ["c3"])
      { VolumeLimits := [("attachable-volumes-csi-d1", 1)]
        Pods := [samplePod "p1" ["c1"]], CSINode := none } =
      (false, [ErrMaxVolumeCountExceeded], none) ↔
    ∃ key maxVolumeLimit,
      mapLookup key [("attachable-volumes-csi-d1", (1 : Int))] = some maxVolumeLimit ∧
      1 ≤ ([("g", "attachable-volumes-csi-d1")].filter
        (fun x => (mapLookup x.1 [("h", "attachable-volumes-csi-d1")]).isNone)).countP
          (fun x => x.2 == key) ∧
      (([("h", "attachable-volumes-csi-d1")].countP (fun x => x.2 == key) : Nat) : Int) +
        ((([("g", "attachable-volumes-csi-d1")].filter
          (fun x => (mapLookup x.1 [("h", "attachable-volumes-csi-d1")]).isNone)).countP
            (fun x => x.2 == key) : Nat) : Int) > maxVolumeLimit :=
  ((((attachableLimitPredicate_counts sampleChecker RangeOrder.stored RangeOrder.reversed
    RangeOrder.stored true (samplePod "new" ["c3"])
    { VolumeLimits := [("attachable-volumes-csi-d1", 1)]
      Pods := [samplePod "p1" ["c1"]], CSINode := none }).2 rfl (by decide) (by decide)).2
    [("g", "attachable-volumes-csi-d1")] (by rfl)).2
    [("h", "attachable-volumes-csi-d1")] (by decide) (by rfl)).2.2.1

end Expand
